import Mathlib

/-!
# InterOp: quality-score histograms, heat-map grid and flowcell-map scaling

A shallow embedding of

* `interop/model/metrics/q_metric.h` (`q_score_bin`, `q_score_header`, `q_metric`),
* `interop/model/plot/heatmap_data.h` (`heatmap_data`),
* `interop/logic/plot/plot_flowcell_map.h` (`populate_flowcell_map`, `plot_flowcell_map` and its
  range scaling),

followed by theorems about these definitions.

Conventions of the embedding.

* `uint_t` is a 32-bit unsigned integer: counts are natural numbers and every addition or
  multiplication the source performs on `uint_t` is reduced modulo `2^32`.
* Vector positions (`size_t` loop counters, and the `uint_t` counter of `median`, which is bounded
  by the vector length) are natural numbers; the binary formats bound the length by `MAX_Q_BINS`.
* Where the arithmetic of `float` matters (the range scaling, the percent functions, the values
  that the populator collects) the type is `float32`: IEEE 754 binary32 with round-to-nearest-even,
  subnormal values, infinities and not-a-number. The definitions over `ℚ` of the same statements
  (`scale_range`, `general_range`, `percent_of`, the populator over `Option ℚ` with `none` for
  not-a-number) take every operation exactly and carry the statements that do not depend on the
  arithmetic; the cells of `heatmap_data` are stored and compared, never computed with, and are
  rational numbers.
* The grid write `set_data` throws `index_out_of_bounds_exception`:
  `populate_flowcell_map_checked` and `plot_flowcell_map_checked` are the populator and the plot
  function with that exception and with `float` values; `populate_flowcell_map` and
  `plot_flowcell_map` are the same functions on the runs in which no grid write throws, with the
  arithmetic taken exactly.
* `INTEROP_ASSERT` does not change the value a function returns and is recorded in comments,
  except in the grid accessors, where a violated assertion is the outcome `undefined`.
-/

namespace interop

/-! ## Quality-score histogram (`q_metric.h`) -/

/-- Number of values of `uint_t`, the 32-bit unsigned integer of the metric classes (its typedef
is in `base_metric.h`, which is not among the sources; `q_metric.h` fills a `uint_vector` from a
`::uint32_t` array). -/
def UINT_MODULUS : Nat := 4294967296

/-- The value `std::numeric_limits<uint_t>::max()`. -/
def UINT_MAX : Nat := 4294967295

/-- Number of values of `size_t`, taken as a 64-bit unsigned integer. -/
def SIZE_MODULUS : Nat := 18446744073709551616

/-- Bin in the q-score histogram (`q_score_bin`); the three members are 16-bit unsigned. -/
structure q_score_bin where
  m_lower : Nat
  m_upper : Nat
  m_value : Nat
deriving DecidableEq, Repr

/-- The constructor `q_score_bin(lower = 0, upper = 0, value = 0)` with all its defaults. -/
instance : Inhabited q_score_bin := ⟨⟨0, 0, 0⟩⟩

/-- The accessor `q_score_bin::value`. -/
def q_score_bin.value (b : q_score_bin) : Nat := b.m_value

/-- The enumerator `q_score_header::MAX_Q_BINS`, shared by `q_metric::MAX_Q_BINS`. -/
def MAX_Q_BINS : Nat := 50

/-- The vector type `qscore_bin_vector_type`. -/
abbrev qscore_bin_vector_type := List q_score_bin

/-- The vector type `uint_vector`. -/
abbrev uint_vector := List Nat

/-- The class `q_metric`: identity of the record (from `base_cycle_metric`), the raw histogram and
the cumulative histogram. -/
structure q_metric where
  lane : Nat
  tile : Nat
  cycle : Nat
  m_qscore_hist : uint_vector
  m_qscore_hist_cumulative : uint_vector
deriving DecidableEq, Repr

/-- The call `std::accumulate(first, last, 0)` over `uint_t` elements, converted to `uint_t` on
return: the `int` accumulator is added to a `uint_t` in unsigned arithmetic at every step, so the
result is the sum modulo `2^32`. -/
def accumulate_uint (xs : List Nat) : Nat :=
  xs.foldl (fun acc x => (acc + x) % UINT_MODULUS) 0

/-- The member `q_metric::size`. -/
def q_metric.size (h : q_metric) : Nat := h.m_qscore_hist.length

/-- The member `q_metric::sum_qscore`. -/
def q_metric.sum_qscore (h : q_metric) : Nat := accumulate_uint h.m_qscore_hist

/-- The member `q_metric::sum_qscore_cumulative`. -/
def q_metric.sum_qscore_cumulative (h : q_metric) : Nat :=
  accumulate_uint h.m_qscore_hist_cumulative

/-- The loop `for (i = 0; i < bins.size(); i++) if (bins[i].value() >= qscore) totalCount += hist[i]`
shared by `total_over_qscore` and `total_over_qscore_cumulative`. Reading `hist[i]` past the end of
`hist` is undefined in the source; the model reads 0 there. -/
def total_over_bins (hist : uint_vector) (qscore : Nat) (bins : qscore_bin_vector_type) : Nat :=
  (List.range bins.length).foldl
    (fun totalCount i =>
      if qscore ≤ (bins.getD i default).value then (totalCount + hist.getD i 0) % UINT_MODULUS
      else totalCount)
    0

/-- The body shared by `total_over_qscore` and `total_over_qscore_cumulative`, over the vector
either of them reads. -/
def total_over (hist : uint_vector) (qscore : Nat) (bins : qscore_bin_vector_type) : Nat :=
  if bins.length = 0 then
    if qscore ≤ hist.length then accumulate_uint (hist.drop qscore) else 0
  else total_over_bins hist qscore bins

/-- The member `q_metric::total_over_qscore(qscore, bins)`; the overload without a bin table passes
the empty table. -/
def q_metric.total_over_qscore (h : q_metric) (qscore : Nat)
    (bins : qscore_bin_vector_type := []) : Nat :=
  total_over h.m_qscore_hist qscore bins

/-- The member `q_metric::total_over_qscore_cumulative(qscore, bins)`. The source asserts that the
cumulative vector is not empty and, for an empty bin table, that `qscore > 0`. -/
def q_metric.total_over_qscore_cumulative (h : q_metric) (qscore : Nat)
    (bins : qscore_bin_vector_type := []) : Nat :=
  total_over h.m_qscore_hist_cumulative qscore bins

/-- The expression `100 * total_count / total` of the three percent functions: `100 * total_count`
is a product of an `int` and a `uint_t`, computed in 32-bit unsigned arithmetic, and only then
converted to `float` and divided. `none` is not-a-number. The two conversions and the division
are taken exactly here; `percent_of_binary32` rounds them as `float` does. -/
def percent_of (total total_count : Nat) : Option ℚ :=
  if (total : ℚ) = 0 then none
  else some (((100 * total_count % UINT_MODULUS : Nat) : ℚ) / (total : ℚ))

/-- The member `q_metric::percent_over_qscore(qscore, bins)`. -/
def q_metric.percent_over_qscore (h : q_metric) (qscore : Nat)
    (bins : qscore_bin_vector_type) : Option ℚ :=
  percent_of h.sum_qscore (h.total_over_qscore qscore bins)

/-- The member `q_metric::percent_over_qscore(qscore)`, the overload without a bin table. -/
def q_metric.percent_over_qscore_index (h : q_metric) (qscore : Nat) : Option ℚ :=
  percent_of h.sum_qscore (h.total_over_qscore qscore)

/-- The member `q_metric::percent_over_qscore_cumulative(qscore, bins)`. The source asserts that
the cumulative vector is not empty. -/
def q_metric.percent_over_qscore_cumulative (h : q_metric) (qscore : Nat)
    (bins : qscore_bin_vector_type := []) : Option ℚ :=
  percent_of h.sum_qscore_cumulative (h.total_over_qscore_cumulative qscore bins)

/-- The expression `total % 2 == 0 ? total / 2 + 1 : (total + 1) / 2` of `median`, on `uint_t`. -/
def median_position (total : Nat) : Nat :=
  if total % 2 = 0 then (total / 2 + 1) % UINT_MODULUS else (total + 1) % UINT_MODULUS / 2

/-- The loop `for (; i < size; i++) { sum += hist[i]; if (sum >= position) break; }` of `median`:
the arguments are the part of the histogram not yet visited, the counter `i` and the running
`sum`; the result is the value of `i` when the loop is left. -/
def median_walk (position : Nat) : uint_vector → Nat → Nat → Nat
  | [], i, _ => i
  | c :: rest, i, sum =>
    if position ≤ (sum + c) % UINT_MODULUS then i
    else median_walk position rest (i + 1) ((sum + c) % UINT_MODULUS)

/-- The member `q_metric::median(bins)`. -/
def q_metric.median (h : q_metric) (bins : qscore_bin_vector_type := []) : Nat :=
  let total := h.sum_qscore
  let position := median_position total
  let i := median_walk position h.m_qscore_hist 0 0
  if bins.length = 0 ∨ h.m_qscore_hist.length = MAX_Q_BINS then i + 1
  else if i < bins.length then (bins.getD i default).value
  else UINT_MAX

/-- The loop `for (cur = cumulative.begin(); beg != end; ++beg, ++cur) *cur += *beg` of
`accumulate`: `cur` runs over the first argument, `beg` over the second. When the second vector is
the longer one the source writes past the end of the first, which is undefined; the model stops
there. -/
def accumulate_add : uint_vector → uint_vector → uint_vector
  | cur, [] => cur
  | [], _ :: _ => []
  | c :: cur, b :: beg => (c + b) % UINT_MODULUS :: accumulate_add cur beg

/-- The argument of `accumulate`: a reference to the histogram itself (`&metric == this`) or to
another histogram. -/
inductive q_metric_ref where
  | self
  | other (metric : q_metric)
deriving DecidableEq, Repr

/-- The member `q_metric::accumulate(metric)`: the result is the state of `this` afterwards. The
argument is `const` and, when it is another object, is left as it is. -/
def q_metric.accumulate (h : q_metric) (metric : q_metric_ref) : q_metric :=
  let copied := { h with m_qscore_hist_cumulative := h.m_qscore_hist }
  match metric with
  | .self => copied
  | .other m =>
    { copied with
      m_qscore_hist_cumulative :=
        accumulate_add copied.m_qscore_hist_cumulative m.m_qscore_hist_cumulative }

/-! ### Specification-side notions for the histogram -/

/-- The value of the variable `sum` of `median` after the loop body has run for index `j`: the
sum of `hist[0..j]` in `uint_t`. -/
def running_sum_uint (hist : uint_vector) (j : Nat) : Nat := accumulate_uint (hist.take (j + 1))

/-- The running sum `counts[0] + ... + counts[j]` of the specification, in exact arithmetic. -/
def running_sum (hist : uint_vector) (j : Nat) : Nat := (hist.take (j + 1)).sum

/-- The position of the median as the specification writes it, in exact arithmetic:
`total / 2 + 1` for an even total and `(total + 1) / 2` for an odd one. -/
def median_position_spec (total : Nat) : Nat :=
  if total % 2 = 0 then total / 2 + 1 else (total + 1) / 2

/-- The index `i` is the first one, among the indices below `n`, at which `sums` reaches `p`. -/
def first_reach (sums : Nat → Nat) (n p i : Nat) : Prop :=
  i < n ∧ p ≤ sums i ∧ ∀ j, j < i → sums j < p

instance (sums : Nat → Nat) (n p i : Nat) : Decidable (first_reach sums n p i) := by
  unfold first_reach; infer_instance

/-- The index `i` is where a left-to-right walk over the indices below `n` stops: the first index
at which `sums` reaches `p`, or `n` when none does. -/
def walk_stop (sums : Nat → Nat) (n p i : Nat) : Prop :=
  first_reach sums n p i ∨ (i = n ∧ ∀ j, j < n → sums j < p)

instance (sums : Nat → Nat) (n p i : Nat) : Decidable (walk_stop sums n p i) := by
  unfold walk_stop; infer_instance

/-! ## Heat-map grid (`heatmap_data.h`) -/

/-- How a cell access ends when it does not return a cell: the two
`index_out_of_bounds_exception`s of the accessors, told apart by their message ("Row index out of
bounds", "Column index out of bounds"), and `undefined` for a violated `INTEROP_ASSERT` or a read
outside the memory behind `m_data`, which the source leaves undefined. -/
inductive heatmap_error where
  | row_index_out_of_bounds
  | column_index_out_of_bounds
  | undefined
deriving DecidableEq, Repr

/-- The class `heatmap_data` without the members of its base `chart_data`. The pointer `m_data` is
`none` when null and otherwise the cells of the memory it addresses, in order. -/
structure heatmap_data where
  m_data : Option (List ℚ)
  m_num_columns : Nat
  m_num_rows : Nat
  m_free : Bool
deriving DecidableEq, Repr

/-- The default constructor `heatmap_data()`. -/
def heatmap_data.create : heatmap_data := ⟨none, 0, 0, false⟩

/-- The constructor `heatmap_data(data, rows, cols)` over a buffer of the caller. -/
def heatmap_data.wrap (data : Option (List ℚ)) (rows cols : Nat) : heatmap_data :=
  ⟨data, cols, rows, false⟩

/-- The member `heatmap_data::set_buffer(data, rows, cols)`; the `delete[]` of a buffer the grid
owns leaves no trace in the state. -/
def heatmap_data.set_buffer (_h : heatmap_data) (data : Option (List ℚ)) (rows cols : Nat) :
    heatmap_data :=
  ⟨data, cols, rows, false⟩

/-- The member `heatmap_data::resize(rows, cols)`: the statement `new float[cols*rows]` takes the
product in `size_t`, so the new buffer holds `cols * rows` modulo `2^64` cells, and `memset` sets
them to 0 (its byte count `sizeof(float)*rows*cols` is a `size_t` product too, and covers every
cell of a buffer that can be allocated). An allocation that fails is outside the model; the
`delete[]` of a buffer the grid owns leaves no trace in the state. -/
def heatmap_data.resize (h : heatmap_data) (rows cols : Nat) : heatmap_data :=
  if rows ≠ h.m_num_rows ∧ cols ≠ h.m_num_columns then
    ⟨some (List.replicate (cols * rows % SIZE_MODULUS) 0), cols, rows, true⟩
  else h

/-- The member `heatmap_data::row_count`. -/
def heatmap_data.row_count (h : heatmap_data) : Nat := h.m_num_rows

/-- The member `heatmap_data::column_count`. -/
def heatmap_data.column_count (h : heatmap_data) : Nat := h.m_num_columns

/-- The member `heatmap_data::length`. -/
def heatmap_data.length (h : heatmap_data) : Nat := h.m_num_columns * h.m_num_rows

/-- The member `heatmap_data::clear`: a buffer the grid owns is deleted and the pointer set to
null; a buffer of the caller stays behind the pointer. -/
def heatmap_data.clear (h : heatmap_data) : heatmap_data :=
  if h.m_free then ⟨none, 0, 0, false⟩ else ⟨h.m_data, 0, 0, false⟩

/-- The member `heatmap_data::index_of`. -/
def heatmap_data.index_of (h : heatmap_data) (row col : Nat) : Nat :=
  row * h.m_num_columns + col

/-- The statements the three accessors share up to `m_data[idx]`: the two bounds checks, the two
assertions, and the position `idx` of the cell, which has to lie in the memory behind `m_data`. -/
def heatmap_data.locate (h : heatmap_data) (row col : Nat) : Except heatmap_error Nat :=
  if row ≥ h.m_num_rows then .error .row_index_out_of_bounds
  else if col ≥ h.m_num_columns then .error .column_index_out_of_bounds
  else
    let idx := h.index_of row col
    if ¬ idx < h.m_num_rows * h.m_num_columns then .error .undefined
    else
      match h.m_data with
      | none => .error .undefined
      | some cells => if idx < cells.length then .ok idx else .error .undefined

/-- The cell at a position of the memory behind `m_data`. -/
def heatmap_data.cell (h : heatmap_data) (idx : Nat) : ℚ :=
  (h.m_data.getD []).getD idx 0

/-- The member `heatmap_data::at(row, col)`. -/
def heatmap_data.at (h : heatmap_data) (row col : Nat) : Except heatmap_error ℚ :=
  (h.locate row col).map h.cell

/-- The member `float operator()(row, col) const`. -/
def heatmap_data.call_const (h : heatmap_data) (row col : Nat) : Except heatmap_error ℚ :=
  (h.locate row col).map h.cell

/-- The member `float& operator()(row, col)`: the reference it returns is the position of the cell
in the memory behind `m_data`. -/
def heatmap_data.call (h : heatmap_data) (row col : Nat) : Except heatmap_error Nat :=
  h.locate row col

/-- The assignment `heatmap(row, col) = value` through the reference of `operator()`. -/
def heatmap_data.assign (h : heatmap_data) (row col : Nat) (value : ℚ) :
    Except heatmap_error heatmap_data :=
  (h.call row col).map fun idx => { h with m_data := h.m_data.map fun cells => cells.set idx value }

/-- The class invariant of `heatmap_data`: the memory behind `m_data` holds at least
`m_num_rows * m_num_columns` cells (a null pointer addresses none). -/
def heatmap_data.valid (h : heatmap_data) : Prop :=
  h.m_num_rows * h.m_num_columns ≤ (h.m_data.getD []).length

instance (h : heatmap_data) : Decidable h.valid := by
  unfold heatmap_data.valid; infer_instance

/-! ## Flowcell map (`plot_flowcell_map.h`) -/

/-- Modelled from the spec: the enumeration `constants::metric_type` is declared in
`interop/constants/enums.h`, which is not among the sources. The enumerators that
`plot_flowcell_map.h` names are kept; every other one is `other` with its code. -/
inductive metric_type where
  | AccumPercentQ20
  | AccumPercentQ30
  | ErrorRate
  | UnknownMetricType
  | other (code : Nat)
deriving DecidableEq, Repr

/-- Modelled from the spec: the members of `model::run::flowcell_layout` (§3, FlowcellLayout) that
`populate_flowcell_map` reads; `naming_method` is the code of the tile-numbering convention. -/
structure flowcell_layout where
  naming_method : Nat
  sections_per_lane : Nat
  tile_count : Nat
  swath_count : Nat
deriving DecidableEq, Repr

/-- Modelled from the spec: the members of `model::plot::filter_options` (§6, Filter object) that
`populate_flowcell_map` calls, over the record type `R`. -/
structure filter_options (R : Type) where
  is_specific_surface : Bool
  valid_tile_cycle : R → Bool

/-- Modelled from the spec: the members of a metric record that `populate_flowcell_map` calls
(`base_metric.h` is not among the sources); `lane` and `tile` are `uint_t`, and
`physical_location_index` takes the naming method, the sections per lane, the tile count, the
swath count and the flag `all_surfaces`. -/
structure metric_members (R : Type) where
  lane : R → Nat
  tile : R → Nat
  physical_location_index : R → Nat → Nat → Nat → Nat → Bool → Nat

/-- The expression `beg->lane()-1`, a subtraction on `uint_t`. -/
def lane_index (lane : Nat) : Nat := (lane + UINT_MODULUS - 1) % UINT_MODULUS

/-- The loop of `populate_flowcell_map` over the records from `beg` to `end`, on the runs in which
no grid write throws. The member `flowcell_data::set_data(lane_idx, loc, tile_id, value)` is not
among the sources and is the parameter `set_data`, here a state update of the flowcell map;
`populate_loop_checked` is the loop with the exception of `set_data`. The functor `proxy` returns
`none` for not-a-number. The result is the flowcell map and `values_for_scaling` after the
loop. -/
def populate_loop {R D : Type} (members : metric_members R)
    (set_data : D → Nat → Nat → Nat → ℚ → D)
    (proxy : R → metric_type → Option ℚ) (type : metric_type) (layout : flowcell_layout)
    (options : filter_options R) (all_surfaces : Bool) :
    List R → D → List ℚ → D × List ℚ
  | [], data, values_for_scaling => (data, values_for_scaling)
  | record :: rest, data, values_for_scaling =>
    if !options.valid_tile_cycle record then
      populate_loop members set_data proxy type layout options all_surfaces rest data
        values_for_scaling
    else
      match proxy record type with
      | none =>
        populate_loop members set_data proxy type layout options all_surfaces rest data
          values_for_scaling
      | some val =>
        populate_loop members set_data proxy type layout options all_surfaces rest
          (set_data data (lane_index (members.lane record))
            (members.physical_location_index record layout.naming_method layout.sections_per_lane
              layout.tile_count layout.swath_count all_surfaces)
            (members.tile record) val)
          (values_for_scaling ++ [val])

/-- The function `populate_flowcell_map(beg, end, proxy, type, layout, options, data,
values_for_scaling)`; the range from `beg` to `end` is the list `records`. -/
def populate_flowcell_map {R D : Type} (members : metric_members R)
    (set_data : D → Nat → Nat → Nat → ℚ → D)
    (records : List R) (proxy : R → metric_type → Option ℚ) (type : metric_type)
    (layout : flowcell_layout) (options : filter_options R) (data : D)
    (values_for_scaling : List ℚ) : D × List ℚ :=
  if records.isEmpty then (data, values_for_scaling)
  else
    let all_surfaces := !options.is_specific_surface
    populate_loop members set_data proxy type layout options all_surfaces records data
      values_for_scaling

/-! ### Specification-side notions for the grid populator -/

/-- The records of the stream that emit a value, each with its value, in stream order: the
records that pass the filter and whose extracted value is a number. -/
def emitted_values {R : Type} (proxy : R → metric_type → Option ℚ) (type : metric_type)
    (options : filter_options R) (records : List R) : List (R × ℚ) :=
  records.filterMap fun record =>
    if options.valid_tile_cycle record then (proxy record type).map fun val => (record, val)
    else none

/-- The grid write for one emitted value: row `lane - 1`, column the physical-location index with
the surfaces collapsed unless a specific surface was requested, and the tile and the value. -/
def grid_write {R D : Type} (members : metric_members R)
    (set_data : D → Nat → Nat → Nat → ℚ → D) (layout : flowcell_layout)
    (options : filter_options R) (data : D) (emitted : R × ℚ) : D :=
  set_data data (lane_index (members.lane emitted.1))
    (members.physical_location_index emitted.1 layout.naming_method layout.sections_per_lane
      layout.tile_count layout.swath_count (!options.is_specific_surface))
    (members.tile emitted.1) emitted.2

/-- Modelled from the spec: the scale axis of `chart_data` (`axes.h` and `chart_data.h` are not
among the sources), with the bounds that `set_range` writes and `saxis().max()` reads. -/
structure axis where
  m_min : ℚ
  m_max : ℚ
deriving DecidableEq, Repr

/-- Modelled from the spec: the call `data.set_range(vmin, vmax)` on the scale axis. -/
def set_range (_saxis : axis) (vmin vmax : ℚ) : axis := ⟨vmin, vmax⟩

/-- The call `std::sort(values_for_scaling.begin(), values_for_scaling.end())`. -/
def sort_values (values_for_scaling : List ℚ) : List ℚ :=
  values_for_scaling.insertionSort (fun a b => a ≤ b)

/-- The statements of `plot_flowcell_map` from `if(!values_for_scaling.empty())` to the
`ErrorRate` line, on the scale axis of the flowcell map. The indices `size_t(0.25*n)` and
`size_t(0.75*n)` are products in `double`, exact for every vector length, truncated to an integer:
`n / 4` and `3 * n / 4`. The subtractions, the product and the addition are taken exactly here;
`scale_range_binary32` rounds them as `float` does. -/
def scale_range (type : metric_type) (values_for_scaling : List ℚ) (saxis : axis) : axis :=
  let scaled :=
    if !values_for_scaling.isEmpty then
      let sorted := sort_values values_for_scaling
      let lower := sorted.getD (sorted.length / 4) 0
      let upper := sorted.getD (3 * sorted.length / 4) 0
      set_range saxis (max (lower - 2 * (upper - lower)) (sorted.getD 0 0))
        (min (sorted.getD (sorted.length - 1) 0) (upper + 2 * (upper - lower)))
    else set_range saxis 0 0
  if type = metric_type.ErrorRate then set_range scaled 0 (min 5 scaled.m_max) else scaled

/-! ## Further members of the histogram and of the grid -/

/-- The member template `q_metric::accumulate_into(distribution)` over the element type `T` of the
caller: the statement `(*it) += (*cur)` adds a `uint_t` count, converted to `T`, with the addition
of `T`. The result is the distribution afterwards; the member is `const`. The source asserts that
the two lengths agree before it tests them. -/
def q_metric.accumulate_into {T : Type} [Add T] [NatCast T] (h : q_metric)
    (distribution : List T) : List T :=
  if distribution.length ≠ h.m_qscore_hist.length then distribution
  else List.zipWith (fun (it : T) (cur : Nat) => it + (cur : T)) distribution h.m_qscore_hist

/-- The buffer that the statement `if(m_free) delete[] m_data` of `heatmap_data::clear` releases,
if it releases one. -/
def heatmap_data.clear_deleted (h : heatmap_data) : Option (List ℚ) :=
  if h.m_free then h.m_data else none

/-! ## The function `plot_flowcell_map` -/

/-- The exceptions in the exception specification of `plot_flowcell_map`:
`model::invalid_filter_option` and `model::invalid_metric_type`, which the function throws itself,
and `model::index_out_of_bounds_exception`, which a grid write of the populator throws. -/
inductive plot_error where
  | invalid_filter_option
  | invalid_metric_type
  | index_out_of_bounds
deriving DecidableEq, Repr

/-- Modelled from the spec: the enumeration `constants::metric_group` of `enums.h`, which is not
among the sources (§6, metric-type classification). The enumerators of the `switch` of
`plot_flowcell_map` are kept; every other one is `other` with its code. -/
inductive metric_group where
  | Tile
  | Extraction
  | CorrectedInt
  | Q
  | Error
  | other (code : Nat)
deriving DecidableEq, Repr

/-- Modelled from the spec: the functions of `logic/utils/metric_type_ext.h` and of
`constants/enums.h` that `plot_flowcell_map` calls (§6, metric-type classification); neither file
is among the sources. -/
structure metric_type_ext where
  to_group : metric_type → metric_group
  is_cycle_metric : metric_type → Bool
  is_read_metric : metric_type → Bool
  is_channel_metric : metric_type → Bool
  is_base_metric : metric_type → Bool
  to_description : metric_type → String
  parse : String → metric_type

/-- Modelled from the spec: the members of `model::plot::filter_options` that `plot_flowcell_map`
calls beyond those of the populator (§6, Filter object). `validate` is `none` when the call
`options.validate(type, run_info)` returns and the exception otherwise; `channel_description` is
already applied to the channels of the run. -/
structure plot_filter_options (R : Type) extends filter_options R where
  validate : metric_type → Option plot_error
  all_cycles : Bool
  all_reads : Bool
  all_channels : metric_type → Bool
  all_bases : metric_type → Bool
  read : Nat
  channel : Nat
  dna_base : Nat
  surface_description : String
  cycle_description : String
  channel_description : String
  base_description : String
  read_description : String

/-- Modelled from the spec: the layout `run_info().flowcell()` with the members that
`plot_flowcell_map` reads beyond those the populator reads (§3, FlowcellLayout). -/
structure run_flowcell_layout extends flowcell_layout where
  lane_count : Nat
  total_swaths : Bool → Nat
  tiles_per_lane : Nat
  surface_count : Nat
  barcode : String

/-- Modelled from the spec: the part of `model::metrics::run_metrics` that `plot_flowcell_map`
reads (§6, metric record source): the layout, the number of reads, and one ordered record
collection per category, over one record type `R` for the five metric classes; `q_metric_set` is
the set of `q_metric` from which the collapsed set is built on demand. -/
structure run_metrics (R : Type) where
  flowcell : run_flowcell_layout
  reads_size : Nat
  tile_metric_set : List R
  extraction_metric_set : List R
  corrected_intensity_metric_set : List R
  q_collapsed_metric_set : List R
  q_metric_set : List q_metric
  error_metric_set : List R

/-- Modelled from the spec: the functors `metric::metric_value<metric_t>` of
`logic/metric/metric_value.h` (§4.3), one per category, bound to the read, the channel or the base
where the category has such a key, and the two functions of the collapsed quality metrics that the
`Q` case calls; `none` is not-a-number. -/
structure metric_logic (R : Type) where
  tile_value : Nat → R → metric_type → Option ℚ
  extraction_value : Nat → R → metric_type → Option ℚ
  corrected_intensity_value : Nat → R → metric_type → Option ℚ
  q_collapsed_value : R → metric_type → Option ℚ
  error_value : R → metric_type → Option ℚ
  create_collapse_q_metrics : List q_metric → List R
  populate_cumulative_distribution : List R → List R

/-- Modelled from the spec: the class `model::plot::flowcell_data` (`flowcell_data.h` is not among
the sources): the grid of its base `heatmap_data`, and the scale axis, title, subtitle and label
of `chart_data` (§3 Grid, §4.6). -/
structure flowcell_data where
  heatmap : heatmap_data
  saxis : axis
  title : String
  subtitle : String
  label : String
deriving DecidableEq, Repr

/-- Modelled from the spec: the call `data.clear()` on the flowcell map, the `clear` of the grid
(§4.6); the text fields and the axis are not part of the grid buffer. -/
def flowcell_data.clear (data : flowcell_data) : flowcell_data :=
  { data with heatmap := data.heatmap.clear }

/-- Modelled from the spec: the call `data.resize(lanes, swaths, tiles)` on the flowcell map, the
`resize` of the grid to one row per lane and one column per tile position of a lane (§3 Grid). -/
def flowcell_data.resize (data : flowcell_data) (lanes swaths tiles : Nat) : flowcell_data :=
  { data with heatmap := data.heatmap.resize lanes (swaths * tiles) }

/-- Modelled from the spec: the call `data.set_title(title)` of `chart_data`, a plain setter like
`set_subtitle` and `set_label` (§4.6); `data.set_range` is `set_range` on the scale axis. -/
def flowcell_data.set_title (data : flowcell_data) (title : String) : flowcell_data :=
  { data with title := title }

/-- Modelled from the spec: the call `data.set_subtitle(subtitle)`, see `flowcell_data.set_title`. -/
def flowcell_data.set_subtitle (data : flowcell_data) (subtitle : String) : flowcell_data :=
  { data with subtitle := subtitle }

/-- Modelled from the spec: the call `data.set_label(label)`, see `flowcell_data.set_title`. -/
def flowcell_data.set_label (data : flowcell_data) (label : String) : flowcell_data :=
  { data with label := label }

/-- The outcome of a call of `plot_flowcell_map`: the run metrics and the flowcell map as the call
leaves them, and the exception it threw, if any. -/
structure plot_result (R : Type) where
  metrics : run_metrics R
  data : flowcell_data
  error : Option plot_error

/-- The statements of the `Q` case from `metric_set_t &metric_set` to the end of
`if(0 == metric_set.size())`: the collapsed set as the case leaves it in the run metrics. -/
def collapsed_q_metric_set {R : Type} (logic : metric_logic R) (metrics : run_metrics R)
    (type : metric_type) : List R :=
  if metrics.q_collapsed_metric_set.length = 0 then
    let created := logic.create_collapse_q_metrics metrics.q_metric_set
    if type = metric_type.AccumPercentQ20 ∨ type = metric_type.AccumPercentQ30 then
      logic.populate_cumulative_distribution created
    else created
  else metrics.q_collapsed_metric_set

/-- The statements of `plot_flowcell_map` from `if(!values_for_scaling.empty())` to
`else data.set_range(0,0)`, before the `ErrorRate` line: the general range computation, with the
arithmetic taken exactly; `general_range_binary32` is the computation in `float`. -/
def general_range (values_for_scaling : List ℚ) (saxis : axis) : axis :=
  if !values_for_scaling.isEmpty then
    let sorted := sort_values values_for_scaling
    let lower := sorted.getD (sorted.length / 4) 0
    let upper := sorted.getD (3 * sorted.length / 4) 0
    set_range saxis (max (lower - 2 * (upper - lower)) (sorted.getD 0 0))
      (min (sorted.getD (sorted.length - 1) 0) (upper + 2 * (upper - lower)))
  else set_range saxis 0 0

/-- The statements of `plot_flowcell_map` after the `switch`: the range scaling, then the title,
the subtitle and the label. -/
def finish_flowcell_map {R : Type} (ext : metric_type_ext) (metrics : run_metrics R)
    (type : metric_type) (options : plot_filter_options R) (data : flowcell_data)
    (values_for_scaling : List ℚ) : flowcell_data :=
  let ranged := { data with saxis := scale_range type values_for_scaling data.saxis }
  let title := metrics.flowcell.barcode
  let title := if title ≠ "" then title ++ " " else title
  let title := title ++ ext.to_description type
  let titled := ranged.set_title title
  let subtitle := ""
  let subtitle :=
    if metrics.flowcell.surface_count > 1 then subtitle ++ (options.surface_description ++ " ")
    else subtitle
  let subtitle := subtitle ++ options.cycle_description
  let subtitle :=
    if ext.is_channel_metric type then subtitle ++ (" " ++ options.channel_description)
    else subtitle
  let subtitle :=
    if ext.is_base_metric type then subtitle ++ (" " ++ options.base_description) else subtitle
  let subtitle :=
    if ext.is_read_metric type then subtitle ++ (" " ++ options.read_description) else subtitle
  (titled.set_subtitle subtitle).set_label (ext.to_description type)

/-- The statements `data.clear()` and `data.resize(layout.lane_count(), layout.total_swaths(...),
layout.tiles_per_lane())` at the head of `plot_flowcell_map`. -/
def prepare_flowcell_map {R : Type} (metrics : run_metrics R) (options : plot_filter_options R)
    (data : flowcell_data) : flowcell_data :=
  data.clear.resize metrics.flowcell.lane_count
    (metrics.flowcell.total_swaths (!options.is_specific_surface)) metrics.flowcell.tiles_per_lane

/-- The function `plot_flowcell_map(metrics, type, options, data)` on the runs in which no grid
write throws, with the arithmetic of the range taken exactly. The member `set_data` of the
flowcell map is the parameter of the populator; `values_for_scaling.reserve` has no effect on the
values. `plot_flowcell_map_checked` is the function with the exception of the grid write and with
the arithmetic of `float`. -/
def plot_flowcell_map {R : Type} (ext : metric_type_ext) (logic : metric_logic R)
    (members : metric_members R)
    (set_data : flowcell_data → Nat → Nat → Nat → ℚ → flowcell_data)
    (metrics : run_metrics R) (type : metric_type) (options : plot_filter_options R)
    (data : flowcell_data) : plot_result R :=
  let layout := metrics.flowcell.toflowcell_layout
  let data := prepare_flowcell_map metrics options data
  let values_for_scaling : List ℚ := []
  match options.validate type with
  | some e => ⟨metrics, data, some e⟩
  | none =>
    if ext.is_cycle_metric type && options.all_cycles then
      ⟨metrics, data, some .invalid_filter_option⟩
    else if ext.is_read_metric type && options.all_reads && decide (metrics.reads_size > 1) then
      ⟨metrics, data, some .invalid_filter_option⟩
    else
      match ext.to_group type with
      | .Tile =>
        let populated := populate_flowcell_map members set_data metrics.tile_metric_set
          (logic.tile_value options.read) type layout options.tofilter_options data
          values_for_scaling
        ⟨metrics, finish_flowcell_map ext metrics type options populated.1 populated.2, none⟩
      | .Extraction =>
        if options.all_channels type then ⟨metrics, data, some .invalid_filter_option⟩
        else
          let populated := populate_flowcell_map members set_data metrics.extraction_metric_set
            (logic.extraction_value options.channel) type layout options.tofilter_options data
            values_for_scaling
          ⟨metrics, finish_flowcell_map ext metrics type options populated.1 populated.2, none⟩
      | .CorrectedInt =>
        if options.all_bases type then ⟨metrics, data, some .invalid_filter_option⟩
        else
          let populated := populate_flowcell_map members set_data
            metrics.corrected_intensity_metric_set
            (logic.corrected_intensity_value options.dna_base) type layout
            options.tofilter_options data values_for_scaling
          ⟨metrics, finish_flowcell_map ext metrics type options populated.1 populated.2, none⟩
      | .Q =>
        let metrics := { metrics with
          q_collapsed_metric_set := collapsed_q_metric_set logic metrics type }
        let populated := populate_flowcell_map members set_data metrics.q_collapsed_metric_set
          logic.q_collapsed_value type layout options.tofilter_options data values_for_scaling
        ⟨metrics, finish_flowcell_map ext metrics type options populated.1 populated.2, none⟩
      | .Error =>
        let populated := populate_flowcell_map members set_data metrics.error_metric_set
          logic.error_value type layout options.tofilter_options data values_for_scaling
        ⟨metrics, finish_flowcell_map ext metrics type options populated.1 populated.2, none⟩
      | .other _ => ⟨metrics, data, some .invalid_metric_type⟩

/-- The overload `plot_flowcell_map(metrics, metric_name, options, data)`. -/
def plot_flowcell_map_by_name {R : Type} (ext : metric_type_ext) (logic : metric_logic R)
    (members : metric_members R)
    (set_data : flowcell_data → Nat → Nat → Nat → ℚ → flowcell_data)
    (metrics : run_metrics R) (metric_name : String) (options : plot_filter_options R)
    (data : flowcell_data) : plot_result R :=
  let type := ext.parse metric_name
  if type = metric_type.UnknownMetricType then ⟨metrics, data, some .invalid_metric_type⟩
  else plot_flowcell_map ext logic members set_data metrics type options data

/-! ### Specification-side notions for `plot_flowcell_map` -/

/-- The five categories that the `switch` of `plot_flowcell_map` handles. -/
def supported_group (group : metric_group) : Prop :=
  group = .Tile ∨ group = .Extraction ∨ group = .CorrectedInt ∨ group = .Q ∨ group = .Error

instance (group : metric_group) : Decidable (supported_group group) := by
  unfold supported_group; infer_instance

/-- No filter check of `plot_flowcell_map` fails: `validate` returns, not all cycles are requested
for a cycle-keyed type, not all reads for a read-keyed type in a run of several reads, not all
channels in the Extraction category and not all bases in the CorrectedInt category. -/
def filter_checks_pass {R : Type} (ext : metric_type_ext) (metrics : run_metrics R)
    (type : metric_type) (options : plot_filter_options R) : Prop :=
  options.validate type = none
  ∧ ¬ (ext.is_cycle_metric type = true ∧ options.all_cycles = true)
  ∧ ¬ (ext.is_read_metric type = true ∧ options.all_reads = true ∧ metrics.reads_size > 1)
  ∧ ¬ (ext.to_group type = .Extraction ∧ options.all_channels type = true)
  ∧ ¬ (ext.to_group type = .CorrectedInt ∧ options.all_bases type = true)

instance {R : Type} (ext : metric_type_ext) (metrics : run_metrics R) (type : metric_type)
    (options : plot_filter_options R) : Decidable (filter_checks_pass ext metrics type options) := by
  unfold filter_checks_pass; infer_instance

/-- The record collection of the category of the plotted type, as the populator receives it. -/
def plotted_records {R : Type} (ext : metric_type_ext) (logic : metric_logic R)
    (metrics : run_metrics R) (type : metric_type) : List R :=
  match ext.to_group type with
  | .Tile => metrics.tile_metric_set
  | .Extraction => metrics.extraction_metric_set
  | .CorrectedInt => metrics.corrected_intensity_metric_set
  | .Q => collapsed_q_metric_set logic metrics type
  | .Error => metrics.error_metric_set
  | .other _ => []

/-- The value extractor of the category of the plotted type, bound to the key of the filter. -/
def plotted_value {R : Type} (ext : metric_type_ext) (logic : metric_logic R)
    (type : metric_type) (options : plot_filter_options R) : R → metric_type → Option ℚ :=
  match ext.to_group type with
  | .Tile => logic.tile_value options.read
  | .Extraction => logic.extraction_value options.channel
  | .CorrectedInt => logic.corrected_intensity_value options.dna_base
  | .Q => logic.q_collapsed_value
  | .Error => logic.error_value
  | .other _ => fun _ _ => none

/-- The values that the records of the plotted category emit, in stream order. -/
def plotted_values {R : Type} (ext : metric_type_ext) (logic : metric_logic R)
    (metrics : run_metrics R) (type : metric_type) (options : plot_filter_options R) : List ℚ :=
  (emitted_values (plotted_value ext logic type options) type options.tofilter_options
    (plotted_records ext logic metrics type)).map Prod.snd

/-! ### A small run for the examples -/

/-- A record of the example run: lane, tile and the value its extractor returns. -/
structure example_record where
  lane : Nat
  tile : Nat
  value : Option ℚ
deriving DecidableEq, Repr

/-- The classification in the example run: `ErrorRate` is in the Error category, the two
accumulated percentages in Q, `other 0` is a cycle- and channel-keyed type of the Extraction
category, `other 1` a read-keyed type of Tile, `other 2` a base-keyed type of CorrectedInt, and
every other type is in no supported category. -/
def example_ext : metric_type_ext where
  to_group := fun type =>
    match type with
    | .ErrorRate => .Error
    | .AccumPercentQ20 => .Q
    | .AccumPercentQ30 => .Q
    | .other 0 => .Extraction
    | .other 1 => .Tile
    | .other 2 => .CorrectedInt
    | _ => .other 0
  is_cycle_metric := fun type => decide (type = .other 0 ∨ type = .ErrorRate)
  is_read_metric := fun type => decide (type = .other 1)
  is_channel_metric := fun type => decide (type = .other 0)
  is_base_metric := fun type => decide (type = .other 2)
  to_description := fun type => if type = .ErrorRate then "Error Rate" else "Metric"
  parse := fun name => if name = "ErrorRate" then .ErrorRate else .UnknownMetricType

/-- The extractors of the example run return the value stored in the record. -/
def example_logic : metric_logic example_record where
  tile_value := fun _ record _ => record.value
  extraction_value := fun _ record _ => record.value
  corrected_intensity_value := fun _ record _ => record.value
  q_collapsed_value := fun record _ => record.value
  error_value := fun record _ => record.value
  create_collapse_q_metrics := fun qs => qs.map fun q => ⟨q.lane, q.tile, none⟩
  populate_cumulative_distribution := fun records => records

/-- The record members of the example run: the column of a tile is its number less one. -/
def example_members : metric_members example_record where
  lane := fun record => record.lane
  tile := fun record => record.tile
  physical_location_index := fun record _ _ _ _ _ => record.tile - 1

/-- The member `set_data` in the example run: it writes the cell of the grid, and leaves the
flowcell map as it is when the cell is out of range. -/
def example_set_data (data : flowcell_data) (lane_idx loc _tile_id : Nat) (value : ℚ) :
    flowcell_data :=
  match data.heatmap.assign lane_idx loc value with
  | .ok written => { data with heatmap := written }
  | .error _ => data

/-- The example run: one lane of one swath of two tiles, one read, and the given error records. -/
def example_metrics (error_records : List example_record) : run_metrics example_record where
  flowcell :=
    { naming_method := 0, sections_per_lane := 1, tile_count := 2, swath_count := 1,
      lane_count := 1, total_swaths := fun _ => 1, tiles_per_lane := 2, surface_count := 1,
      barcode := "" }
  reads_size := 1
  tile_metric_set := []
  extraction_metric_set := [⟨1, 1, some 4⟩]
  corrected_intensity_metric_set := []
  q_collapsed_metric_set := []
  q_metric_set := []
  error_metric_set := error_records

/-- The filter of the example run: every record is in scope, `validate` returns, and all cycles,
all channels or all bases are requested as the arguments say. -/
def example_options (all_cycles all_channels all_bases : Bool) :
    plot_filter_options example_record where
  is_specific_surface := false
  valid_tile_cycle := fun _ => true
  validate := fun _ => none
  all_cycles := all_cycles
  all_reads := false
  all_channels := fun _ => all_channels
  all_bases := fun _ => all_bases
  read := 1
  channel := 0
  dna_base := 0
  surface_description := ""
  cycle_description := ""
  channel_description := ""
  base_description := ""
  read_description := ""

/-- A flowcell map of the caller before the call: one lane of two tiles holding 7 and 9, the range
`[1, 2]` and the label "old". -/
def example_data : flowcell_data :=
  ⟨⟨some [7, 9], 2, 1, true⟩, ⟨1, 2⟩, "old", "old", "old"⟩

/-! ## The bin table and the checked lookups (`q_metric.h`) -/

/-- The exception `index_out_of_bounds_exception` with the message it is constructed with. -/
structure index_out_of_bounds_exception where
  message : String
deriving DecidableEq, Repr

/-- The class `q_score_header`: the vector of q-score bins. -/
structure q_score_header where
  m_qscore_bins : qscore_bin_vector_type
deriving DecidableEq, Repr

/-- The member `q_score_header::bin_count`. -/
def q_score_header.bin_count (header : q_score_header) : Nat := header.m_qscore_bins.length

/-- The member `q_score_header::bins`. -/
def q_score_header.bins (header : q_score_header) : qscore_bin_vector_type :=
  header.m_qscore_bins

/-- The member `q_score_header::bin_at(n)`. -/
def q_score_header.bin_at (header : q_score_header) (n : Nat) :
    Except index_out_of_bounds_exception q_score_bin :=
  if n ≥ header.m_qscore_bins.length then .error ⟨"Index out of bounds"⟩
  else .ok (header.m_qscore_bins.getD n default)

/-- The member `q_metric::qscore_hist(n)`. -/
def q_metric.qscore_hist (h : q_metric) (n : Nat) : Except index_out_of_bounds_exception Nat :=
  if n ≥ h.m_qscore_hist.length then .error ⟨"Index out of bounds"⟩
  else .ok (h.m_qscore_hist.getD n 0)

/-- The loop `while (index < m_qscore_bins.size() && binAt(index).value() < qval) index++` of
`index_for_q_value`: the arguments are the bins from position `index` on and `index`; the result
is the value of `index` when the loop is left. -/
def index_for_q_value_loop (qval : Nat) : qscore_bin_vector_type → Nat → Nat
  | [], index => index
  | bin :: rest, index =>
    if bin.value < qval then index_for_q_value_loop qval rest (index + 1) else index

/-- The member `q_score_header::index_for_q_value(qval)`; `qval - 1` is a subtraction on
`size_t`. -/
def q_score_header.index_for_q_value (header : q_score_header) (qval : Nat) : Nat :=
  if header.m_qscore_bins.length = 0 then (qval + SIZE_MODULUS - 1) % SIZE_MODULUS
  else index_for_q_value_loop qval header.m_qscore_bins 0

/-- The conversion of a `size_t` to `uint_t` where the result of `index_for_q_value` is passed for
the `uint_t` parameter `qscore` of `total_over_qscore`: the value modulo `2^32`. -/
def uint_of_size (value : Nat) : Nat := value % UINT_MODULUS

/-! ### Specification-side notions for the bin table -/

/-- The values of a bin table are monotonically non-decreasing (§3, BinTable). -/
def bins_non_decreasing (bins : qscore_bin_vector_type) : Prop :=
  ∀ i j, i ≤ j → j < bins.length → (bins.getD i default).value ≤ (bins.getD j default).value

instance (bins : qscore_bin_vector_type) : Decidable (bins_non_decreasing bins) :=
  decidable_of_iff
    (∀ j, j < bins.length → ∀ i, i < j + 1 →
      (bins.getD i default).value ≤ (bins.getD j default).value)
    ⟨fun h i j hij hj => h j hj i (by omega), fun h j hj i hi => h i j (by omega) hj⟩

/-- The index `index` is the smallest one whose bin value is at least `q`, or the number of bins
when there is none. -/
def smallest_bin_index (bins : qscore_bin_vector_type) (q index : Nat) : Prop :=
  index ≤ bins.length
  ∧ (∀ j, j < index → (bins.getD j default).value < q)
  ∧ (index < bins.length → q ≤ (bins.getD index default).value)

instance (bins : qscore_bin_vector_type) (q index : Nat) :
    Decidable (smallest_bin_index bins q index) := by
  unfold smallest_bin_index; infer_instance

/-- The index `i` is the smallest one at which twice the running sum `counts[0] + ... + counts[i]`
exceeds the total of the histogram: the bin of the median. -/
def majority_index (hist : uint_vector) (i : Nat) : Prop :=
  i < hist.length ∧ hist.sum < 2 * running_sum hist i
    ∧ ∀ j, j < i → 2 * running_sum hist j ≤ hist.sum

instance (hist : uint_vector) (i : Nat) : Decidable (majority_index hist i) := by
  unfold majority_index; infer_instance

/-! ## Binary32 arithmetic (`float`) -/

/-- The number of units in the value 1: a finite value of `float` is counted in units of
`2^-149`, the smallest positive value of the type. -/
def FLOAT_UNIT : Nat := 2 ^ 149

/-- The value `2^128` in units of `2^-149`: a magnitude that rounds to it or above overflows to
an infinity (`FLT_MAX` is `2^128 - 2^104`). -/
def FLOAT_OVERFLOW : Nat := 2 ^ 128 * 2 ^ 149

/-- A value of the type `float` (IEEE 754 binary32, the type on every platform the library
builds on): not-a-number, an infinity with its sign, or a finite value given by its number of
units of `2^-149`, of which every finite binary32 value is an integer multiple. The two zeros are
one value: no statement of this development depends on the sign of a zero. -/
inductive float32 where
  | nan
  | inf (negative : Bool)
  | finite (units : Int)
deriving DecidableEq, Repr

/-- The loop of `bit_length`: the number of halvings that take `value` to 0, at most `fuel`. -/
def bit_length_loop : Nat → Nat → Nat
  | 0, _ => 0
  | fuel + 1, value => if value = 0 then 0 else bit_length_loop fuel (value / 2) + 1

/-- The number of binary digits of `value`; the fuel `value` is never exhausted. -/
def bit_length (value : Nat) : Nat := bit_length_loop value value

/-- Rounding of the non-negative rational `num / den`, counted in units, to the nearest magnitude
that binary32 represents, ties to even (the rounding of every binary32 operation in the default
rounding mode): a magnitude of at most 24 binary digits is a whole number of units (subnormal
values and the two lowest binades), and a larger one keeps its 24 leading digits, so the spacing
of the candidates is `2^shift` units; `q` counts the spacings below `num / den` and `r` is what is
left over, compared with half a spacing. -/
def round_ratio (num den : Nat) : Nat :=
  let shift := bit_length (num / den) - 24
  let spacing := den * 2 ^ shift
  let q := num / spacing
  let r := num % spacing
  if 2 * r < spacing then q * 2 ^ shift
  else if spacing < 2 * r then (q + 1) * 2 ^ shift
  else if q % 2 = 0 then q * 2 ^ shift
  else (q + 1) * 2 ^ shift

/-- The binary32 result of an operation whose exact result has the sign `negative` and the
magnitude `num / den` units: the rounded magnitude, or an infinity when that is `2^128` or more. -/
def float32.round (negative : Bool) (num den : Nat) : float32 :=
  let magnitude := round_ratio num den
  if FLOAT_OVERFLOW ≤ magnitude then .inf negative
  else .finite (if negative then -(magnitude : Int) else (magnitude : Int))

/-- The conversion of an unsigned integer to `float`, as in `static_cast<float>(sum_qscore())` and
in the promotion of a `uint_t` operand of a `float` operation. -/
def float32.of_nat (value : Nat) : float32 := float32.round false (value * FLOAT_UNIT) 1

/-- The conversion of a signed integer to `float`, as for the `int` literal in
`2 * (upper - lower)`. -/
def float32.of_int (value : Int) : float32 :=
  float32.round (decide (value < 0)) (value.natAbs * FLOAT_UNIT) 1

/-- The `float` nearest to a rational number: the value of a decimal literal, and the `float`
that holds a rational value of a record of the examples. -/
def float32.of_rat (value : ℚ) : float32 :=
  float32.round (decide (value < 0)) (value.num.natAbs * FLOAT_UNIT) value.den

/-- The binary32 negation. -/
def float32.neg : float32 → float32
  | .nan => .nan
  | .inf negative => .inf (!negative)
  | .finite units => .finite (-units)

/-- The binary32 addition `a + b`: not-a-number for an operand that is one and for infinities of
opposite sign, and the rounded exact sum for finite operands. -/
def float32.add : float32 → float32 → float32
  | .nan, _ => .nan
  | _, .nan => .nan
  | .inf s, .inf t => if s = t then .inf s else .nan
  | .inf s, .finite _ => .inf s
  | .finite _, .inf t => .inf t
  | .finite a, .finite b => float32.round (decide (a + b < 0)) (a + b).natAbs 1

/-- The binary32 subtraction `a - b`, the addition of the negated subtrahend. -/
def float32.sub (a b : float32) : float32 := a.add b.neg

/-- The binary32 multiplication `a * b`: not-a-number for an operand that is one and for zero
times an infinity, and the rounded exact product for finite operands (a product of two numbers of
units is a number of units of `2^-298`). -/
def float32.mul : float32 → float32 → float32
  | .nan, _ => .nan
  | _, .nan => .nan
  | .inf s, .inf t => .inf (s != t)
  | .inf s, .finite b => if b = 0 then .nan else .inf (s != decide (b < 0))
  | .finite a, .inf t => if a = 0 then .nan else .inf (decide (a < 0) != t)
  | .finite a, .finite b =>
    float32.round (decide (a < 0) != decide (b < 0)) (a.natAbs * b.natAbs) FLOAT_UNIT

/-- The binary32 division `a / b`: not-a-number for an operand that is one, for two infinities and
for zero by zero, an infinity for a non-zero value by zero (of the sign of the dividend: the zero
carries no sign here), and the rounded exact quotient otherwise. -/
def float32.div : float32 → float32 → float32
  | .nan, _ => .nan
  | _, .nan => .nan
  | .inf _, .inf _ => .nan
  | .inf s, .finite b => .inf (s != decide (b < 0))
  | .finite _, .inf _ => .finite 0
  | .finite a, .finite b =>
    if b = 0 then (if a = 0 then .nan else .inf (decide (a < 0)))
    else float32.round (decide (a < 0) != decide (b < 0)) (a.natAbs * FLOAT_UNIT) b.natAbs

/-- The comparison `a < b` of two `float`s, false when either is not-a-number. -/
def float32.lt : float32 → float32 → Bool
  | .nan, _ => false
  | _, .nan => false
  | .inf s, .inf t => s && !t
  | .inf s, .finite _ => s
  | .finite _, .inf t => !t
  | .finite a, .finite b => decide (a < b)

/-- The comparison `a <= b` of two `float`s, false when either is not-a-number. -/
def float32.le : float32 → float32 → Bool
  | .nan, _ => false
  | _, .nan => false
  | .inf s, .inf t => s || !t
  | .inf s, .finite _ => s
  | .finite _, .inf t => !t
  | .finite a, .finite b => decide (a ≤ b)

/-- The call `std::max(a, b)` on `float`: `(a < b) ? b : a`. -/
def std_max (a b : float32) : float32 := if a.lt b then b else a

/-- The call `std::min(a, b)` on `float`: `(b < a) ? b : a`. -/
def std_min (a b : float32) : float32 := if b.lt a then b else a

/-- The call `std::sort(values_for_scaling.begin(), values_for_scaling.end())` on `float`s, which
compares with `<`: an element goes before the first one that is not below it. The vector holds no
not-a-number (the populator collects none), so `<` orders it and every sorting algorithm returns
the same vector. -/
def sort_floats (values_for_scaling : List float32) : List float32 :=
  values_for_scaling.insertionSort (fun a b => b.lt a = false)

/-- Modelled from the spec: the scale axis of `chart_data` with its bounds as `float`s, see
`axis`. -/
structure axis_binary32 where
  m_min : float32
  m_max : float32
deriving DecidableEq, Repr

/-- Modelled from the spec: the call `data.set_range(vmin, vmax)` on the scale axis, see
`set_range`. -/
def set_range_binary32 (_saxis : axis_binary32) (vmin vmax : float32) : axis_binary32 :=
  ⟨vmin, vmax⟩

/-- The statements of `plot_flowcell_map` from `if(!values_for_scaling.empty())` to
`else data.set_range(0,0)` in the arithmetic of `float`: `upper - lower`, the product with the
`int` 2 converted to `float`, the subtraction from `lower` and the addition to `upper` are each
rounded to binary32, and `std::max` and `std::min` compare with `<`. `general_range` is the same
computation with every operation taken exactly. -/
def general_range_binary32 (values_for_scaling : List float32) (saxis : axis_binary32) :
    axis_binary32 :=
  if !values_for_scaling.isEmpty then
    let sorted := sort_floats values_for_scaling
    let lower := sorted.getD (sorted.length / 4) (.finite 0)
    let upper := sorted.getD (3 * sorted.length / 4) (.finite 0)
    set_range_binary32 saxis
      (std_max (lower.sub ((float32.of_int 2).mul (upper.sub lower))) (sorted.getD 0 (.finite 0)))
      (std_min (sorted.getD (sorted.length - 1) (.finite 0))
        (upper.add ((float32.of_int 2).mul (upper.sub lower))))
  else set_range_binary32 saxis (float32.of_int 0) (float32.of_int 0)

/-- The statements of `plot_flowcell_map` from `if(!values_for_scaling.empty())` to the
`ErrorRate` line in the arithmetic of `float`; `scale_range` is the same computation with every
operation taken exactly. -/
def scale_range_binary32 (type : metric_type) (values_for_scaling : List float32)
    (saxis : axis_binary32) : axis_binary32 :=
  let scaled := general_range_binary32 values_for_scaling saxis
  if type = metric_type.ErrorRate then
    set_range_binary32 scaled (float32.of_int 0) (std_min (float32.of_nat 5) scaled.m_max)
  else scaled

/-- The expression `100 * total_count / total` of the three percent functions in the arithmetic of
`float`, after `const float total = static_cast<float>(...)` and `if(total == 0.0f) return NaN`:
the 32-bit product `100 * total_count` is converted to `float`, which rounds it, and divided by
the rounded total, which rounds again. `percent_of` is the same quotient with the conversions and
the division taken exactly. -/
def percent_of_binary32 (total total_count : Nat) : float32 :=
  let total := float32.of_nat total
  if total = float32.finite 0 then .nan
  else (float32.of_nat (100 * total_count % UINT_MODULUS)).div total

/-- The member `q_metric::percent_over_qscore(qscore, bins)` in the arithmetic of `float`. -/
def q_metric.percent_over_qscore_binary32 (h : q_metric) (qscore : Nat)
    (bins : qscore_bin_vector_type) : float32 :=
  percent_of_binary32 h.sum_qscore (h.total_over_qscore qscore bins)

/-- The member `q_metric::percent_over_qscore(qscore)`, the overload without a bin table, in the
arithmetic of `float`. -/
def q_metric.percent_over_qscore_index_binary32 (h : q_metric) (qscore : Nat) : float32 :=
  percent_of_binary32 h.sum_qscore (h.total_over_qscore qscore)

/-! ### Specification-side notions for binary32 -/

/-- The magnitude `units` is one that binary32 represents exactly: it has at most 24 significant
binary digits and is below `2^128`. -/
def representable (units : Nat) : Prop :=
  units % 2 ^ (bit_length units - 24) = 0 ∧ units < FLOAT_OVERFLOW

instance (units : Nat) : Decidable (representable units) := by
  unfold representable; infer_instance

/-- The value is a finite value of the type `float`: a number, not an infinity, that binary32
represents. -/
def float32.is_finite : float32 → Prop
  | .finite units => representable units.natAbs
  | _ => False

instance (value : float32) : Decidable value.is_finite := by
  cases value <;> unfold float32.is_finite <;> infer_instance

/-- The number that a finite `float` stands for; `none` for not-a-number and the infinities. -/
def float32.to_rat : float32 → Option ℚ
  | .finite units => some ((units : ℚ) / 2 ^ 149)
  | _ => none

/-- The ascending order of `float`s that `<` induces on the values other than not-a-number,
extended to a total order by putting not-a-number last; an auxiliary of the proofs about
`sort_floats`. -/
def float32.ascending : float32 → float32 → Bool
  | _, .nan => true
  | .nan, _ => false
  | .inf s, .inf t => s || !t
  | .inf s, .finite _ => s
  | .finite _, .inf t => !t
  | .finite a, .finite b => decide (a ≤ b)

/-- The values 1, 2, ..., 10 of the example of the range scaling, as `float`s, out of order. -/
def range_example : List float32 :=
  [10, 9, 3, 4, 5, 6, 7, 8, 2, 1].map float32.of_nat

/-- Eight values on which the rounding of binary32 shows in the range: -1000000000, 0, four times
1, 16777216 and 1000000000, each of which binary32 represents exactly. -/
def rounding_example : List float32 :=
  [float32.of_int (-1000000000), float32.of_nat 0, float32.of_nat 1, float32.of_nat 1,
    float32.of_nat 1, float32.of_nat 1, float32.of_nat 16777216, float32.of_nat 1000000000]

/-! ## The flowcell map in the arithmetic of `float`, with the grid write that throws -/

/-- The state in which a run of `populate_flowcell_map` ends: the flowcell map and
`values_for_scaling` as the run leaves them, and the exception that ended it, if any. -/
structure populate_result (D E : Type) where
  data : D
  values_for_scaling : List float32
  error : Option E

/-- The loop of `populate_flowcell_map` over the records from `beg` to `end`, with `float` values
and with the exception of the grid write. The member `flowcell_data::set_data(lane_idx, loc,
tile_id, value)` is not among the sources and is the parameter `set_data`: it is `.error e` when
it throws `e`, which it does before it changes the flowcell map, and the written flowcell map
otherwise. The exception leaves the loop and the function at once, so the record is not collected
and no later record is read. The test `val = .nan` is `std::isnan(val)`. -/
def populate_loop_checked {R D E : Type} (members : metric_members R)
    (set_data : D → Nat → Nat → Nat → float32 → Except E D)
    (proxy : R → metric_type → float32) (type : metric_type) (layout : flowcell_layout)
    (options : filter_options R) (all_surfaces : Bool) :
    List R → D → List float32 → populate_result D E
  | [], data, values_for_scaling => ⟨data, values_for_scaling, none⟩
  | record :: rest, data, values_for_scaling =>
    if !options.valid_tile_cycle record then
      populate_loop_checked members set_data proxy type layout options all_surfaces rest data
        values_for_scaling
    else
      let val := proxy record type
      if val = float32.nan then
        populate_loop_checked members set_data proxy type layout options all_surfaces rest data
          values_for_scaling
      else
        match set_data data (lane_index (members.lane record))
            (members.physical_location_index record layout.naming_method layout.sections_per_lane
              layout.tile_count layout.swath_count all_surfaces)
            (members.tile record) val with
        | .error e => ⟨data, values_for_scaling, some e⟩
        | .ok written =>
          populate_loop_checked members set_data proxy type layout options all_surfaces rest
            written (values_for_scaling ++ [val])

/-- The function `populate_flowcell_map(beg, end, proxy, type, layout, options, data,
values_for_scaling)` with `float` values and with the exception of the grid write; the range from
`beg` to `end` is the list `records`. -/
def populate_flowcell_map_checked {R D E : Type} (members : metric_members R)
    (set_data : D → Nat → Nat → Nat → float32 → Except E D)
    (records : List R) (proxy : R → metric_type → float32) (type : metric_type)
    (layout : flowcell_layout) (options : filter_options R) (data : D)
    (values_for_scaling : List float32) : populate_result D E :=
  if records.isEmpty then ⟨data, values_for_scaling, none⟩
  else
    let all_surfaces := !options.is_specific_surface
    populate_loop_checked members set_data proxy type layout options all_surfaces records data
      values_for_scaling

/-- Modelled from the spec: the functors `metric::metric_value<metric_t>` of
`logic/metric/metric_value.h` (§4.3) with the `float` they return, one per category, bound to the
read, the channel or the base where the category has such a key. -/
structure metric_values (R : Type) where
  tile_value : Nat → R → metric_type → float32
  extraction_value : Nat → R → metric_type → float32
  corrected_intensity_value : Nat → R → metric_type → float32
  q_collapsed_value : R → metric_type → float32
  error_value : R → metric_type → float32

/-- Modelled from the spec: the members of the grid of `model::plot::flowcell_data` that
`plot_flowcell_map` and its populator call (`flowcell_data.h` is not among the sources): `clear`,
`resize(lanes, swaths, tiles)` and the bounds-checked write `set_data(lane_idx, loc, tile_id,
value)`, which fails with an out-of-range error before any memory access (§4.6, §7 OutOfRange),
over the type `G` of the grid. -/
structure grid_members (G : Type) where
  clear : G → G
  resize : G → Nat → Nat → Nat → G
  set_data : G → Nat → Nat → Nat → float32 → Except index_out_of_bounds_exception G

/-- Modelled from the spec: the class `model::plot::flowcell_data` with its scale axis in `float`:
the grid, and the scale axis, title, subtitle and label of `chart_data` (§3 Grid, §4.6), which are
plain fields set by the populator and the scaler and are no part of the grid. -/
structure flowcell_map (G : Type) where
  grid : G
  saxis : axis_binary32
  title : String
  subtitle : String
  label : String

/-- The outcome of a call of `plot_flowcell_map`: the run metrics and the flowcell map as the call
leaves them, and the exception it threw, if any. -/
structure plot_outcome (R G : Type) where
  metrics : run_metrics R
  data : flowcell_map G
  error : Option plot_error

/-- The statements `data.clear()` and `data.resize(layout.lane_count(), layout.total_swaths(...),
layout.tiles_per_lane())` at the head of `plot_flowcell_map`, on the grid of the flowcell map. -/
def prepare_flowcell_map_checked {R G : Type} (grid : grid_members G) (metrics : run_metrics R)
    (options : plot_filter_options R) (data : flowcell_map G) : flowcell_map G :=
  { data with
    grid := grid.resize (grid.clear data.grid) metrics.flowcell.lane_count
      (metrics.flowcell.total_swaths (!options.is_specific_surface))
      metrics.flowcell.tiles_per_lane }

/-- The statements of `plot_flowcell_map` after the `switch`, in the arithmetic of `float`: the
range scaling, then the title, the subtitle and the label. -/
def finish_flowcell_map_checked {R G : Type} (ext : metric_type_ext) (metrics : run_metrics R)
    (type : metric_type) (options : plot_filter_options R) (data : flowcell_map G)
    (values_for_scaling : List float32) : flowcell_map G :=
  let ranged := { data with saxis := scale_range_binary32 type values_for_scaling data.saxis }
  let title := metrics.flowcell.barcode
  let title := if title ≠ "" then title ++ " " else title
  let title := title ++ ext.to_description type
  let titled := { ranged with title := title }
  let subtitle := ""
  let subtitle :=
    if metrics.flowcell.surface_count > 1 then subtitle ++ (options.surface_description ++ " ")
    else subtitle
  let subtitle := subtitle ++ options.cycle_description
  let subtitle :=
    if ext.is_channel_metric type then subtitle ++ (" " ++ options.channel_description)
    else subtitle
  let subtitle :=
    if ext.is_base_metric type then subtitle ++ (" " ++ options.base_description) else subtitle
  let subtitle :=
    if ext.is_read_metric type then subtitle ++ (" " ++ options.read_description) else subtitle
  { titled with subtitle := subtitle, label := ext.to_description type }

/-- The statements of `plot_flowcell_map` after a call of the populator: an exception of the grid
write leaves the function with the flowcell map as the populator left it; otherwise the range
scaling, the title, the subtitle and the label follow. -/
def plot_after_populate {R G : Type} (ext : metric_type_ext) (metrics : run_metrics R)
    (type : metric_type) (options : plot_filter_options R) (data : flowcell_map G)
    (populated : populate_result G index_out_of_bounds_exception) : plot_outcome R G :=
  match populated.error with
  | some _ => ⟨metrics, { data with grid := populated.data }, some .index_out_of_bounds⟩
  | none =>
    ⟨metrics,
      finish_flowcell_map_checked ext metrics type options { data with grid := populated.data }
        populated.values_for_scaling,
      none⟩

/-- The function `plot_flowcell_map(metrics, type, options, data)` in the arithmetic of `float`
and with the three exceptions of its exception specification: `invalid_filter_option`,
`invalid_metric_type`, and the `index_out_of_bounds_exception` of a grid write. The extractors of
`values` return the `float` of a record; `logic` gives the two functions of the collapsed quality
metrics; `values_for_scaling.reserve` has no effect on the values. -/
def plot_flowcell_map_checked {R G : Type} (ext : metric_type_ext) (logic : metric_logic R)
    (values : metric_values R) (members : metric_members R) (grid : grid_members G)
    (metrics : run_metrics R) (type : metric_type) (options : plot_filter_options R)
    (data : flowcell_map G) : plot_outcome R G :=
  let layout := metrics.flowcell.toflowcell_layout
  let data := prepare_flowcell_map_checked grid metrics options data
  let values_for_scaling : List float32 := []
  match options.validate type with
  | some e => ⟨metrics, data, some e⟩
  | none =>
    if ext.is_cycle_metric type && options.all_cycles then
      ⟨metrics, data, some .invalid_filter_option⟩
    else if ext.is_read_metric type && options.all_reads && decide (metrics.reads_size > 1) then
      ⟨metrics, data, some .invalid_filter_option⟩
    else
      match ext.to_group type with
      | .Tile =>
        plot_after_populate ext metrics type options data
          (populate_flowcell_map_checked members grid.set_data metrics.tile_metric_set
            (values.tile_value options.read) type layout options.tofilter_options data.grid
            values_for_scaling)
      | .Extraction =>
        if options.all_channels type then ⟨metrics, data, some .invalid_filter_option⟩
        else
          plot_after_populate ext metrics type options data
            (populate_flowcell_map_checked members grid.set_data metrics.extraction_metric_set
              (values.extraction_value options.channel) type layout options.tofilter_options
              data.grid values_for_scaling)
      | .CorrectedInt =>
        if options.all_bases type then ⟨metrics, data, some .invalid_filter_option⟩
        else
          plot_after_populate ext metrics type options data
            (populate_flowcell_map_checked members grid.set_data
              metrics.corrected_intensity_metric_set
              (values.corrected_intensity_value options.dna_base) type layout
              options.tofilter_options data.grid values_for_scaling)
      | .Q =>
        let metrics := { metrics with
          q_collapsed_metric_set := collapsed_q_metric_set logic metrics type }
        plot_after_populate ext metrics type options data
          (populate_flowcell_map_checked members grid.set_data metrics.q_collapsed_metric_set
            values.q_collapsed_value type layout options.tofilter_options data.grid
            values_for_scaling)
      | .Error =>
        plot_after_populate ext metrics type options data
          (populate_flowcell_map_checked members grid.set_data metrics.error_metric_set
            values.error_value type layout options.tofilter_options data.grid
            values_for_scaling)
      | .other _ => ⟨metrics, data, some .invalid_metric_type⟩

/-- The overload `plot_flowcell_map(metrics, metric_name, options, data)` over
`plot_flowcell_map_checked`. The exception specification of the overload does not list
`index_out_of_bounds_exception`: when the inner call throws it, the overload ends in
`std::unexpected`, and the outcome records the exception that caused this. -/
def plot_flowcell_map_by_name_checked {R G : Type} (ext : metric_type_ext)
    (logic : metric_logic R) (values : metric_values R) (members : metric_members R)
    (grid : grid_members G) (metrics : run_metrics R) (metric_name : String)
    (options : plot_filter_options R) (data : flowcell_map G) : plot_outcome R G :=
  let type := ext.parse metric_name
  if type = metric_type.UnknownMetricType then ⟨metrics, data, some .invalid_metric_type⟩
  else plot_flowcell_map_checked ext logic values members grid metrics type options data

/-! ### Specification-side notions for the grid write that throws -/

/-- The records of the stream that emit a value, each with its `float`, in stream order: the
records that pass the filter and whose extracted value is not not-a-number. -/
def emitted_floats {R : Type} (proxy : R → metric_type → float32) (type : metric_type)
    (options : filter_options R) (records : List R) : List (R × float32) :=
  records.filterMap fun record =>
    if options.valid_tile_cycle record = true ∧ proxy record type ≠ float32.nan then
      some (record, proxy record type)
    else none

/-- The grid write for one emitted value with the exception it may throw: row `lane - 1`, column
the physical-location index with the surfaces collapsed unless a specific surface was requested,
and the tile and the value. -/
def grid_write_checked {R D E : Type} (members : metric_members R)
    (set_data : D → Nat → Nat → Nat → float32 → Except E D) (layout : flowcell_layout)
    (options : filter_options R) (data : D) (emitted : R × float32) : Except E D :=
  set_data data (lane_index (members.lane emitted.1))
    (members.physical_location_index emitted.1 layout.naming_method layout.sections_per_lane
      layout.tile_count layout.swath_count (!options.is_specific_surface))
    (members.tile emitted.1) emitted.2

/-- One grid write per emitted record, in order, each value collected after its write, up to the
first write that throws. -/
def grid_writes {R D E : Type} (write : D → R × float32 → Except E D) :
    List (R × float32) → D → List float32 → populate_result D E
  | [], data, values_for_scaling => ⟨data, values_for_scaling, none⟩
  | emitted :: rest, data, values_for_scaling =>
    match write data emitted with
    | .error e => ⟨data, values_for_scaling, some e⟩
    | .ok written => grid_writes write rest written (values_for_scaling ++ [emitted.2])

/-- Every emitted record of the list is written without an exception, in order, and the flowcell
map after the writes is `written`. -/
def all_written {R D E : Type} (write : D → R × float32 → Except E D) :
    List (R × float32) → D → D → Prop
  | [], data, written => written = data
  | emitted :: rest, data, written =>
    ∃ next, write data emitted = .ok next ∧ all_written write rest next written

/-- The value extractor of the category of the plotted type with the `float` it returns, bound to
the key of the filter. -/
def plotted_float {R : Type} (ext : metric_type_ext) (values : metric_values R)
    (type : metric_type) (options : plot_filter_options R) : R → metric_type → float32 :=
  match ext.to_group type with
  | .Tile => values.tile_value options.read
  | .Extraction => values.extraction_value options.channel
  | .CorrectedInt => values.corrected_intensity_value options.dna_base
  | .Q => values.q_collapsed_value
  | .Error => values.error_value
  | .other _ => fun _ _ => float32.nan

/-- The `float`s that the records of the plotted category emit, in stream order. -/
def plotted_floats {R : Type} (ext : metric_type_ext) (logic : metric_logic R)
    (values : metric_values R) (metrics : run_metrics R) (type : metric_type)
    (options : plot_filter_options R) : List float32 :=
  (emitted_floats (plotted_float ext values type options) type options.tofilter_options
    (plotted_records ext logic metrics type)).map Prod.snd

/-- The grid writes of a call of `plot_flowcell_map`: one write per emitted record of the plotted
category into the grid after `clear` and `resize`, up to the first write that throws. -/
def plotted_writes {R G : Type} (ext : metric_type_ext) (logic : metric_logic R)
    (values : metric_values R) (members : metric_members R) (grid : grid_members G)
    (metrics : run_metrics R) (type : metric_type) (options : plot_filter_options R)
    (data : flowcell_map G) : populate_result G index_out_of_bounds_exception :=
  grid_writes
    (grid_write_checked members grid.set_data metrics.flowcell.toflowcell_layout
      options.tofilter_options)
    (emitted_floats (plotted_float ext values type options) type options.tofilter_options
      (plotted_records ext logic metrics type))
    (prepare_flowcell_map_checked grid metrics options data).grid []

/-! ### A small run in `float` for the examples -/

/-- The extractors of the example run in `float`: the value stored in the record converted to
`float`, and not-a-number for a record without a value. -/
def example_values : metric_values example_record where
  tile_value := fun _ record _ => (record.value.map float32.of_rat).getD .nan
  extraction_value := fun _ record _ => (record.value.map float32.of_rat).getD .nan
  corrected_intensity_value := fun _ record _ => (record.value.map float32.of_rat).getD .nan
  q_collapsed_value := fun record _ => (record.value.map float32.of_rat).getD .nan
  error_value := fun record _ => (record.value.map float32.of_rat).getD .nan

/-- A grid for the examples: its dimensions and its cells in row-major order. -/
structure example_cells where
  rows : Nat
  columns : Nat
  cells : List float32
deriving DecidableEq, Repr

/-- The members of the example grid: `clear` empties it, `resize` gives one row per lane and one
column per tile position with every cell 0, and `set_data` checks the row, then the column, and
writes the cell. -/
def example_grid : grid_members example_cells where
  clear := fun _ => ⟨0, 0, []⟩
  resize := fun _ lanes swaths tiles =>
    ⟨lanes, swaths * tiles, List.replicate (lanes * (swaths * tiles)) (.finite 0)⟩
  set_data := fun cells lane_idx loc _ value =>
    if lane_idx ≥ cells.rows then .error ⟨"Row index out of bounds"⟩
    else if loc ≥ cells.columns then .error ⟨"Column index out of bounds"⟩
    else .ok { cells with cells := cells.cells.set (lane_idx * cells.columns + loc) value }

/-- A flowcell map of the caller before the call, over the example grid: one lane of two tiles
holding 7 and 9, the range `[1, 2]` and the texts "old". -/
def example_map : flowcell_map example_cells :=
  ⟨⟨1, 2, [float32.of_nat 7, float32.of_nat 9]⟩, ⟨float32.of_nat 1, float32.of_nat 2⟩, "old",
    "old", "old"⟩

/-! ## Lemmas -/

theorem foldl_add_mod (xs : List Nat) (a : Nat) :
    xs.foldl (fun acc x => (acc + x) % UINT_MODULUS) a % UINT_MODULUS
      = (a + xs.sum) % UINT_MODULUS := by
  induction xs generalizing a with
  | nil => simp
  | cons x xs ih =>
    simp only [List.foldl_cons, List.sum_cons]
    rw [ih]
    unfold UINT_MODULUS
    omega

theorem foldl_add_mod_lt (xs : List Nat) (a : Nat) (ha : a < UINT_MODULUS) :
    xs.foldl (fun acc x => (acc + x) % UINT_MODULUS) a < UINT_MODULUS := by
  induction xs generalizing a with
  | nil => simpa using ha
  | cons x xs ih =>
    simp only [List.foldl_cons]
    apply ih
    unfold UINT_MODULUS
    omega

theorem accumulate_uint_eq (xs : List Nat) : accumulate_uint xs = xs.sum % UINT_MODULUS := by
  have h1 := foldl_add_mod xs 0
  have h2 := foldl_add_mod_lt xs 0 (by unfold UINT_MODULUS; omega)
  unfold accumulate_uint
  rw [Nat.mod_eq_of_lt h2] at h1
  simpa using h1

theorem accumulate_uint_exact (xs : List Nat) (h : xs.sum < UINT_MODULUS) :
    accumulate_uint xs = xs.sum := by
  rw [accumulate_uint_eq, Nat.mod_eq_of_lt h]

theorem sum_range_getD (l : List Nat) :
    ∑ i ∈ Finset.range l.length, l.getD i 0 = l.sum := by
  induction l with
  | nil => simp
  | cons a l ih =>
    rw [List.length_cons, Finset.sum_range_succ', List.sum_cons]
    simp only [List.getD_cons_succ, List.getD_cons_zero]
    rw [ih]; omega

theorem sum_drop_eq (l : List Nat) (q : Nat) :
    (l.drop q).sum = ∑ i ∈ (Finset.range l.length).filter (fun i => q ≤ i), l.getD i 0 := by
  induction l generalizing q with
  | nil => simp
  | cons a l ih =>
    cases q with
    | zero =>
      simp only [List.drop_zero, Nat.zero_le, Finset.filter_True]
      exact (sum_range_getD (a :: l)).symm
    | succ q =>
      rw [List.drop_succ_cons, ih q, Finset.sum_filter, Finset.sum_filter, List.length_cons,
        Finset.sum_range_succ']
      simp

theorem total_over_bins_mod (hist : uint_vector) (qscore : Nat) (bins : qscore_bin_vector_type)
    (n : Nat) :
    (List.range n).foldl
      (fun totalCount i =>
        if qscore ≤ (bins.getD i default).value then (totalCount + hist.getD i 0) % UINT_MODULUS
        else totalCount) 0
      = (∑ i ∈ (Finset.range n).filter (fun i => qscore ≤ (bins.getD i default).value),
          hist.getD i 0) % UINT_MODULUS := by
  induction n with
  | zero => simp
  | succ n ih =>
    rw [List.range_succ, List.foldl_append, ih, Finset.range_succ, Finset.filter_insert]
    by_cases hq : qscore ≤ (bins.getD n default).value
    · have hn : n ∉ (Finset.range n).filter (fun i => qscore ≤ (bins.getD i default).value) := by
        simp
      simp only [List.foldl_cons, List.foldl_nil, hq, if_true]
      rw [Finset.sum_insert hn]
      unfold UINT_MODULUS
      omega
    · simp only [List.foldl_cons, List.foldl_nil, hq, if_false]

theorem filtered_sum_le (hist : uint_vector) (n : Nat) (p : Nat → Prop) [DecidablePred p]
    (hn : n ≤ hist.length) :
    ∑ i ∈ (Finset.range n).filter p, hist.getD i 0 ≤ hist.sum := by
  rw [← sum_range_getD hist]
  apply Finset.sum_le_sum_of_subset
  intro i hi
  simp only [Finset.mem_filter, Finset.mem_range] at hi
  simp only [Finset.mem_range]
  omega

theorem median_walk_shift (p : Nat) (l : uint_vector) (i s : Nat) :
    median_walk p l i s = i + median_walk p l 0 s := by
  induction l generalizing i s with
  | nil => simp [median_walk]
  | cons c rest ih =>
    unfold median_walk
    split
    · simp
    · rw [ih (i + 1), ih (0 + 1)]; omega

theorem median_walk_stop (p : Nat) (l : uint_vector) (s : Nat) :
    walk_stop (fun j => (l.take (j + 1)).foldl (fun acc x => (acc + x) % UINT_MODULUS) s)
      l.length p (median_walk p l 0 s) := by
  induction l generalizing s with
  | nil => right; simp [median_walk]
  | cons c rest ih =>
    unfold median_walk
    split
    next hle =>
      left
      refine ⟨by simp, by simpa using hle, by intro j hj; omega⟩
    next hlt =>
      rw [median_walk_shift]
      rcases ih ((s + c) % UINT_MODULUS) with ⟨h1, h2, h3⟩ | ⟨h1, h2⟩
      · left
        refine ⟨by simp; omega, ?_, ?_⟩
        · have : 0 + 1 + median_walk p rest 0 ((s + c) % UINT_MODULUS)
              = median_walk p rest 0 ((s + c) % UINT_MODULUS) + 1 := by omega
          rw [this]
          simpa using h2
        · intro j hj
          cases j with
          | zero => simpa using hlt
          | succ j =>
            have := h3 j (by omega)
            simpa using this
      · right
        refine ⟨by simp; omega, ?_⟩
        intro j hj
        cases j with
        | zero => simpa using hlt
        | succ j =>
          have := h2 j (by simpa using hj)
          simpa using this

theorem median_walk_stop_uint (p : Nat) (hist : uint_vector) :
    walk_stop (running_sum_uint hist) hist.length p (median_walk p hist 0 0) :=
  median_walk_stop p hist 0

theorem sum_take_le (l : List Nat) (n : Nat) : (l.take n).sum ≤ l.sum := by
  have := List.sum_take_add_sum_drop l n
  omega

theorem running_sum_uint_exact (hist : uint_vector) (hsum : hist.sum < UINT_MODULUS) (j : Nat) :
    running_sum_uint hist j = running_sum hist j := by
  unfold running_sum_uint running_sum
  apply accumulate_uint_exact
  have := sum_take_le hist (j + 1)
  omega

theorem median_position_exact (total : Nat) (h : total < 4294967295) :
    median_position total = median_position_spec total := by
  unfold median_position median_position_spec UINT_MODULUS
  split <;> omega

theorem median_position_spec_le (total : Nat) (h : total ≠ 0) :
    median_position_spec total ≤ total := by
  unfold median_position_spec
  split <;> omega

theorem running_sum_last (hist : uint_vector) (hne : hist ≠ []) :
    running_sum hist (hist.length - 1) = hist.sum := by
  unfold running_sum
  have : 0 < hist.length := List.length_pos.mpr hne
  rw [List.take_of_length_le (by omega)]

theorem median_walk_exact (hist : uint_vector) (hsum : hist.sum < 4294967295) :
    walk_stop (running_sum hist) hist.length (median_position_spec hist.sum)
      (median_walk (median_position (accumulate_uint hist)) hist 0 0) := by
  have hs : hist.sum < UINT_MODULUS := by unfold UINT_MODULUS; omega
  rw [accumulate_uint_exact hist hs, median_position_exact _ hsum]
  have h := median_walk_stop_uint (median_position_spec hist.sum) hist
  have hfun : running_sum_uint hist = running_sum hist := by
    funext j; exact running_sum_uint_exact hist hs j
  rw [hfun] at h
  exact h

theorem median_walk_first_reach (hist : uint_vector) (hsum : hist.sum < 4294967295)
    (hpos : hist.sum ≠ 0) :
    first_reach (running_sum hist) hist.length (median_position_spec hist.sum)
      (median_walk (median_position (accumulate_uint hist)) hist 0 0) := by
  rcases median_walk_exact hist hsum with h | ⟨_, h2⟩
  · exact h
  · exfalso
    have hne : hist ≠ [] := by
      intro he; apply hpos; simp [he]
    have hlen : 0 < hist.length := List.length_pos.mpr hne
    have := h2 (hist.length - 1) (by omega)
    rw [running_sum_last hist hne] at this
    have := median_position_spec_le hist.sum hpos
    omega

theorem percent_of_eq_none (total total_count : Nat) :
    percent_of total total_count = none ↔ total = 0 := by
  unfold percent_of
  by_cases h : total = 0
  · simp [h]
  · have : (total : ℚ) ≠ 0 := Nat.cast_ne_zero.mpr h
    simp [h, this]

theorem accumulate_add_length (cur beg : uint_vector) (hlen : beg.length = cur.length) :
    (accumulate_add cur beg).length = cur.length := by
  induction cur generalizing beg with
  | nil =>
    cases beg with
    | nil => rfl
    | cons b beg => simp at hlen
  | cons c cur ih =>
    cases beg with
    | nil => simp at hlen
    | cons b beg =>
      simp only [accumulate_add, List.length_cons]
      rw [ih beg (by simpa using hlen)]

theorem accumulate_add_getD (cur beg : uint_vector) (hlen : beg.length = cur.length) (i : Nat)
    (hi : i < cur.length) :
    (accumulate_add cur beg).getD i 0 = (cur.getD i 0 + beg.getD i 0) % UINT_MODULUS := by
  induction cur generalizing beg i with
  | nil => simp at hi
  | cons c cur ih =>
    cases beg with
    | nil => simp at hlen
    | cons b beg =>
      cases i with
      | zero => simp [accumulate_add]
      | succ i =>
        simp only [accumulate_add, List.getD_cons_succ]
        exact ih beg (by simpa using hlen) i (by simpa using hi)

theorem index_of_lt (h : heatmap_data) (row col : Nat) (hr : row < h.m_num_rows)
    (hc : col < h.m_num_columns) : h.index_of row col < h.m_num_rows * h.m_num_columns := by
  unfold heatmap_data.index_of
  calc row * h.m_num_columns + col < row * h.m_num_columns + h.m_num_columns := by omega
    _ = (row + 1) * h.m_num_columns := by ring
    _ ≤ h.m_num_rows * h.m_num_columns := Nat.mul_le_mul_right _ hr

theorem locate_row_error (h : heatmap_data) (row col : Nat) (hr : h.m_num_rows ≤ row) :
    h.locate row col = .error .row_index_out_of_bounds := by
  unfold heatmap_data.locate
  rw [if_pos hr]

theorem locate_column_error (h : heatmap_data) (row col : Nat) (hr : row < h.m_num_rows)
    (hc : h.m_num_columns ≤ col) : h.locate row col = .error .column_index_out_of_bounds := by
  unfold heatmap_data.locate
  rw [if_neg (by omega), if_pos hc]

theorem locate_ok (h : heatmap_data) (row col : Nat) (hvalid : h.valid)
    (hr : row < h.m_num_rows) (hc : col < h.m_num_columns) :
    h.locate row col = .ok (row * h.m_num_columns + col) := by
  have hidx := index_of_lt h row col hr hc
  unfold heatmap_data.valid at hvalid
  unfold heatmap_data.locate
  rw [if_neg (by omega), if_neg (by omega)]
  simp only [hidx, not_true_eq_false, if_false]
  cases hd : h.m_data with
  | none =>
    rw [hd] at hvalid
    simp at hvalid
    omega
  | some cells =>
    rw [hd] at hvalid
    simp only [Option.getD_some] at hvalid
    simp only
    rw [if_pos (by omega)]
    rfl

theorem sort_values_eq (values sorted : List ℚ) (hs : sorted.Sorted (fun a b => a ≤ b))
    (hp : sorted.Perm values) : sort_values values = sorted := by
  unfold sort_values
  exact List.eq_of_perm_of_sorted ((List.perm_insertionSort _ values).trans hp.symm)
    (List.sorted_insertionSort _ values) hs

theorem sorted_first_is_least (sorted : List ℚ) (hs : sorted.Sorted (fun a b => a ≤ b))
    (lo : ℚ) (hmem : lo ∈ sorted) (hle : ∀ x ∈ sorted, lo ≤ x) : sorted.getD 0 0 = lo := by
  cases sorted with
  | nil => simp at hmem
  | cons a t =>
    simp only [List.getD_cons_zero]
    have h1 : lo ≤ a := hle a (List.mem_cons_self _ _)
    have h2 : a ≤ lo := by
      rcases List.mem_cons.mp hmem with h | h
      · exact le_of_eq h.symm
      · exact List.rel_of_sorted_cons hs lo h
    exact le_antisymm h2 h1

theorem sorted_last_is_greatest (sorted : List ℚ) (hs : sorted.Sorted (fun a b => a ≤ b))
    (hi : ℚ) (hmem : hi ∈ sorted) (hge : ∀ x ∈ sorted, x ≤ hi) :
    sorted.getD (sorted.length - 1) 0 = hi := by
  have hpos : 0 < sorted.length := List.length_pos_of_mem hmem
  have hlast : sorted.length - 1 < sorted.length := by omega
  rw [List.getD_eq_getElem _ _ hlast]
  have h1 : sorted[sorted.length - 1] ≤ hi := hge _ (List.getElem_mem _)
  have h2 : hi ≤ sorted[sorted.length - 1] := by
    obtain ⟨i, hi_lt, hieq⟩ := List.getElem_of_mem hmem
    rw [← hieq]
    have := hs.rel_get_of_le (a := ⟨i, hi_lt⟩) (b := ⟨sorted.length - 1, hlast⟩)
      (by simp only [Fin.mk_le_mk]; omega)
    simpa using this
  exact le_antisymm h1 h2

theorem populate_loop_eq {R D : Type} (members : metric_members R)
    (set_data : D → Nat → Nat → Nat → ℚ → D) (proxy : R → metric_type → Option ℚ)
    (type : metric_type) (layout : flowcell_layout) (options : filter_options R)
    (records : List R) (data : D) (values_for_scaling : List ℚ) :
    populate_loop members set_data proxy type layout options (!options.is_specific_surface)
        records data values_for_scaling
      = ((emitted_values proxy type options records).foldl
            (grid_write members set_data layout options) data,
          values_for_scaling ++ (emitted_values proxy type options records).map Prod.snd) := by
  induction records generalizing data values_for_scaling with
  | nil => simp [populate_loop, emitted_values]
  | cons record rest ih =>
    unfold populate_loop
    by_cases hv : options.valid_tile_cycle record = true
    · cases hp : proxy record type with
      | none =>
        simp only [hv, Bool.not_true, Bool.false_eq_true, if_false]
        rw [ih]
        simp [emitted_values, hv, hp]
      | some val =>
        simp only [hv, Bool.not_true, Bool.false_eq_true, if_false]
        rw [ih]
        simp [emitted_values, hv, hp, grid_write]
    · simp only [Bool.not_eq_true] at hv
      simp only [hv, Bool.not_false, if_true]
      rw [ih]
      simp [emitted_values, hv]

theorem mem_emitted_values {R : Type} (proxy : R → metric_type → Option ℚ) (type : metric_type)
    (options : filter_options R) (records : List R) (record : R) (val : ℚ) :
    (record, val) ∈ emitted_values proxy type options records
      ↔ record ∈ records ∧ options.valid_tile_cycle record = true
        ∧ proxy record type = some val := by
  unfold emitted_values
  rw [List.mem_filterMap]
  constructor
  · rintro ⟨r, hr, hrv⟩
    by_cases hv : options.valid_tile_cycle r = true
    · rw [if_pos hv] at hrv
      cases hp : proxy r type with
      | none => rw [hp] at hrv; simp at hrv
      | some v =>
        rw [hp] at hrv
        simp only [Option.map_some', Option.some.injEq, Prod.mk.injEq] at hrv
        obtain ⟨h1, h2⟩ := hrv
        subst h1; subst h2
        exact ⟨hr, hv, hp⟩
    · rw [if_neg hv] at hrv; cases hrv
  · rintro ⟨hr, hv, hp⟩
    exact ⟨record, hr, by simp [hv, hp]⟩

/-! ## The claims -/

/-- Claim C5. `total_over_qscore` duality: for every histogram whose counts sum below `2^32` and
every threshold, with an empty bin table the result is the sum of `counts[i]` over the indices
`i >= threshold` (0 when the threshold is past the end); with a non-empty bin table no longer than
the histogram it is the sum of `counts[i]` over the bin indices `i` with
`bins[i].value >= threshold`. -/
theorem total_over_qscore_duality (h : q_metric) (qscore : Nat) (bins : qscore_bin_vector_type)
    (hsum : h.m_qscore_hist.sum < 4294967296) :
    (bins = [] →
      h.total_over_qscore qscore bins
          = ∑ i ∈ (Finset.range h.m_qscore_hist.length).filter (fun i => qscore ≤ i),
              h.m_qscore_hist.getD i 0
        ∧ (h.m_qscore_hist.length < qscore → h.total_over_qscore qscore bins = 0))
    ∧ (bins ≠ [] → bins.length ≤ h.m_qscore_hist.length →
      h.total_over_qscore qscore bins
          = ∑ i ∈ (Finset.range bins.length).filter
                (fun i => qscore ≤ (bins.getD i default).value),
              h.m_qscore_hist.getD i 0) := by
  refine ⟨?_, ?_⟩
  · intro hb
    subst hb
    have key : h.total_over_qscore qscore []
        = ∑ i ∈ (Finset.range h.m_qscore_hist.length).filter (fun i => qscore ≤ i),
            h.m_qscore_hist.getD i 0 := by
      simp only [q_metric.total_over_qscore, total_over, List.length_nil, if_true]
      by_cases hq : qscore ≤ h.m_qscore_hist.length
      · rw [if_pos hq, ← sum_drop_eq]
        apply accumulate_uint_exact
        have := List.sum_take_add_sum_drop h.m_qscore_hist qscore
        unfold UINT_MODULUS
        omega
      · rw [if_neg hq]
        symm
        apply Finset.sum_eq_zero
        intro i hi
        simp only [Finset.mem_filter, Finset.mem_range] at hi
        omega
    refine ⟨key, ?_⟩
    intro hlt
    simp only [q_metric.total_over_qscore, total_over, List.length_nil, if_true]
    rw [if_neg (by omega)]
  · intro hb hlen
    have hb' : bins.length ≠ 0 := by
      intro h0; exact hb (List.length_eq_zero.mp h0)
    simp only [q_metric.total_over_qscore, total_over, if_neg hb']
    unfold total_over_bins
    rw [total_over_bins_mod]
    apply Nat.mod_eq_of_lt
    have := filtered_sum_le h.m_qscore_hist bins.length
      (fun i => qscore ≤ (bins.getD i default).value) hlen
    unfold UINT_MODULUS
    omega

theorem total_over_qscore_duality_witness :
    (1 + 2 + 3 + 4 < 4294967296)
    ∧ q_metric.total_over_qscore ⟨1, 1, 1, [1, 2, 3, 4], [0, 0, 0, 0]⟩ 2 [] = 7
    ∧ q_metric.total_over_qscore ⟨1, 1, 1, [1, 2, 3, 4], [0, 0, 0, 0]⟩ 5 [] = 0
    ∧ q_metric.total_over_qscore ⟨1, 1, 1, [1, 2, 3, 4], [0, 0, 0, 0]⟩ 20
        [⟨0, 9, 5⟩, ⟨10, 19, 15⟩, ⟨20, 29, 25⟩, ⟨30, 39, 35⟩] = 7 := by
  have h := fun q bins =>
    total_over_qscore_duality ⟨1, 1, 1, [1, 2, 3, 4], [0, 0, 0, 0]⟩ q bins (by decide)
  refine ⟨by decide, ?_, ?_, ?_⟩
  · rw [((h 2 []).1 rfl).1]; decide
  · exact ((h 5 []).1 rfl).2 (by decide)
  · rw [(h 20 [⟨0, 9, 5⟩, ⟨10, 19, 15⟩, ⟨20, 29, 25⟩, ⟨30, 39, 35⟩]).2 (by decide) (by decide)]
    decide

/-- Claim C6 at a single bin holding 50,000,000 clusters, threshold 0: `sum_qscore` and
`total_over_qscore` are both 50,000,000, so that the percentage is 100, and each of the three
percent functions returns `705032704 / 50000000` (about 14.1), because `100 * total_count` is
taken modulo `2^32` before the division. -/
theorem percent_over_qscore_wraps :
    accumulate_uint [50000000] = 50000000 ∧
    q_metric.total_over_qscore ⟨1, 1, 1, [50000000], [50000000]⟩ 0 [] = 50000000 ∧
    q_metric.percent_over_qscore ⟨1, 1, 1, [50000000], [50000000]⟩ 0 []
      = some ((705032704 : ℚ) / 50000000) ∧
    q_metric.percent_over_qscore_index ⟨1, 1, 1, [50000000], [50000000]⟩ 0
      = some ((705032704 : ℚ) / 50000000) ∧
    q_metric.percent_over_qscore_cumulative ⟨1, 1, 1, [50000000], [50000000]⟩ 0 []
      = some ((705032704 : ℚ) / 50000000) ∧
    (705032704 : ℚ) / 50000000 ≠ 100 * 50000000 / 50000000 := by
  have hs : accumulate_uint [50000000] = 50000000 := by decide
  have ht : total_over [50000000] 0 [] = 50000000 := by decide
  refine ⟨hs, ht, ?_, ?_, ?_, by norm_num⟩
  · simp only [q_metric.percent_over_qscore, q_metric.sum_qscore, q_metric.total_over_qscore,
      hs, ht, percent_of, UINT_MODULUS]
    norm_num
  · simp only [q_metric.percent_over_qscore_index, q_metric.sum_qscore,
      q_metric.total_over_qscore, hs, ht, percent_of, UINT_MODULUS]
    norm_num
  · simp only [q_metric.percent_over_qscore_cumulative, q_metric.sum_qscore_cumulative,
      q_metric.total_over_qscore_cumulative, hs, ht, percent_of, UINT_MODULUS]
    norm_num

/-- Claim C7. For every histogram, threshold and bin table, `percent_over_qscore` (with or
without a bin table) returns not-a-number if and only if `sum_qscore() == 0`, and
`percent_over_qscore_cumulative` returns not-a-number if and only if
`sum_qscore_cumulative() == 0`. -/
theorem percent_over_qscore_nan_iff (h : q_metric) (qscore : Nat)
    (bins : qscore_bin_vector_type) :
    (h.percent_over_qscore qscore bins = none ↔ h.sum_qscore = 0)
    ∧ (h.percent_over_qscore_index qscore = none ↔ h.sum_qscore = 0)
    ∧ (h.percent_over_qscore_cumulative qscore bins = none ↔ h.sum_qscore_cumulative = 0) :=
  ⟨percent_of_eq_none _ _, percent_of_eq_none _ _, percent_of_eq_none _ _⟩

/-- Claim C8, amended. `accumulate`: for every histogram `h` and every other histogram `prev`
whose cumulative vector has the length of the raw counts of `h`, after `h.accumulate(prev)` the
cumulative vector of `h` has the length of its raw counts and
`cumulative[i] = (counts[i] + prev.cumulative[i]) mod 2^32` for every index `i`, which is
`counts[i] + prev.cumulative[i]` whenever that sum is below `2^32`; the raw counts of `h` are
unchanged. -/
theorem accumulate_adds_previous (h prev : q_metric)
    (hlen : prev.m_qscore_hist_cumulative.length = h.m_qscore_hist.length) :
    (h.accumulate (.other prev)).m_qscore_hist_cumulative.length = h.m_qscore_hist.length
    ∧ (∀ i, i < h.m_qscore_hist.length →
        (h.accumulate (.other prev)).m_qscore_hist_cumulative.getD i 0
          = (h.m_qscore_hist.getD i 0 + prev.m_qscore_hist_cumulative.getD i 0) % 4294967296
        ∧ (h.m_qscore_hist.getD i 0 + prev.m_qscore_hist_cumulative.getD i 0 < 4294967296 →
          (h.accumulate (.other prev)).m_qscore_hist_cumulative.getD i 0
            = h.m_qscore_hist.getD i 0 + prev.m_qscore_hist_cumulative.getD i 0))
    ∧ (h.accumulate (.other prev)).m_qscore_hist = h.m_qscore_hist := by
  refine ⟨accumulate_add_length _ _ hlen, ?_, rfl⟩
  intro i hi
  have key := accumulate_add_getD h.m_qscore_hist prev.m_qscore_hist_cumulative hlen i hi
  refine ⟨key, ?_⟩
  intro hlt
  simp only [q_metric.accumulate]
  rw [key]
  exact Nat.mod_eq_of_lt hlt

theorem accumulate_adds_previous_witness :
    ([4, 6] : List Nat).length = ([1, 2] : List Nat).length
    ∧ (q_metric.accumulate ⟨1, 1, 2, [1, 2], [0, 0]⟩
        (.other ⟨1, 1, 1, [4, 6], [4, 6]⟩)).m_qscore_hist_cumulative.length = 2
    ∧ (q_metric.accumulate ⟨1, 1, 2, [1, 2], [0, 0]⟩
        (.other ⟨1, 1, 1, [4, 6], [4, 6]⟩)).m_qscore_hist_cumulative.getD 1 0 = 8
    ∧ (q_metric.accumulate ⟨1, 1, 2, [1, 2], [0, 0]⟩
        (.other ⟨1, 1, 1, [4, 6], [4, 6]⟩)).m_qscore_hist = [1, 2] :=
  ⟨rfl,
    (accumulate_adds_previous ⟨1, 1, 2, [1, 2], [0, 0]⟩ ⟨1, 1, 1, [4, 6], [4, 6]⟩ rfl).1,
    ((accumulate_adds_previous ⟨1, 1, 2, [1, 2], [0, 0]⟩ ⟨1, 1, 1, [4, 6], [4, 6]⟩ rfl).2.1 1
      (by decide)).2 (by decide),
    (accumulate_adds_previous ⟨1, 1, 2, [1, 2], [0, 0]⟩ ⟨1, 1, 1, [4, 6], [4, 6]⟩ rfl).2.2⟩

/-- Claim C8 fails as stated at `counts = [4294967295]` and `prev.cumulative = [1]`: the
cumulative vector after `accumulate` is `[0]`, not `[4294967295 + 1]`. -/
theorem accumulate_wraps :
    (q_metric.accumulate ⟨1, 1, 2, [4294967295], [0]⟩
        (.other ⟨1, 1, 1, [1], [1]⟩)).m_qscore_hist_cumulative = [0]
    ∧ ¬ ∀ i, i < ([4294967295] : List Nat).length →
        (q_metric.accumulate ⟨1, 1, 2, [4294967295], [0]⟩
          (.other ⟨1, 1, 1, [1], [1]⟩)).m_qscore_hist_cumulative.getD i 0
          = ([4294967295] : List Nat).getD i 0 + ([1] : List Nat).getD i 0 := by
  refine ⟨by decide, ?_⟩
  intro hall
  have := hall 0 (by decide)
  revert this
  decide

/-- Claim C9. `accumulate` with the histogram itself as argument: whatever the cumulative vector
held, `h.accumulate(h)` leaves it equal to the raw counts, leaves the raw counts as they were, and
repeating the call any number of times gives the state after the first call. -/
theorem accumulate_self_no_doubling (h : q_metric) (n : Nat) :
    (h.accumulate .self).m_qscore_hist_cumulative = h.m_qscore_hist
    ∧ (h.accumulate .self).m_qscore_hist = h.m_qscore_hist
    ∧ (fun g : q_metric => g.accumulate .self)^[n + 1] h = h.accumulate .self := by
  refine ⟨rfl, rfl, ?_⟩
  induction n with
  | zero => rfl
  | succ n ih =>
    rw [Function.iterate_succ_apply', ih]
    rfl

/-- Claim C10. Cell access through `at` and both `operator()` overloads, on a grid whose buffer
holds its `R * C` cells: the access fails with the row exception when `row >= R` (so also at
`(R, 0)` and when the column is out of range too), fails with the column exception when `row < R`
and `col >= C`, and otherwise returns the cell at the row-major position `row * C + col`; it
succeeds if and only if `row < R` and `col < C`. -/
theorem heatmap_access_bounds_checked (h : heatmap_data) (row col : Nat) (hvalid : h.valid) :
    (h.m_num_rows ≤ row →
      h.at row col = .error .row_index_out_of_bounds
      ∧ h.call_const row col = .error .row_index_out_of_bounds
      ∧ h.call row col = .error .row_index_out_of_bounds)
    ∧ (row < h.m_num_rows → h.m_num_columns ≤ col →
      h.at row col = .error .column_index_out_of_bounds
      ∧ h.call_const row col = .error .column_index_out_of_bounds
      ∧ h.call row col = .error .column_index_out_of_bounds)
    ∧ (row < h.m_num_rows → col < h.m_num_columns →
      row * h.m_num_columns + col < (h.m_data.getD []).length
      ∧ h.at row col = .ok (h.cell (row * h.m_num_columns + col))
      ∧ h.call_const row col = .ok (h.cell (row * h.m_num_columns + col))
      ∧ h.call row col = .ok (row * h.m_num_columns + col))
    ∧ h.at h.m_num_rows 0 = .error .row_index_out_of_bounds
    ∧ ((∃ v, h.at row col = .ok v) ↔ row < h.m_num_rows ∧ col < h.m_num_columns)
    ∧ ((∃ v, h.call_const row col = .ok v) ↔ row < h.m_num_rows ∧ col < h.m_num_columns)
    ∧ ((∃ idx, h.call row col = .ok idx) ↔ row < h.m_num_rows ∧ col < h.m_num_columns) := by
  have hrow : h.m_num_rows ≤ row → h.locate row col = .error .row_index_out_of_bounds :=
    locate_row_error h row col
  have hcol : row < h.m_num_rows → h.m_num_columns ≤ col →
      h.locate row col = .error .column_index_out_of_bounds := locate_column_error h row col
  have hok : row < h.m_num_rows → col < h.m_num_columns →
      h.locate row col = .ok (row * h.m_num_columns + col) := locate_ok h row col hvalid
  have hiff : (∃ idx, h.locate row col = .ok idx) ↔ row < h.m_num_rows ∧ col < h.m_num_columns := by
    constructor
    · rintro ⟨idx, hidx⟩
      by_contra hcon
      by_cases hr : row < h.m_num_rows
      · rw [hcol hr (by omega)] at hidx; cases hidx
      · rw [hrow (by omega)] at hidx; cases hidx
    · rintro ⟨hr, hc⟩
      exact ⟨_, hok hr hc⟩
  have hmap : (∃ v, (h.locate row col).map h.cell = .ok v) ↔ ∃ idx, h.locate row col = .ok idx := by
    cases h.locate row col with
    | error e => simp [Except.map]
    | ok idx => simp [Except.map]
  refine ⟨?_, ?_, ?_, ?_, ?_, ?_, ?_⟩
  · intro hr
    simp [heatmap_data.at, heatmap_data.call_const, heatmap_data.call, hrow hr, Except.map]
  · intro hr hc
    simp [heatmap_data.at, heatmap_data.call_const, heatmap_data.call, hcol hr hc, Except.map]
  · intro hr hc
    refine ⟨?_, ?_⟩
    · have := index_of_lt h row col hr hc
      unfold heatmap_data.valid at hvalid
      unfold heatmap_data.index_of at this
      omega
    · simp [heatmap_data.at, heatmap_data.call_const, heatmap_data.call, hok hr hc, Except.map]
  · simp [heatmap_data.at, locate_row_error h h.m_num_rows 0 (Nat.le_refl _), Except.map]
  · simpa [heatmap_data.at] using hmap.trans hiff
  · simpa [heatmap_data.call_const] using hmap.trans hiff
  · simpa [heatmap_data.call] using hiff

theorem heatmap_access_bounds_checked_witness :
    (heatmap_data.wrap (some [1, 2, 3, 4, 5, 6]) 2 3).valid
    ∧ (heatmap_data.wrap (some [1, 2, 3, 4, 5, 6]) 2 3).at 1 2 = .ok 6
    ∧ (heatmap_data.wrap (some [1, 2, 3, 4, 5, 6]) 2 3).call 1 2 = .ok 5
    ∧ (heatmap_data.wrap (some [1, 2, 3, 4, 5, 6]) 2 3).at 2 0
        = .error .row_index_out_of_bounds
    ∧ (heatmap_data.wrap (some [1, 2, 3, 4, 5, 6]) 2 3).at 1 3
        = .error .column_index_out_of_bounds := by
  have hv : (heatmap_data.wrap (some [1, 2, 3, 4, 5, 6]) 2 3).valid := by decide
  have h := fun row col =>
    heatmap_access_bounds_checked (heatmap_data.wrap (some [1, 2, 3, 4, 5, 6]) 2 3) row col hv
  refine ⟨hv, ?_, ?_, ?_, ?_⟩
  · rw [((h 1 2).2.2.1 (by decide) (by decide)).2.1]
    simp [heatmap_data.cell, heatmap_data.wrap]
  · exact ((h 1 2).2.2.1 (by decide) (by decide)).2.2.2
  · exact (h 2 0).2.2.2.1
  · exact ((h 1 3).2.1 (by decide) (by decide)).1

/-! ## Lemmas for the grid and for `plot_flowcell_map` -/

theorem clear_resize_eq (h : heatmap_data) (r c : Nat) (hr : 0 < r) (hc : 0 < c)
    (hsize : c * r < SIZE_MODULUS) :
    h.clear.resize r c = ⟨some (List.replicate (c * r) 0), c, r, true⟩ := by
  have hdim : h.clear.m_num_rows = 0 ∧ h.clear.m_num_columns = 0 := by
    unfold heatmap_data.clear; split <;> exact ⟨by trivial, by trivial⟩
  unfold heatmap_data.resize
  rw [if_pos (by rw [hdim.1, hdim.2]; omega), Nat.mod_eq_of_lt hsize]

theorem clear_locate (h : heatmap_data) (row col : Nat) :
    h.clear.locate row col = .error .row_index_out_of_bounds := by
  apply locate_row_error
  unfold heatmap_data.clear; split <;> exact Nat.zero_le _

theorem populate_flowcell_map_eq {R D : Type} (members : metric_members R)
    (set_data : D → Nat → Nat → Nat → ℚ → D) (records : List R)
    (proxy : R → metric_type → Option ℚ) (type : metric_type) (layout : flowcell_layout)
    (options : filter_options R) (data : D) (values_for_scaling : List ℚ) :
    populate_flowcell_map members set_data records proxy type layout options data
        values_for_scaling
      = ((emitted_values proxy type options records).foldl
            (grid_write members set_data layout options) data,
          values_for_scaling ++ (emitted_values proxy type options records).map Prod.snd) := by
  unfold populate_flowcell_map
  cases records with
  | nil => simp [emitted_values]
  | cons record rest =>
    simp only [List.isEmpty_cons, Bool.false_eq_true, if_false]
    exact populate_loop_eq members set_data proxy type layout options (record :: rest) data
      values_for_scaling

theorem finish_flowcell_map_saxis {R : Type} (ext : metric_type_ext) (metrics : run_metrics R)
    (type : metric_type) (options : plot_filter_options R) (data : flowcell_data)
    (values_for_scaling : List ℚ) :
    (finish_flowcell_map ext metrics type options data values_for_scaling).saxis
        = scale_range type values_for_scaling data.saxis
    ∧ (finish_flowcell_map ext metrics type options data values_for_scaling).heatmap
        = data.heatmap
    ∧ (finish_flowcell_map ext metrics type options data values_for_scaling).label
        = ext.to_description type := by
  simp [finish_flowcell_map, flowcell_data.set_title, flowcell_data.set_subtitle,
    flowcell_data.set_label]

theorem plot_flowcell_map_failure {R : Type} (ext : metric_type_ext) (logic : metric_logic R)
    (members : metric_members R)
    (set_data : flowcell_data → Nat → Nat → Nat → ℚ → flowcell_data)
    (metrics : run_metrics R) (type : metric_type) (options : plot_filter_options R)
    (data : flowcell_data)
    (hfail : (plot_flowcell_map ext logic members set_data metrics type options data).error
      ≠ none) :
    (plot_flowcell_map ext logic members set_data metrics type options data).data
        = prepare_flowcell_map metrics options data
    ∧ (plot_flowcell_map ext logic members set_data metrics type options data).metrics
        = metrics := by
  unfold plot_flowcell_map at hfail ⊢
  cases hv : options.validate type with
  | some e => simp only [hv]; exact ⟨by trivial, by trivial⟩
  | none =>
    simp only [hv] at hfail ⊢
    split at hfail
    · rename_i h1; rw [if_pos h1]; exact ⟨by trivial, by trivial⟩
    · rename_i h1
      rw [if_neg h1]
      split at hfail
      · rename_i h2; rw [if_pos h2]; exact ⟨by trivial, by trivial⟩
      · rename_i h2
        rw [if_neg h2]
        cases hg : ext.to_group type with
        | Tile => simp [hg] at hfail
        | Extraction =>
          simp only [hg] at hfail ⊢
          split at hfail
          · rename_i h3; rw [if_pos h3]; exact ⟨by trivial, by trivial⟩
          · simp at hfail
        | CorrectedInt =>
          simp only [hg] at hfail ⊢
          split at hfail
          · rename_i h3; rw [if_pos h3]; exact ⟨by trivial, by trivial⟩
          · simp at hfail
        | Q => simp [hg] at hfail
        | Error => simp [hg] at hfail
        | other code => simp only [hg]; exact ⟨by trivial, by trivial⟩

theorem plot_flowcell_map_success {R : Type} (ext : metric_type_ext) (logic : metric_logic R)
    (members : metric_members R)
    (set_data : flowcell_data → Nat → Nat → Nat → ℚ → flowcell_data)
    (metrics : run_metrics R) (type : metric_type) (options : plot_filter_options R)
    (data : flowcell_data) (hchecks : filter_checks_pass ext metrics type options)
    (hsup : supported_group (ext.to_group type)) :
    (plot_flowcell_map ext logic members set_data metrics type options data).error = none
    ∧ (plot_flowcell_map ext logic members set_data metrics type options data).data
        = finish_flowcell_map ext metrics type options
            ((emitted_values (plotted_value ext logic type options) type
                options.tofilter_options (plotted_records ext logic metrics type)).foldl
              (grid_write members set_data metrics.flowcell.toflowcell_layout
                options.tofilter_options)
              (prepare_flowcell_map metrics options data))
            (plotted_values ext logic metrics type options) := by
  obtain ⟨hv, hc, hr, hch, hb⟩ := hchecks
  have h1 : (ext.is_cycle_metric type && options.all_cycles) = false := by
    cases h : ext.is_cycle_metric type <;> cases h' : options.all_cycles <;> simp_all
  have h2 : (ext.is_read_metric type && options.all_reads && decide (metrics.reads_size > 1))
      = false := by
    cases h : ext.is_read_metric type <;> cases h' : options.all_reads <;> simp_all
  unfold plot_flowcell_map
  simp only [hv, h1, h2, Bool.false_eq_true, if_false]
  rcases hsup with hg | hg | hg | hg | hg
  · simp only [hg, plotted_values, plotted_records, plotted_value, populate_flowcell_map_eq,
      List.nil_append]
    exact ⟨by trivial, by trivial⟩
  · have h3 : options.all_channels type = false := by
      cases h : options.all_channels type
      · rfl
      · exact absurd ⟨hg, h⟩ hch
    simp only [hg, h3, plotted_values, plotted_records, plotted_value, populate_flowcell_map_eq,
      List.nil_append, Bool.false_eq_true, if_false]
    exact ⟨by trivial, by trivial⟩
  · have h3 : options.all_bases type = false := by
      cases h : options.all_bases type
      · rfl
      · exact absurd ⟨hg, h⟩ hb
    simp only [hg, h3, plotted_values, plotted_records, plotted_value, populate_flowcell_map_eq,
      List.nil_append, Bool.false_eq_true, if_false]
    exact ⟨by trivial, by trivial⟩
  · simp only [hg, plotted_values, plotted_records, plotted_value, populate_flowcell_map_eq,
      List.nil_append]
    exact ⟨by trivial, by trivial⟩
  · simp only [hg, plotted_values, plotted_records, plotted_value, populate_flowcell_map_eq,
      List.nil_append]
    exact ⟨by trivial, by trivial⟩

/-! ## The claims, continued -/

/-- Claim C11 at a 2 x 3 grid: `resize(2, 5)` and `resize(4, 3)`, which change one dimension
only, leave the grid as it is, with 2 rows and 3 columns, because `resize` reallocates only when
the rows and the columns both differ; so does `resize(0, 5)` on the default-constructed grid. -/
theorem resize_one_dimension_ignored :
    (heatmap_data.create.resize 2 3).row_count = 2
    ∧ (heatmap_data.create.resize 2 3).column_count = 3
    ∧ (heatmap_data.create.resize 2 3).resize 2 5 = heatmap_data.create.resize 2 3
    ∧ ((heatmap_data.create.resize 2 3).resize 2 5).column_count = 3
    ∧ (heatmap_data.create.resize 2 3).resize 4 3 = heatmap_data.create.resize 2 3
    ∧ ((heatmap_data.create.resize 2 3).resize 4 3).row_count = 2
    ∧ (heatmap_data.create.resize 0 5).column_count = 0 := by
  refine ⟨rfl, rfl, ?_, ?_, ?_, ?_, rfl⟩ <;> simp [heatmap_data.resize, heatmap_data.create,
    heatmap_data.row_count, heatmap_data.column_count]

/-- Claim C12. A `resize` to the dimensions the grid already has is a no-op: for every grid, with
any cell contents, `resize(row_count(), column_count())` leaves the grid as it is, so its
dimensions, every cell and the buffer-ownership flag are unchanged; in particular a second
`resize(r, c)` after a `resize(r, c)` and a write changes nothing. -/
theorem resize_same_dimensions (h : heatmap_data) (r c row col : Nat) (value : ℚ) :
    h.resize h.row_count h.column_count = h
    ∧ (h.resize h.row_count h.column_count).m_free = h.m_free
    ∧ (h.resize h.row_count h.column_count).at row col = h.at row col
    ∧ (∀ written, (h.resize r c).assign row col value = .ok written →
        written.resize r c = written) := by
  have key : ∀ g : heatmap_data, g.resize g.m_num_rows g.m_num_columns = g := by
    intro g; simp [heatmap_data.resize]
  have hk : h.resize h.row_count h.column_count = h := key h
  refine ⟨hk, by rw [hk], by rw [hk], ?_⟩
  intro written hw
  have hdims : written.m_num_rows = (h.resize r c).m_num_rows
      ∧ written.m_num_columns = (h.resize r c).m_num_columns := by
    unfold heatmap_data.assign at hw
    cases hc : (h.resize r c).call row col with
    | error e => rw [hc] at hw; simp [Except.map] at hw
    | ok idx =>
      rw [hc] at hw
      simp only [Except.map, Except.ok.injEq] at hw
      rw [← hw]
      exact ⟨rfl, rfl⟩
  by_cases hact : r ≠ h.m_num_rows ∧ c ≠ h.m_num_columns
  · have : written.m_num_rows = r ∧ written.m_num_columns = c := by
      simpa [heatmap_data.resize, hact] using hdims
    rw [← this.1, ← this.2]
    exact key written
  · have hno : h.resize r c = h := by simp [heatmap_data.resize, hact]
    rw [hno] at hdims
    unfold heatmap_data.resize
    rw [if_neg]
    rw [hdims.1, hdims.2]
    exact hact

/-- Claim C13, amended. A failure of `plot_flowcell_map` with `InvalidFilterOption` or
`InvalidMetricType` leaves the run metrics, the axis range, the title, the subtitle and the label
as they were before the call and writes no record, but the grid is not in its pre-call state: it
is the pre-call grid after `clear()` and `resize(lane_count, total_swaths, tiles_per_lane)`. The
name-taking overload, when the name parses to the unknown metric type, leaves the whole flowcell
map in its pre-call state. -/
theorem plot_flowcell_map_failure_state {R : Type} (ext : metric_type_ext)
    (logic : metric_logic R) (members : metric_members R)
    (set_data : flowcell_data → Nat → Nat → Nat → ℚ → flowcell_data)
    (metrics : run_metrics R) (type : metric_type) (options : plot_filter_options R)
    (data : flowcell_data)
    (hfail : (plot_flowcell_map ext logic members set_data metrics type options data).error
      ≠ none) :
    (plot_flowcell_map ext logic members set_data metrics type options data).data
        = (data.clear).resize metrics.flowcell.lane_count
            (metrics.flowcell.total_swaths (!options.is_specific_surface))
            metrics.flowcell.tiles_per_lane
    ∧ (plot_flowcell_map ext logic members set_data metrics type options data).data.heatmap
        = (data.heatmap.clear).resize metrics.flowcell.lane_count
            (metrics.flowcell.total_swaths (!options.is_specific_surface)
              * metrics.flowcell.tiles_per_lane)
    ∧ (plot_flowcell_map ext logic members set_data metrics type options data).data.saxis
        = data.saxis
    ∧ (plot_flowcell_map ext logic members set_data metrics type options data).data.title
        = data.title
    ∧ (plot_flowcell_map ext logic members set_data metrics type options data).data.subtitle
        = data.subtitle
    ∧ (plot_flowcell_map ext logic members set_data metrics type options data).data.label
        = data.label
    ∧ (plot_flowcell_map ext logic members set_data metrics type options data).metrics = metrics
    ∧ (∀ metric_name, ext.parse metric_name = metric_type.UnknownMetricType →
        (plot_flowcell_map_by_name ext logic members set_data metrics metric_name options
            data).error = some .invalid_metric_type
        ∧ (plot_flowcell_map_by_name ext logic members set_data metrics metric_name options
            data).data = data) := by
  obtain ⟨hd, hm⟩ := plot_flowcell_map_failure ext logic members set_data metrics type options
    data hfail
  refine ⟨hd, ?_, ?_, ?_, ?_, ?_, hm, ?_⟩
  · rw [hd]; rfl
  · rw [hd]; rfl
  · rw [hd]; rfl
  · rw [hd]; rfl
  · rw [hd]; rfl
  · intro metric_name hname
    simp [plot_flowcell_map_by_name, hname]

theorem plot_flowcell_map_failure_state_witness :
    (plot_flowcell_map example_ext example_logic example_members example_set_data
        (example_metrics []) (.other 0) (example_options true false false) example_data).error
      ≠ none
    ∧ (plot_flowcell_map example_ext example_logic example_members example_set_data
        (example_metrics []) (.other 0) (example_options true false false)
        example_data).data.heatmap = (example_data.heatmap.clear).resize 1 (1 * 2)
    ∧ (plot_flowcell_map example_ext example_logic example_members example_set_data
        (example_metrics []) (.other 0) (example_options true false false)
        example_data).data.saxis = ⟨1, 2⟩ :=
  ⟨by decide,
    (plot_flowcell_map_failure_state example_ext example_logic example_members example_set_data
      (example_metrics []) (.other 0) (example_options true false false) example_data
      (by decide)).2.1,
    (plot_flowcell_map_failure_state example_ext example_logic example_members example_set_data
      (example_metrics []) (.other 0) (example_options true false false) example_data
      (by decide)).2.2.1⟩

/-- Claim C13 fails as stated in the example run, for a cycle-keyed type with all cycles
requested: the call fails with `InvalidFilterOption`, and the cell `(0, 0)`, which read 7 before
the call, reads 0 afterwards, because `clear` and `resize` run before the checks. -/
theorem plot_flowcell_map_failure_clears :
    (plot_flowcell_map example_ext example_logic example_members example_set_data
        (example_metrics []) (.other 0) (example_options true false false) example_data).error
      = some .invalid_filter_option
    ∧ example_data.heatmap.at 0 0 = .ok 7
    ∧ (plot_flowcell_map example_ext example_logic example_members example_set_data
        (example_metrics []) (.other 0) (example_options true false false)
        example_data).data.heatmap.at 0 0 = .ok 0
    ∧ (plot_flowcell_map example_ext example_logic example_members example_set_data
        (example_metrics []) (.other 0) (example_options true false false) example_data).data
      ≠ example_data := by
  refine ⟨by decide, by rfl, by rfl, by decide⟩

/-- Claim C14. Unsupported filter combinations are rejected before any record is inspected: when
`validate` returns, `plot_flowcell_map` fails with `InvalidFilterOption`, leaving the run metrics
as they were and the flowcell map as `clear` and `resize` left it, whatever the records, the
extractors and `set_data` are (the populator is not reached), in each of these cases: the type is
cycle-keyed and all cycles are requested; the type is read-keyed, all reads are requested and the
run has more than one read; the type is in the Extraction category and all channels are
requested; the type is in the CorrectedInt category and all bases are requested. -/
theorem unsupported_filter_rejected {R : Type} (ext : metric_type_ext) (logic : metric_logic R)
    (members : metric_members R)
    (set_data : flowcell_data → Nat → Nat → Nat → ℚ → flowcell_data)
    (metrics : run_metrics R) (type : metric_type) (options : plot_filter_options R)
    (data : flowcell_data) (hvalidate : options.validate type = none) :
    (ext.is_cycle_metric type = true → options.all_cycles = true →
      plot_flowcell_map ext logic members set_data metrics type options data
        = ⟨metrics, prepare_flowcell_map metrics options data, some .invalid_filter_option⟩)
    ∧ (ext.is_read_metric type = true → options.all_reads = true → metrics.reads_size > 1 →
      plot_flowcell_map ext logic members set_data metrics type options data
        = ⟨metrics, prepare_flowcell_map metrics options data, some .invalid_filter_option⟩)
    ∧ (ext.to_group type = .Extraction → options.all_channels type = true →
      plot_flowcell_map ext logic members set_data metrics type options data
        = ⟨metrics, prepare_flowcell_map metrics options data, some .invalid_filter_option⟩)
    ∧ (ext.to_group type = .CorrectedInt → options.all_bases type = true →
      plot_flowcell_map ext logic members set_data metrics type options data
        = ⟨metrics, prepare_flowcell_map metrics options data, some .invalid_filter_option⟩) := by
  refine ⟨?_, ?_, ?_, ?_⟩
  · intro h1 h2
    simp [plot_flowcell_map, hvalidate, h1, h2]
  · intro h1 h2 h3
    simp only [plot_flowcell_map, hvalidate, h1, h2, h3]
    split <;> simp
  · intro hg h1
    simp only [plot_flowcell_map, hvalidate, hg, h1]
    split
    · rfl
    · split <;> simp
  · intro hg h1
    simp only [plot_flowcell_map, hvalidate, hg, h1]
    split
    · rfl
    · split <;> simp

theorem unsupported_filter_rejected_witness :
    (example_options true true false).validate (.other 0) = none
    ∧ plot_flowcell_map example_ext example_logic example_members example_set_data
        (example_metrics []) (.other 0) (example_options true true false) example_data
      = ⟨example_metrics [],
          prepare_flowcell_map (example_metrics []) (example_options true true false)
            example_data,
          some .invalid_filter_option⟩ :=
  ⟨rfl,
    (unsupported_filter_rejected example_ext example_logic example_members example_set_data
      (example_metrics []) (.other 0) (example_options true true false) example_data rfl).1
      (by decide) (by decide)⟩

/-- Claim C16. Error-rate upper clamp: when the plotted type is `ErrorRate` the upper bound of
the final range is `min(5, u)`, with `u` the upper bound of the general range computation, for
every data set; an upper bound of 12 ends as 5 and one of 3 stays 3. For every other type the
final range is the general one, so its upper bound is `u`. -/
theorem error_rate_upper_clamp (type : metric_type) (values_for_scaling : List ℚ) (saxis : axis) :
    (scale_range metric_type.ErrorRate values_for_scaling saxis).m_max
        = min 5 (general_range values_for_scaling saxis).m_max
    ∧ (type ≠ metric_type.ErrorRate →
        scale_range type values_for_scaling saxis = general_range values_for_scaling saxis)
    ∧ (general_range [12, 1] saxis).m_max = 12
    ∧ (scale_range metric_type.ErrorRate [12, 1] saxis).m_max = 5
    ∧ (general_range [3, 1] saxis).m_max = 3
    ∧ (scale_range metric_type.ErrorRate [3, 1] saxis).m_max = 3 := by
  have hgen : ∀ values : List ℚ, ∀ a : axis,
      scale_range metric_type.ErrorRate values a
        = set_range (general_range values a) 0 (min 5 (general_range values a).m_max) := by
    intro values a; simp [scale_range, general_range]
  have h12 : sort_values [12, 1] = [1, 12] := by
    apply sort_values_eq
    · simp [List.Sorted]
    · decide
  have h3 : sort_values [3, 1] = [1, 3] := by
    apply sort_values_eq
    · simp [List.Sorted]
    · decide
  have g12 : (general_range [12, 1] saxis).m_max = 12 := by
    simp only [general_range, h12, set_range]; norm_num
  have g3 : (general_range [3, 1] saxis).m_max = 3 := by
    simp only [general_range, h3, set_range]; norm_num
  refine ⟨?_, ?_, g12, ?_, g3, ?_⟩
  · rw [hgen]; rfl
  · intro ht
    simp [scale_range, general_range, ht]
  · rw [hgen]; simp only [set_range, g12]; norm_num
  · rw [hgen]; simp only [set_range, g3]; norm_num

/-- Claim C17. An empty value list gives the range `[0, 0]`: for every type of a supported
category, `ErrorRate` included, when no filter check fails and no record of the category emits a
value (the stream is empty, or every record is rejected by the filter or extracts to
not-a-number), `plot_flowcell_map` returns without an exception and the axis range of the
flowcell map is exactly `[0, 0]`. -/
theorem empty_values_range_zero {R : Type} (ext : metric_type_ext) (logic : metric_logic R)
    (members : metric_members R)
    (set_data : flowcell_data → Nat → Nat → Nat → ℚ → flowcell_data)
    (metrics : run_metrics R) (type : metric_type) (options : plot_filter_options R)
    (data : flowcell_data) (hchecks : filter_checks_pass ext metrics type options)
    (hsup : supported_group (ext.to_group type))
    (hnone : ∀ record ∈ plotted_records ext logic metrics type,
      options.valid_tile_cycle record = false
        ∨ plotted_value ext logic type options record type = none) :
    (plot_flowcell_map ext logic members set_data metrics type options data).error = none
    ∧ (plot_flowcell_map ext logic members set_data metrics type options data).data.saxis
        = ⟨0, 0⟩
    ∧ (plot_flowcell_map ext logic members set_data metrics type options data).data.heatmap
        = (prepare_flowcell_map metrics options data).heatmap := by
  obtain ⟨he, hd⟩ := plot_flowcell_map_success ext logic members set_data metrics type options
    data hchecks hsup
  have hem : emitted_values (plotted_value ext logic type options) type
      options.tofilter_options (plotted_records ext logic metrics type) = [] := by
    unfold emitted_values
    rw [List.filterMap_eq_nil_iff]
    intro record hrec
    rcases hnone record hrec with h | h
    · simp [h]
    · simp [h]
  have hvals : plotted_values ext logic metrics type options = [] := by
    unfold plotted_values; rw [hem]; rfl
  refine ⟨he, ?_, ?_⟩
  · rw [hd, (finish_flowcell_map_saxis ext metrics type options _ _).1, hvals]
    by_cases ht : type = metric_type.ErrorRate
    · simp [scale_range, set_range, ht]
    · simp [scale_range, set_range, ht]
  · rw [hd, (finish_flowcell_map_saxis ext metrics type options _ _).2.1, hem]
    rfl

theorem empty_values_range_zero_witness :
    (filter_checks_pass example_ext (example_metrics [⟨1, 1, none⟩]) .ErrorRate
        (example_options false false false)
      ∧ supported_group (example_ext.to_group .ErrorRate)
      ∧ ∀ record ∈ plotted_records example_ext example_logic (example_metrics [⟨1, 1, none⟩])
          .ErrorRate,
        (example_options false false false).valid_tile_cycle record = false
          ∨ plotted_value example_ext example_logic .ErrorRate
              (example_options false false false) record .ErrorRate = none)
    ∧ (plot_flowcell_map example_ext example_logic example_members example_set_data
        (example_metrics [⟨1, 1, none⟩]) .ErrorRate (example_options false false false)
        example_data).error = none
    ∧ (plot_flowcell_map example_ext example_logic example_members example_set_data
        (example_metrics [⟨1, 1, none⟩]) .ErrorRate (example_options false false false)
        example_data).data.saxis = ⟨0, 0⟩ := by
  have h1 : filter_checks_pass example_ext (example_metrics [⟨1, 1, none⟩]) .ErrorRate
      (example_options false false false) := by decide
  have h2 : supported_group (example_ext.to_group .ErrorRate) := by decide
  have h3 : ∀ record ∈ plotted_records example_ext example_logic
      (example_metrics [⟨1, 1, none⟩]) .ErrorRate,
      (example_options false false false).valid_tile_cycle record = false
        ∨ plotted_value example_ext example_logic .ErrorRate
            (example_options false false false) record .ErrorRate = none := by
    intro record hrec
    right
    simp only [plotted_records, example_ext, example_metrics, List.mem_singleton] at hrec
    subst hrec
    rfl
  have h := empty_values_range_zero example_ext example_logic example_members example_set_data
    (example_metrics [⟨1, 1, none⟩]) .ErrorRate (example_options false false false)
    example_data h1 h2 h3
  exact ⟨⟨h1, h2, h3⟩, h.1, h.2.1⟩

/-- Claim C18. `clear` returns the grid to Empty in both buffer modes: afterwards `row_count`,
`column_count` and `length` are 0, the grid owns no buffer, and every access through `at` or
`operator()` fails with the row exception; a grid that does not own its buffer (constructed
over, or `set_buffer`ed to, a buffer of the caller) deletes nothing and keeps the buffer and its
cells as they are. -/
theorem clear_returns_to_empty (h : heatmap_data) (data : Option (List ℚ)) (rows cols : Nat) :
    h.clear.row_count = 0 ∧ h.clear.column_count = 0 ∧ h.clear.length = 0
    ∧ h.clear.m_free = false
    ∧ (∀ row col, h.clear.at row col = .error .row_index_out_of_bounds
        ∧ h.clear.call_const row col = .error .row_index_out_of_bounds
        ∧ h.clear.call row col = .error .row_index_out_of_bounds)
    ∧ (h.m_free = false → h.clear_deleted = none ∧ h.clear.m_data = h.m_data)
    ∧ ((heatmap_data.wrap data rows cols).clear_deleted = none
        ∧ (heatmap_data.wrap data rows cols).clear.m_data = data)
    ∧ ((h.set_buffer data rows cols).clear_deleted = none
        ∧ (h.set_buffer data rows cols).clear.m_data = data) := by
  have hshape : h.clear.m_num_rows = 0 ∧ h.clear.m_num_columns = 0 ∧ h.clear.m_free = false := by
    unfold heatmap_data.clear; split <;> exact ⟨rfl, rfl, rfl⟩
  refine ⟨hshape.1, hshape.2.1, ?_, hshape.2.2, ?_, ?_, ⟨rfl, rfl⟩, ⟨rfl, rfl⟩⟩
  · unfold heatmap_data.length; rw [hshape.1, hshape.2.1]
  · intro row col
    simp [heatmap_data.at, heatmap_data.call_const, heatmap_data.call, clear_locate, Except.map]
  · intro hf
    simp [heatmap_data.clear_deleted, heatmap_data.clear, hf]

/-- Claim C20, amended. The member `accumulate_into`: for every histogram and every running
distribution of the caller, when the distribution has the length of the raw counts the length is
unchanged and `distribution[i]` becomes the old `distribution[i]` plus `counts[i]` in the
arithmetic of the element type `T` of the distribution (the count converted to `T`, the sum of
`T`): for a distribution of unsigned integers of `w` bits this is the sum modulo `2^w`, which is
the sum itself when it is below `2^w`; when the lengths differ the distribution is unchanged. The
member is `const`: the result is the distribution alone. -/
theorem accumulate_into_adds {T : Type} [Add T] [NatCast T] (h : q_metric)
    (distribution : List T) (w : Nat) (unsigned : List (Fin (2 ^ w))) :
    (distribution.length = h.m_qscore_hist.length →
      (h.accumulate_into distribution).length = distribution.length
      ∧ ∀ (i : Nat) (d : T) (c : Nat), distribution[i]? = some d → h.m_qscore_hist[i]? = some c →
          (h.accumulate_into distribution)[i]? = some (d + (c : T)))
    ∧ (distribution.length ≠ h.m_qscore_hist.length →
      h.accumulate_into distribution = distribution)
    ∧ (unsigned.length = h.m_qscore_hist.length →
      (h.accumulate_into unsigned).length = unsigned.length
      ∧ ∀ (i : Nat) (d : Fin (2 ^ w)) (c : Nat), unsigned[i]? = some d →
          h.m_qscore_hist[i]? = some c →
          ∃ s : Fin (2 ^ w), (h.accumulate_into unsigned)[i]? = some s
            ∧ s.val = (d.val + c) % 2 ^ w
            ∧ (d.val + c < 2 ^ w → s.val = d.val + c))
    ∧ (unsigned.length ≠ h.m_qscore_hist.length → h.accumulate_into unsigned = unsigned) := by
  refine ⟨?_, ?_, ?_, ?_⟩
  · intro hlen
    unfold q_metric.accumulate_into
    rw [if_neg (by simpa using hlen)]
    refine ⟨by simp [hlen], ?_⟩
    intro i d c hd hc
    rw [List.getElem?_zipWith, hd, hc]
  · intro hlen
    unfold q_metric.accumulate_into
    rw [if_pos hlen]
  · intro hlen
    unfold q_metric.accumulate_into
    rw [if_neg (by simpa using hlen)]
    refine ⟨by simp [hlen], ?_⟩
    intro i d c hd hc
    refine ⟨d + (c : Fin (2 ^ w)), ?_, ?_, ?_⟩
    · rw [List.getElem?_zipWith, hd, hc]
    · rw [Fin.val_add, Fin.val_natCast, Nat.add_mod_mod]
    · intro hlt
      rw [Fin.val_add, Fin.val_natCast, Nat.add_mod_mod, Nat.mod_eq_of_lt hlt]
  · intro hlen
    unfold q_metric.accumulate_into
    rw [if_pos hlen]

/-- Claim C20 fails for a distribution of 32-bit unsigned integers: the histogram with the one
count 1 added into the distribution `[4294967295]` leaves `[0]`, not the sum 4294967296. -/
theorem accumulate_into_wraps :
    ((⟨1, 1, 1, [1], []⟩ : q_metric).accumulate_into ([4294967295] : List (Fin (2 ^ 32)))).map
        (fun total => total.val) = [0]
    ∧ ([4294967295].map fun total => total + 1) = [4294967296]
    ∧ ([0] : List Nat) ≠ [4294967296] := by
  decide

/-! ## Lemmas for the bin table, the median and the range -/

theorem total_over_le_sum (hist : uint_vector) (qscore : Nat) (bins : qscore_bin_vector_type)
    (hlen : bins.length ≤ hist.length) : total_over hist qscore bins ≤ hist.sum := by
  unfold total_over
  split
  · split
    · rw [accumulate_uint_eq]
      have h1 := Nat.mod_le (hist.drop qscore).sum UINT_MODULUS
      have h2 := List.sum_take_add_sum_drop hist qscore
      omega
    · exact Nat.zero_le _
  · unfold total_over_bins
    rw [total_over_bins_mod]
    have h1 := filtered_sum_le hist bins.length
      (fun i => qscore ≤ (bins.getD i default).value) hlen
    have h2 := Nat.mod_le
      (∑ i ∈ (Finset.range bins.length).filter
        (fun i => qscore ≤ (bins.getD i default).value), hist.getD i 0) UINT_MODULUS
    omega

theorem median_walk_all_zero (position : Nat) (hpos : 0 < position) (hist : uint_vector)
    (hzero : ∀ c ∈ hist, c = 0) (i : Nat) :
    median_walk position hist i 0 = i + hist.length := by
  induction hist generalizing i with
  | nil => simp [median_walk]
  | cons c rest ih =>
    have hc : c = 0 := hzero c (List.mem_cons_self _ _)
    subst hc
    unfold median_walk
    have h0 : (0 + 0) % UINT_MODULUS = 0 := by decide
    rw [h0, if_neg (by omega), ih (fun c hc => hzero c (List.mem_cons_of_mem _ hc)) (i + 1)]
    simp only [List.length_cons]
    omega

theorem sum_all_zero (hist : uint_vector) (hzero : ∀ c ∈ hist, c = 0) : hist.sum = 0 := by
  induction hist with
  | nil => rfl
  | cons c rest ih =>
    rw [List.sum_cons, hzero c (List.mem_cons_self _ _),
      ih (fun c hc => hzero c (List.mem_cons_of_mem _ hc))]

theorem index_of_injective (h : heatmap_data) (row col other_row other_col : Nat)
    (hcol : col < h.m_num_columns) (hother : other_col < h.m_num_columns)
    (heq : h.index_of row col = h.index_of other_row other_col) :
    row = other_row ∧ col = other_col := by
  unfold heatmap_data.index_of at heq
  have hc : 0 < h.m_num_columns := by omega
  have h1 : (row * h.m_num_columns + col) / h.m_num_columns = row := by
    rw [Nat.mul_comm, Nat.mul_add_div hc, Nat.div_eq_of_lt hcol]; rfl
  have h2 : (other_row * h.m_num_columns + other_col) / h.m_num_columns = other_row := by
    rw [Nat.mul_comm, Nat.mul_add_div hc, Nat.div_eq_of_lt hother]; rfl
  have hr : row = other_row := by rw [← h1, ← h2, heq]
  subst hr
  exact ⟨rfl, by omega⟩

theorem assign_ok (h : heatmap_data) (row col : Nat) (value : ℚ) (hvalid : h.valid)
    (hrow : row < h.m_num_rows) (hcol : col < h.m_num_columns) :
    ∃ cells, h.m_data = some cells ∧ row * h.m_num_columns + col < cells.length
      ∧ h.assign row col value
        = .ok ⟨some (cells.set (row * h.m_num_columns + col) value), h.m_num_columns,
            h.m_num_rows, h.m_free⟩ := by
  have hidx := index_of_lt h row col hrow hcol
  unfold heatmap_data.index_of at hidx
  have hl := locate_ok h row col hvalid hrow hcol
  cases hd : h.m_data with
  | none =>
    unfold heatmap_data.valid at hvalid
    rw [hd] at hvalid
    simp at hvalid
    omega
  | some cells =>
    have hlen : row * h.m_num_columns + col < cells.length := by
      unfold heatmap_data.valid at hvalid
      rw [hd] at hvalid
      simp only [Option.getD_some] at hvalid
      omega
    refine ⟨cells, rfl, hlen, ?_⟩
    simp only [heatmap_data.assign, heatmap_data.call, hl, Except.map, hd, Option.map_some']

theorem position_reached_iff (total sum : Nat) :
    median_position_spec total ≤ sum ↔ total < 2 * sum := by
  unfold median_position_spec
  split <;> omega

theorem first_reach_majority (hist : uint_vector) (i : Nat)
    (h : first_reach (running_sum hist) hist.length (median_position_spec hist.sum) i) :
    majority_index hist i := by
  obtain ⟨h1, h2, h3⟩ := h
  refine ⟨h1, (position_reached_iff _ _).mp h2, ?_⟩
  intro j hj
  have := h3 j hj
  have hn : ¬ hist.sum < 2 * running_sum hist j := fun hc =>
    absurd ((position_reached_iff _ _).mpr hc) (by omega)
  omega

theorem sum_take_succ_getD (l : List Nat) (n : Nat) :
    (l.take (n + 1)).sum = (l.take n).sum + l.getD n 0 := by
  induction l generalizing n with
  | nil => simp
  | cons a l ih =>
    cases n with
    | zero => simp
    | succ n =>
      simp only [List.take_succ_cons, List.sum_cons, List.getD_cons_succ]
      rw [ih n]
      omega

theorem majority_index_facts (hist : uint_vector) (i : Nat) (h : majority_index hist i) :
    0 < hist.getD i 0 ∧ 2 * (hist.take i).sum ≤ hist.sum
      ∧ hist.sum ≤ 2 * (hist.drop i).sum := by
  obtain ⟨_, h2, h3⟩ := h
  have hbelow : 2 * (hist.take i).sum ≤ hist.sum := by
    cases i with
    | zero => simp
    | succ j => exact h3 j (by omega)
  have hsplit := List.sum_take_add_sum_drop hist i
  have hrun : running_sum hist i = (hist.take i).sum + hist.getD i 0 :=
    sum_take_succ_getD hist i
  refine ⟨by omega, hbelow, by omega⟩

theorem index_for_q_value_loop_shift (qval : Nat) (bins : qscore_bin_vector_type) (index : Nat) :
    index_for_q_value_loop qval bins index = index + index_for_q_value_loop qval bins 0 := by
  induction bins generalizing index with
  | nil => simp [index_for_q_value_loop]
  | cons bin rest ih =>
    unfold index_for_q_value_loop
    split
    · rw [ih (index + 1), ih (0 + 1)]; omega
    · simp

theorem index_for_q_value_loop_smallest (qval : Nat) (bins : qscore_bin_vector_type) :
    smallest_bin_index bins qval (index_for_q_value_loop qval bins 0) := by
  induction bins with
  | nil => simp [smallest_bin_index, index_for_q_value_loop]
  | cons bin rest ih =>
    unfold index_for_q_value_loop
    split
    next hlt =>
      rw [index_for_q_value_loop_shift]
      obtain ⟨h1, h2, h3⟩ := ih
      refine ⟨by simp only [List.length_cons]; omega, ?_, ?_⟩
      · intro j hj
        cases j with
        | zero => simpa using hlt
        | succ j =>
          have := h2 j (by omega)
          simpa using this
      · intro hidx
        have hrw : 0 + 1 + index_for_q_value_loop qval rest 0
            = index_for_q_value_loop qval rest 0 + 1 := by omega
        rw [hrw]
        have := h3 (by simp only [List.length_cons] at hidx; omega)
        simpa using this
    next hge =>
      refine ⟨Nat.zero_le _, by intro j hj; omega, ?_⟩
      intro _
      simp only [List.getD_cons_zero]
      omega

theorem filter_from_index (bins : qscore_bin_vector_type) (q index : Nat)
    (hmono : bins_non_decreasing bins) (hsmall : smallest_bin_index bins q index) :
    (Finset.range bins.length).filter (fun i => q ≤ (bins.getD i default).value)
      = (Finset.range bins.length).filter (fun i => index ≤ i) := by
  obtain ⟨_, h2, h3⟩ := hsmall
  apply Finset.filter_congr
  intro i hi
  have hilt : i < bins.length := Finset.mem_range.mp hi
  constructor
  · intro hq
    by_contra hcon
    have := h2 i (by omega)
    omega
  · intro hidx
    have hv := h3 (by omega)
    have := hmono index i hidx hilt
    omega

/-! ## The claims on the bin table, the median and the cells of the grid -/

/-- Claim C21. Checked element lookups: for every bin table and every `n`, `bin_at(n)` fails with
the out-of-bounds exception if and only if `n >= bin_count()` and otherwise returns the `n`-th
bin; for every histogram and every `n`, `qscore_hist(n)` fails with the out-of-bounds exception
if and only if `n >= size()` and otherwise returns the `n`-th raw count. -/
theorem checked_lookups (header : q_score_header) (h : q_metric) (n : Nat) :
    ((∃ e, header.bin_at n = .error e) ↔ n ≥ header.bin_count)
    ∧ (n ≥ header.bin_count → header.bin_at n = .error ⟨"Index out of bounds"⟩)
    ∧ (n < header.bin_count →
        ∃ bin, header.m_qscore_bins[n]? = some bin ∧ header.bin_at n = .ok bin)
    ∧ ((∃ e, h.qscore_hist n = .error e) ↔ n ≥ h.size)
    ∧ (n ≥ h.size → h.qscore_hist n = .error ⟨"Index out of bounds"⟩)
    ∧ (n < h.size → ∃ count, h.m_qscore_hist[n]? = some count ∧ h.qscore_hist n = .ok count) := by
  unfold q_score_header.bin_count q_metric.size
  refine ⟨?_, ?_, ?_, ?_, ?_, ?_⟩
  · unfold q_score_header.bin_at
    by_cases hn : n ≥ header.m_qscore_bins.length
    · simp [hn]
    · simp [hn]
  · intro hn
    unfold q_score_header.bin_at
    rw [if_pos hn]
  · intro hn
    refine ⟨header.m_qscore_bins[n], List.getElem?_eq_getElem hn, ?_⟩
    unfold q_score_header.bin_at
    rw [if_neg (by omega), List.getD_eq_getElem _ _ hn]
  · unfold q_metric.qscore_hist
    by_cases hn : n ≥ h.m_qscore_hist.length
    · simp [hn]
    · simp [hn]
  · intro hn
    unfold q_metric.qscore_hist
    rw [if_pos hn]
  · intro hn
    refine ⟨h.m_qscore_hist[n], List.getElem?_eq_getElem hn, ?_⟩
    unfold q_metric.qscore_hist
    rw [if_neg (by omega), List.getD_eq_getElem _ _ hn]

/-- Claim C22. The cumulative variant has the duality of the raw one: for every histogram with a
non-empty cumulative vector, every threshold above 0 and every bin table,
`total_over_qscore_cumulative(threshold, bins)` is `total_over_qscore(threshold, bins)` of any
histogram whose raw counts are the cumulative vector of this one; so is the call without a bin
table. -/
theorem total_over_qscore_cumulative_duality (h g : q_metric) (threshold : Nat)
    (bins : qscore_bin_vector_type) (_hne : h.m_qscore_hist_cumulative ≠ [])
    (_hthreshold : 0 < threshold) (hg : g.m_qscore_hist = h.m_qscore_hist_cumulative) :
    h.total_over_qscore_cumulative threshold bins = g.total_over_qscore threshold bins
    ∧ h.total_over_qscore_cumulative threshold = g.total_over_qscore threshold := by
  unfold q_metric.total_over_qscore_cumulative q_metric.total_over_qscore
  rw [hg]
  exact ⟨rfl, rfl⟩

theorem total_over_qscore_cumulative_duality_witness :
    (([3, 5, 9] : List Nat) ≠ [] ∧ 0 < 1 ∧ ([3, 5, 9] : List Nat) = [3, 5, 9])
    ∧ q_metric.total_over_qscore_cumulative ⟨1, 1, 2, [1, 2, 3], [3, 5, 9]⟩ 1
        [⟨0, 9, 5⟩, ⟨10, 19, 15⟩, ⟨20, 29, 25⟩]
      = q_metric.total_over_qscore ⟨1, 1, 2, [3, 5, 9], [0, 0, 0]⟩ 1
        [⟨0, 9, 5⟩, ⟨10, 19, 15⟩, ⟨20, 29, 25⟩]
    ∧ q_metric.total_over_qscore_cumulative ⟨1, 1, 2, [1, 2, 3], [3, 5, 9]⟩ 1
      = q_metric.total_over_qscore ⟨1, 1, 2, [3, 5, 9], [0, 0, 0]⟩ 1 :=
  ⟨by decide,
    total_over_qscore_cumulative_duality ⟨1, 1, 2, [1, 2, 3], [3, 5, 9]⟩
      ⟨1, 1, 2, [3, 5, 9], [0, 0, 0]⟩ 1 [⟨0, 9, 5⟩, ⟨10, 19, 15⟩, ⟨20, 29, 25⟩] (by decide)
      (by decide) rfl⟩

/-- Claim C23 at histograms without a median: the histogram `[0, 0, 0]` with an empty bin table
gives `median() = 4`, the empty histogram gives 1, and the histogram `[0, 0]` under a table of
three bins gives the value 25 of the third bin; none is the maximum 32-bit unsigned integer.
`median` returns that maximum exactly where the walk ends at or beyond the end of a non-empty
table: for every histogram of zero counts whose length is not 50 and every non-empty bin table no
longer than the histogram. -/
theorem median_without_saturation :
    q_metric.sum_qscore ⟨1, 1, 1, [0, 0, 0], [0, 0, 0]⟩ = 0
    ∧ q_metric.median ⟨1, 1, 1, [0, 0, 0], [0, 0, 0]⟩ [] = 4
    ∧ q_metric.median ⟨1, 1, 1, [], []⟩ [] = 1
    ∧ q_metric.median ⟨1, 1, 1, [0, 0], [0, 0]⟩ [⟨0, 9, 5⟩, ⟨10, 19, 15⟩, ⟨20, 29, 25⟩] = 25
    ∧ (4 : Nat) ≠ UINT_MAX ∧ (1 : Nat) ≠ UINT_MAX ∧ (25 : Nat) ≠ UINT_MAX
    ∧ (∀ (h : q_metric) (bins : qscore_bin_vector_type), (∀ c ∈ h.m_qscore_hist, c = 0) →
        ((bins = [] ∨ h.m_qscore_hist.length = 50) → h.median bins = h.m_qscore_hist.length + 1)
        ∧ (bins ≠ [] → h.m_qscore_hist.length ≠ 50 → bins.length ≤ h.m_qscore_hist.length →
            h.median bins = UINT_MAX)
        ∧ (bins ≠ [] → h.m_qscore_hist.length ≠ 50 → h.m_qscore_hist.length < bins.length →
            h.median bins = (bins.getD h.m_qscore_hist.length default).value)) := by
  refine ⟨by decide, by decide, by decide, by decide, by decide, by decide, by decide, ?_⟩
  intro h bins hzero
  have hsum : h.sum_qscore = 0 := by
    unfold q_metric.sum_qscore
    rw [accumulate_uint_eq, sum_all_zero _ hzero]
    decide
  have hwalk : median_walk (median_position h.sum_qscore) h.m_qscore_hist 0 0
      = h.m_qscore_hist.length := by
    rw [hsum]
    have := median_walk_all_zero (median_position 0) (by decide) h.m_qscore_hist hzero 0
    omega
  refine ⟨?_, ?_, ?_⟩
  · intro hmode
    have hcond : bins.length = 0 ∨ h.m_qscore_hist.length = MAX_Q_BINS := by
      rcases hmode with hb | hl
      · left; simp [hb]
      · right; exact hl
    simp only [q_metric.median, if_pos hcond, hwalk]
  all_goals
    intro hb hl hlen
    have hcond : ¬ (bins.length = 0 ∨ h.m_qscore_hist.length = MAX_Q_BINS) := by
      rintro (h0 | h50)
      · exact hb (List.length_eq_zero.mp h0)
      · exact hl h50
    simp only [q_metric.median, if_neg hcond, hwalk]
  · rw [if_neg (by omega)]
  · rw [if_pos hlen]

/-- Claim C24, amended. When the plotted type is `ErrorRate` the lower bound of the final range
is 0 for every data set, whatever lower bound the general computation produced (the two agree for
an empty list, where the general lower bound is 0); for every other type the lower bound of the
final range is the one of the general computation. -/
theorem error_rate_lower_bound (type : metric_type) (values_for_scaling : List ℚ)
    (saxis : axis) :
    (scale_range metric_type.ErrorRate values_for_scaling saxis).m_min = 0
    ∧ (scale_range metric_type.ErrorRate [] saxis).m_min = (general_range [] saxis).m_min
    ∧ (type ≠ metric_type.ErrorRate →
        (scale_range type values_for_scaling saxis).m_min
          = (general_range values_for_scaling saxis).m_min) := by
  refine ⟨?_, ?_, ?_⟩
  · simp [scale_range, set_range]
  · simp [scale_range, general_range, set_range]
  · intro ht
    simp [scale_range, general_range, ht]

/-- Claim C24 fails as stated at the data set 3, 1 plotted as `ErrorRate`: the general
computation gives the lower bound `max(1 - 2 * (3 - 1), 1) = 1`, and the final lower bound is 0,
because the `ErrorRate` line calls `set_range(0, ...)`. -/
theorem error_rate_resets_lower_bound :
    (general_range [3, 1] ⟨0, 0⟩).m_min = 1
    ∧ (scale_range metric_type.ErrorRate [3, 1] ⟨0, 0⟩).m_min = 0
    ∧ ¬ (scale_range metric_type.ErrorRate [3, 1] ⟨0, 0⟩).m_min
        = (general_range [3, 1] ⟨0, 0⟩).m_min := by
  have h3 : sort_values [3, 1] = [1, 3] := by
    apply sort_values_eq
    · simp [List.Sorted]
    · decide
  have hg : (general_range [3, 1] ⟨0, 0⟩).m_min = 1 := by
    simp only [general_range, h3, set_range]; norm_num
  have hs : (scale_range metric_type.ErrorRate [3, 1] ⟨0, 0⟩).m_min = 0 := by
    simp [scale_range, set_range]
  refine ⟨hg, hs, ?_⟩
  rw [hg, hs]
  norm_num

/-- Claim C25 at the histogram `[0, 4294967295]`, of total `T = 4294967295 < 2^32`: the walk of
`median` stops at index 0 (`median() = 1`), where `counts[0] = 0` and twice the running sum is 0,
while the smallest index with `2 * (counts[0] + ... + counts[i]) > T` is 1; `total + 1` wraps to
0 in `uint_t` and the position of the median becomes 0. For every histogram of non-zero total
below `2^32 - 1` the walk stops at the smallest index `i` with
`2 * (counts[0] + ... + counts[i]) > T`, which is `median() - 1` in index-as-value mode, and there
`counts[i] > 0`, at most half of the mass lies below bin `i` and at least half in the bins from
`i` on. -/
theorem median_majority_index :
    ([0, 4294967295] : List Nat).sum ≠ 0 ∧ ([0, 4294967295] : List Nat).sum < 4294967296
    ∧ median_position (q_metric.sum_qscore ⟨1, 1, 1, [0, 4294967295], [0, 0]⟩) = 0
    ∧ median_walk (median_position (q_metric.sum_qscore ⟨1, 1, 1, [0, 4294967295], [0, 0]⟩))
        [0, 4294967295] 0 0 = 0
    ∧ q_metric.median ⟨1, 1, 1, [0, 4294967295], [0, 0]⟩ [] = 1
    ∧ ¬ majority_index [0, 4294967295] 0
    ∧ majority_index [0, 4294967295] 1
    ∧ ([0, 4294967295] : List Nat).getD 0 0 = 0
    ∧ (∀ h : q_metric, h.m_qscore_hist.sum ≠ 0 → h.m_qscore_hist.sum < 4294967295 →
        majority_index h.m_qscore_hist
          (median_walk (median_position h.sum_qscore) h.m_qscore_hist 0 0)
        ∧ h.median [] = median_walk (median_position h.sum_qscore) h.m_qscore_hist 0 0 + 1
        ∧ 0 < h.m_qscore_hist.getD
            (median_walk (median_position h.sum_qscore) h.m_qscore_hist 0 0) 0
        ∧ 2 * (h.m_qscore_hist.take
            (median_walk (median_position h.sum_qscore) h.m_qscore_hist 0 0)).sum
          ≤ h.m_qscore_hist.sum
        ∧ h.m_qscore_hist.sum
          ≤ 2 * (h.m_qscore_hist.drop
            (median_walk (median_position h.sum_qscore) h.m_qscore_hist 0 0)).sum) := by
  refine ⟨by decide, by decide, by decide, by decide, by decide, by decide, by decide,
    by decide, ?_⟩
  intro h hpos hsum
  have hm := first_reach_majority _ _ (median_walk_first_reach h.m_qscore_hist hsum hpos)
  have hf := majority_index_facts _ _ hm
  refine ⟨hm, ?_, hf.1, hf.2.1, hf.2.2⟩
  simp [q_metric.median, q_metric.sum_qscore]

/-- Claim C28, amended. `index_for_q_value` agrees with `total_over_qscore`: for every histogram
whose counts sum below `2^32` and every `q` below `2^32` (a value of `uint_t`, the type of the
parameter of `total_over_qscore`), with a non-empty bin table of monotonically non-decreasing
values and of the length of the histogram, `index_for_q_value(q)` is the smallest index whose bin
value is `>= q` (or `bin_count()` if there is none) and `total_over_qscore(q, bins)` is the sum of
`counts[i]` over `i >= index_for_q_value(q)`; with an empty bin table and `1 <= q <= 2^32`,
`index_for_q_value(q) = q - 1`, this index is passed to `total_over_qscore` unchanged, and
`total_over_qscore(index_for_q_value(q))` is the sum of the counts of the bins whose
index-as-value quality `index + 1` is `>= q`. -/
theorem index_for_q_value_agrees (header : q_score_header) (h : q_metric) (q : Nat)
    (hsum : h.m_qscore_hist.sum < 4294967296) :
    (header.m_qscore_bins ≠ [] → bins_non_decreasing header.m_qscore_bins →
        h.m_qscore_hist.length = header.bin_count → q < 4294967296 →
        smallest_bin_index header.m_qscore_bins q (header.index_for_q_value q)
        ∧ uint_of_size q = q
        ∧ h.total_over_qscore (uint_of_size q) header.bins
            = ∑ i ∈ (Finset.range h.m_qscore_hist.length).filter
                  (fun i => header.index_for_q_value q ≤ i),
                h.m_qscore_hist.getD i 0)
    ∧ (header.m_qscore_bins = [] → 1 ≤ q → q ≤ 4294967296 →
        header.index_for_q_value q = q - 1
        ∧ uint_of_size (header.index_for_q_value q) = q - 1
        ∧ h.total_over_qscore (uint_of_size (header.index_for_q_value q))
            = ∑ i ∈ (Finset.range h.m_qscore_hist.length).filter (fun i => q ≤ i + 1),
                h.m_qscore_hist.getD i 0) := by
  have hraw : ∀ threshold : Nat, h.total_over_qscore threshold
      = ∑ i ∈ (Finset.range h.m_qscore_hist.length).filter (fun i => threshold ≤ i),
          h.m_qscore_hist.getD i 0 := by
    intro threshold
    simp only [q_metric.total_over_qscore, total_over, List.length_nil, if_true]
    by_cases hq : threshold ≤ h.m_qscore_hist.length
    · rw [if_pos hq, ← sum_drop_eq]
      apply accumulate_uint_exact
      have := List.sum_take_add_sum_drop h.m_qscore_hist threshold
      unfold UINT_MODULUS
      omega
    · rw [if_neg hq]
      symm
      apply Finset.sum_eq_zero
      intro i hi
      simp only [Finset.mem_filter, Finset.mem_range] at hi
      omega
  refine ⟨?_, ?_⟩
  · intro hne hmono hlen hq
    have hlen0 : header.m_qscore_bins.length ≠ 0 := fun h0 => hne (List.length_eq_zero.mp h0)
    have hidx : header.index_for_q_value q
        = index_for_q_value_loop q header.m_qscore_bins 0 := by
      unfold q_score_header.index_for_q_value
      rw [if_neg hlen0]
    have hsmall : smallest_bin_index header.m_qscore_bins q (header.index_for_q_value q) := by
      rw [hidx]; exact index_for_q_value_loop_smallest q header.m_qscore_bins
    have hnarrow : uint_of_size q = q := by
      unfold uint_of_size UINT_MODULUS
      exact Nat.mod_eq_of_lt hq
    have hbins : h.total_over_qscore q header.bins
        = ∑ i ∈ (Finset.range h.m_qscore_hist.length).filter
              (fun i => header.index_for_q_value q ≤ i),
            h.m_qscore_hist.getD i 0 := by
      unfold q_score_header.bin_count at hlen
      simp only [q_metric.total_over_qscore, total_over, q_score_header.bins, if_neg hlen0]
      unfold total_over_bins
      rw [total_over_bins_mod, filter_from_index _ _ _ hmono hsmall, ← hlen]
      apply Nat.mod_eq_of_lt
      have := filtered_sum_le h.m_qscore_hist h.m_qscore_hist.length
        (fun i => header.index_for_q_value q ≤ i) (Nat.le_refl _)
      unfold UINT_MODULUS
      omega
    exact ⟨hsmall, hnarrow, by rw [hnarrow, hbins]⟩
  · intro hempty hq1 hq2
    have hidx : header.index_for_q_value q = q - 1 := by
      unfold q_score_header.index_for_q_value SIZE_MODULUS
      rw [hempty]
      simp only [List.length_nil, if_true]
      omega
    have hnarrow : uint_of_size (header.index_for_q_value q) = q - 1 := by
      rw [hidx]
      unfold uint_of_size UINT_MODULUS
      apply Nat.mod_eq_of_lt
      omega
    refine ⟨hidx, hnarrow, ?_⟩
    rw [hnarrow, hraw]
    apply Finset.sum_congr
    · apply Finset.filter_congr
      intro i _
      omega
    · intro i _; rfl

theorem index_for_q_value_agrees_witness :
    (1 + 2 + 3 < 4294967296)
    ∧ q_score_header.index_for_q_value ⟨[⟨0, 9, 5⟩, ⟨10, 19, 15⟩, ⟨20, 29, 25⟩]⟩ 12 = 1
    ∧ q_metric.total_over_qscore ⟨1, 1, 1, [1, 2, 3], [0, 0, 0]⟩ (uint_of_size 12)
        [⟨0, 9, 5⟩, ⟨10, 19, 15⟩, ⟨20, 29, 25⟩]
      = ∑ i ∈ (Finset.range 3).filter
            (fun i => q_score_header.index_for_q_value
              ⟨[⟨0, 9, 5⟩, ⟨10, 19, 15⟩, ⟨20, 29, 25⟩]⟩ 12 ≤ i),
          ([1, 2, 3] : List Nat).getD i 0
    ∧ q_score_header.index_for_q_value ⟨[]⟩ 2 = 2 - 1
    ∧ uint_of_size (q_score_header.index_for_q_value ⟨[]⟩ 2) = 2 - 1 := by
  have h1 := index_for_q_value_agrees ⟨[⟨0, 9, 5⟩, ⟨10, 19, 15⟩, ⟨20, 29, 25⟩]⟩
    ⟨1, 1, 1, [1, 2, 3], [0, 0, 0]⟩ 12 (by decide)
  have h2 := index_for_q_value_agrees ⟨[]⟩ ⟨1, 1, 1, [1, 2, 3], [0, 0, 0]⟩ 2 (by decide)
  exact ⟨by decide, by decide, (h1.1 (by decide) (by decide) (by decide) (by decide)).2.2,
    (h2.2 rfl (by decide) (by decide)).1, (h2.2 rfl (by decide) (by decide)).2.1⟩

/-- Claim C28 fails as stated at the histogram `[2147483648, 2147483648]` under the bin table of
values 5 and 15, for `q = 5`: `index_for_q_value(5) = 0`, the sum of `counts[i]` over `i >= 0` is
`4294967296`, and `total_over_qscore(5, bins)` is 0, the sum modulo `2^32`. It also fails at the
histogram `[1, 2, 4]` with an empty bin table for `q = 2^32 + 1`: `index_for_q_value(q)` is
`2^32`, which becomes 0 when it is passed for the `uint_t` parameter of `total_over_qscore`, so
the call returns 7, the sum of every count, where no bin has `index + 1 >= q`. -/
theorem index_for_q_value_sum_wraps :
    bins_non_decreasing [⟨0, 9, 5⟩, ⟨10, 19, 15⟩]
    ∧ q_score_header.index_for_q_value ⟨[⟨0, 9, 5⟩, ⟨10, 19, 15⟩]⟩ 5 = 0
    ∧ q_metric.total_over_qscore ⟨1, 1, 1, [2147483648, 2147483648], [0, 0]⟩ 5
        [⟨0, 9, 5⟩, ⟨10, 19, 15⟩] = 0
    ∧ ∑ i ∈ (Finset.range 2).filter
          (fun i => q_score_header.index_for_q_value ⟨[⟨0, 9, 5⟩, ⟨10, 19, 15⟩]⟩ 5 ≤ i),
        ([2147483648, 2147483648] : List Nat).getD i 0 = 4294967296
    ∧ ¬ q_metric.total_over_qscore ⟨1, 1, 1, [2147483648, 2147483648], [0, 0]⟩ 5
          [⟨0, 9, 5⟩, ⟨10, 19, 15⟩]
        = ∑ i ∈ (Finset.range 2).filter
            (fun i => q_score_header.index_for_q_value ⟨[⟨0, 9, 5⟩, ⟨10, 19, 15⟩]⟩ 5 ≤ i),
          ([2147483648, 2147483648] : List Nat).getD i 0
    ∧ q_score_header.index_for_q_value ⟨[]⟩ 4294967297 = 4294967296
    ∧ uint_of_size (q_score_header.index_for_q_value ⟨[]⟩ 4294967297) = 0
    ∧ q_metric.total_over_qscore ⟨1, 1, 1, [1, 2, 4], [0, 0, 0]⟩
        (uint_of_size (q_score_header.index_for_q_value ⟨[]⟩ 4294967297)) = 7
    ∧ ∑ i ∈ (Finset.range 3).filter (fun i => 4294967297 ≤ i + 1),
        ([1, 2, 4] : List Nat).getD i 0 = 0 := by
  have hidx : q_score_header.index_for_q_value ⟨[⟨0, 9, 5⟩, ⟨10, 19, 15⟩]⟩ 5 = 0 := by decide
  have htot : q_metric.total_over_qscore ⟨1, 1, 1, [2147483648, 2147483648], [0, 0]⟩ 5
      [⟨0, 9, 5⟩, ⟨10, 19, 15⟩] = 0 := by decide
  have hsumv : ∑ i ∈ (Finset.range 2).filter
        (fun i => q_score_header.index_for_q_value ⟨[⟨0, 9, 5⟩, ⟨10, 19, 15⟩]⟩ 5 ≤ i),
      ([2147483648, 2147483648] : List Nat).getD i 0 = 4294967296 := by
    rw [hidx]
    simp [Finset.sum_range_succ]
  refine ⟨by decide, hidx, htot, hsumv, ?_, by decide, by decide, by decide, by decide⟩
  rw [htot, hsumv]
  decide

/-- Claim C29. Row-major addressing is in bounds and collision-free: for every grid with `R` rows
and `C` columns whose buffer holds its `R * C` cells and every two in-bounds coordinates,
`index_of(row, col) = row * C + col < R * C`, different coordinates have different indices, and
after writing `v` through `operator()(row, col)` the dimensions are unchanged, `at(row, col)`
returns `v` and every other in-bounds cell reads what it read before. -/
theorem row_major_addressing (h : heatmap_data) (row col other_row other_col : Nat) (value : ℚ)
    (hvalid : h.valid) (hrow : row < h.m_num_rows) (hcol : col < h.m_num_columns)
    (hother_row : other_row < h.m_num_rows) (hother_col : other_col < h.m_num_columns) :
    h.index_of row col = row * h.m_num_columns + col
    ∧ h.index_of row col < h.m_num_rows * h.m_num_columns
    ∧ ((row, col) ≠ (other_row, other_col) →
        h.index_of row col ≠ h.index_of other_row other_col)
    ∧ ∃ written, h.assign row col value = .ok written
        ∧ written.row_count = h.row_count ∧ written.column_count = h.column_count
        ∧ written.at row col = .ok value
        ∧ ((other_row, other_col) ≠ (row, col) →
            written.at other_row other_col = h.at other_row other_col) := by
  have hinj : (row, col) ≠ (other_row, other_col) →
      h.index_of row col ≠ h.index_of other_row other_col := by
    intro hne heq
    obtain ⟨h1, h2⟩ := index_of_injective h row col other_row other_col hcol hother_col heq
    exact hne (by rw [h1, h2])
  refine ⟨rfl, index_of_lt h row col hrow hcol, hinj, ?_⟩
  obtain ⟨cells, hd, hlen, hassign⟩ := assign_ok h row col value hvalid hrow hcol
  refine ⟨_, hassign, rfl, rfl, ?_, ?_⟩
  · have hv : (⟨some (cells.set (row * h.m_num_columns + col) value), h.m_num_columns,
        h.m_num_rows, h.m_free⟩ : heatmap_data).valid := by
      unfold heatmap_data.valid at hvalid ⊢
      rw [hd] at hvalid
      simpa using hvalid
    have hl := locate_ok _ row col hv hrow hcol
    simp only [heatmap_data.at, hl, Except.map, heatmap_data.cell, Option.getD_some]
    rw [List.getD_eq_getElem?_getD, List.getElem?_set_self hlen]
    rfl
  · intro hne
    have hv : (⟨some (cells.set (row * h.m_num_columns + col) value), h.m_num_columns,
        h.m_num_rows, h.m_free⟩ : heatmap_data).valid := by
      unfold heatmap_data.valid at hvalid ⊢
      rw [hd] at hvalid
      simpa using hvalid
    have hl := locate_ok _ other_row other_col hv hother_row hother_col
    have hl0 := locate_ok h other_row other_col hvalid hother_row hother_col
    have hidx : row * h.m_num_columns + col ≠ other_row * h.m_num_columns + other_col := by
      have := hinj (fun e => hne e.symm)
      unfold heatmap_data.index_of at this
      exact this
    simp only [heatmap_data.at, hl, hl0, Except.map, heatmap_data.cell, Option.getD_some, hd]
    rw [List.getD_eq_getElem?_getD, List.getD_eq_getElem?_getD, List.getElem?_set_ne hidx]

theorem row_major_addressing_witness :
    ((heatmap_data.wrap (some [1, 2, 3, 4, 5, 6]) 2 3).valid
      ∧ 1 < (heatmap_data.wrap (some [1, 2, 3, 4, 5, 6]) 2 3).m_num_rows
      ∧ 2 < (heatmap_data.wrap (some [1, 2, 3, 4, 5, 6]) 2 3).m_num_columns
      ∧ 0 < (heatmap_data.wrap (some [1, 2, 3, 4, 5, 6]) 2 3).m_num_rows
      ∧ 1 < (heatmap_data.wrap (some [1, 2, 3, 4, 5, 6]) 2 3).m_num_columns)
    ∧ (heatmap_data.wrap (some [1, 2, 3, 4, 5, 6]) 2 3).index_of 1 2 = 1 * 3 + 2
    ∧ (heatmap_data.wrap (some [1, 2, 3, 4, 5, 6]) 2 3).index_of 1 2 < 2 * 3
    ∧ (heatmap_data.wrap (some [1, 2, 3, 4, 5, 6]) 2 3).index_of 1 2
        ≠ (heatmap_data.wrap (some [1, 2, 3, 4, 5, 6]) 2 3).index_of 0 1
    ∧ ∃ written, (heatmap_data.wrap (some [1, 2, 3, 4, 5, 6]) 2 3).assign 1 2 9 = .ok written
        ∧ written.at 1 2 = .ok 9 ∧ written.at 0 1 = .ok 2 := by
  have h := row_major_addressing (heatmap_data.wrap (some [1, 2, 3, 4, 5, 6]) 2 3) 1 2 0 1 9
    (by decide) (by decide) (by decide) (by decide) (by decide)
  obtain ⟨written, hw, _, _, hread, hother⟩ := h.2.2.2
  exact ⟨by decide, h.1, h.2.1, h.2.2.1 (by decide), written, hw, hread,
    (hother (by decide)).trans (by rfl)⟩

/-! ## Lemmas for the arithmetic of `float` -/

set_option maxRecDepth 100000

theorem ascending_total (a b : float32) : a.ascending b = true ∨ b.ascending a = true := by
  cases a <;> cases b <;> simp [float32.ascending] <;>
    first | omega | (rename_i s t; cases s <;> cases t <;> simp)

theorem ascending_trans (a b c : float32) (hab : a.ascending b = true)
    (hbc : b.ascending c = true) : a.ascending c = true := by
  cases a <;> cases b <;> cases c <;> simp [float32.ascending] at hab hbc ⊢ <;>
    first
    | omega
    | (rename_i s t; cases s <;> cases t <;> simp_all)

theorem ascending_antisymm (a b : float32) (hab : a.ascending b = true)
    (hba : b.ascending a = true) : a = b := by
  cases a <;> cases b <;> simp [float32.ascending] at hab hba ⊢ <;>
    first
    | omega
    | (rename_i s t; cases s <;> cases t <;> simp_all)


theorem bit_length_loop_spec (fuel value : Nat) (hfuel : value ≤ fuel) :
    value < 2 ^ bit_length_loop fuel value
    ∧ (value ≠ 0 → 1 ≤ bit_length_loop fuel value
        ∧ 2 ^ (bit_length_loop fuel value - 1) ≤ value) := by
  induction fuel generalizing value with
  | zero =>
    have : value = 0 := by omega
    subst this
    simp [bit_length_loop]
  | succ fuel ih =>
    unfold bit_length_loop
    by_cases h0 : value = 0
    · subst h0; simp
    · rw [if_neg h0]
      obtain ⟨h1, h2⟩ := ih (value / 2) (by omega)
      constructor
      · rw [pow_succ]
        omega
      · intro _
        refine ⟨by omega, ?_⟩
        simp only [Nat.add_sub_cancel]
        by_cases hhalf : value / 2 = 0
        · rw [hhalf]
          have : bit_length_loop fuel 0 = 0 := by cases fuel <;> simp [bit_length_loop]
          rw [this]
          simp
          omega
        · obtain ⟨h3, h4⟩ := h2 hhalf
          have hpow : 2 ^ bit_length_loop fuel (value / 2)
              = 2 * 2 ^ (bit_length_loop fuel (value / 2) - 1) := by
            rw [← pow_succ']
            congr 1
            omega
          rw [hpow]
          omega

theorem lt_two_pow_bit_length (value : Nat) : value < 2 ^ bit_length value :=
  (bit_length_loop_spec value value (Nat.le_refl _)).1

theorem two_pow_bit_length_le (value : Nat) (h : value ≠ 0) :
    2 ^ (bit_length value - 1) ≤ value :=
  ((bit_length_loop_spec value value (Nat.le_refl _)).2 h).2

theorem bit_length_le_of_lt (value digits : Nat) (h : value < 2 ^ digits) :
    bit_length value ≤ digits := by
  by_cases h0 : value = 0
  · subst h0
    have : bit_length 0 = 0 := rfl
    omega
  · by_contra hgt
    have h1 := two_pow_bit_length_le value h0
    have h2 : 2 ^ digits ≤ 2 ^ (bit_length value - 1) :=
      Nat.pow_le_pow_right (by omega) (by omega)
    omega

theorem le_bit_length_of_le (value digits : Nat) (h : 2 ^ digits ≤ value) :
    digits + 1 ≤ bit_length value := by
  by_contra hlt
  have h1 := lt_two_pow_bit_length value
  have h2 : 2 ^ bit_length value ≤ 2 ^ digits := Nat.pow_le_pow_right (by omega) (by omega)
  omega


theorem round_ratio_cases (num den : Nat) :
    (round_ratio num den
        = num / (den * 2 ^ (bit_length (num / den) - 24)) * 2 ^ (bit_length (num / den) - 24)
      ∧ 2 * (num % (den * 2 ^ (bit_length (num / den) - 24)))
          ≤ den * 2 ^ (bit_length (num / den) - 24))
    ∨ (round_ratio num den
        = (num / (den * 2 ^ (bit_length (num / den) - 24)) + 1)
            * 2 ^ (bit_length (num / den) - 24)
      ∧ den * 2 ^ (bit_length (num / den) - 24)
          ≤ 2 * (num % (den * 2 ^ (bit_length (num / den) - 24)))) := by
  unfold round_ratio
  simp only
  split
  · left; exact ⟨rfl, by omega⟩
  · split
    · right; exact ⟨rfl, by omega⟩
    · split
      · left; exact ⟨rfl, by omega⟩
      · right; exact ⟨rfl, by omega⟩

theorem shift_pos_bound (num den : Nat) (hs : 0 < bit_length (num / den) - 24) :
    den * 2 ^ (bit_length (num / den) - 24 + 23) ≤ num := by
  have hq : num / den ≠ 0 := by
    intro h0
    rw [h0] at hs
    have : bit_length 0 = 0 := rfl
    omega
  have h1 := two_pow_bit_length_le (num / den) hq
  have h2 : bit_length (num / den) - 24 + 23 = bit_length (num / den) - 1 := by omega
  rw [h2]
  calc den * 2 ^ (bit_length (num / den) - 1) ≤ den * (num / den) := Nat.mul_le_mul_left _ h1
    _ ≤ num := Nat.mul_div_le num den

theorem dvd_of_representable (z s : Nat) (hz : z % 2 ^ (bit_length z - 24) = 0)
    (hs : 2 ^ (s + 23) ≤ z) : 2 ^ s ∣ z := by
  have h1 := le_bit_length_of_le z (s + 23) hs
  have h2 : 2 ^ s ∣ 2 ^ (bit_length z - 24) := Nat.pow_dvd_pow 2 (by omega)
  exact Nat.dvd_trans h2 (Nat.dvd_of_mod_eq_zero hz)

theorem round_ratio_le_of_le (num den z : Nat) (hden : 0 < den)
    (hz : z % 2 ^ (bit_length z - 24) = 0) (hle : num ≤ z * den) : round_ratio num den ≤ z := by
  have hP : 0 < 2 ^ (bit_length (num / den) - 24) := Nat.pow_pos (by omega)
  have hdm := Nat.div_add_mod num (den * 2 ^ (bit_length (num / den) - 24))
  rcases round_ratio_cases num den with ⟨heq, _⟩ | ⟨heq, hhalf⟩
  · rw [heq]
    have h1 : num / (den * 2 ^ (bit_length (num / den) - 24))
        * 2 ^ (bit_length (num / den) - 24) * den ≤ z * den := by
      calc num / (den * 2 ^ (bit_length (num / den) - 24))
              * 2 ^ (bit_length (num / den) - 24) * den
            = den * 2 ^ (bit_length (num / den) - 24)
              * (num / (den * 2 ^ (bit_length (num / den) - 24))) := by ring
        _ ≤ num := by omega
        _ ≤ z * den := hle
    exact Nat.le_of_mul_le_mul_right h1 hden
  · rw [heq]
    have hS : 0 < den * 2 ^ (bit_length (num / den) - 24) := Nat.mul_pos hden hP
    have hgt : num / (den * 2 ^ (bit_length (num / den) - 24))
        * 2 ^ (bit_length (num / den) - 24) * den < z * den := by
      calc num / (den * 2 ^ (bit_length (num / den) - 24))
              * 2 ^ (bit_length (num / den) - 24) * den
            = den * 2 ^ (bit_length (num / den) - 24)
              * (num / (den * 2 ^ (bit_length (num / den) - 24))) := by ring
        _ < num := by omega
        _ ≤ z * den := hle
    have hzq : num / (den * 2 ^ (bit_length (num / den) - 24))
        * 2 ^ (bit_length (num / den) - 24) < z := Nat.lt_of_mul_lt_mul_right hgt
    by_cases hs : bit_length (num / den) - 24 = 0
    · rw [hs] at hzq ⊢
      simp only [pow_zero, Nat.mul_one] at hzq ⊢
      omega
    · have hb := shift_pos_bound num den (by omega)
      have hzb : 2 ^ (bit_length (num / den) - 24 + 23) ≤ z := by
        have : den * 2 ^ (bit_length (num / den) - 24 + 23) ≤ den * z := by
          calc den * 2 ^ (bit_length (num / den) - 24 + 23) ≤ num := hb
            _ ≤ z * den := hle
            _ = den * z := Nat.mul_comm _ _
        exact Nat.le_of_mul_le_mul_left this hden
      obtain ⟨k, hk⟩ := dvd_of_representable z _ hz hzb
      rw [hk, Nat.mul_comm (2 ^ (bit_length (num / den) - 24)) k] at hzq ⊢
      have hkq : num / (den * 2 ^ (bit_length (num / den) - 24)) < k :=
        Nat.lt_of_mul_lt_mul_right hzq
      exact Nat.mul_le_mul_right _ hkq

theorem le_round_ratio_of_le (num den z : Nat) (hden : 0 < den)
    (hz : z % 2 ^ (bit_length z - 24) = 0) (hle : z * den ≤ num) : z ≤ round_ratio num den := by
  have hP : 0 < 2 ^ (bit_length (num / den) - 24) := Nat.pow_pos (by omega)
  have hzQ : z ≤ num / den := (Nat.le_div_iff_mul_le hden).mpr hle
  have hqq : num / (den * 2 ^ (bit_length (num / den) - 24))
      = num / den / 2 ^ (bit_length (num / den) - 24) := (Nat.div_div_eq_div_mul _ _ _).symm
  have hfloor : z ≤ num / (den * 2 ^ (bit_length (num / den) - 24))
      * 2 ^ (bit_length (num / den) - 24) := by
    by_cases hs : bit_length (num / den) - 24 = 0
    · rw [hqq, hs]
      simpa using hzQ
    · by_contra hlt
      have hb := shift_pos_bound num den (by omega)
      have hQ : 2 ^ (bit_length (num / den) - 24 + 23) ≤ num / den :=
        (Nat.le_div_iff_mul_le hden).mpr (by rw [Nat.mul_comm]; exact hb)
      have hq23 : 2 ^ 23 ≤ num / den / 2 ^ (bit_length (num / den) - 24) := by
        rw [Nat.le_div_iff_mul_le hP, ← pow_add, Nat.add_comm]
        exact hQ
      have hzb : 2 ^ (bit_length (num / den) - 24 + 23) ≤ z := by
        have : 2 ^ (bit_length (num / den) - 24 + 23)
            ≤ num / den / 2 ^ (bit_length (num / den) - 24)
              * 2 ^ (bit_length (num / den) - 24) := by
          rw [pow_add, Nat.mul_comm]
          exact Nat.mul_le_mul_right _ hq23
        rw [hqq] at hlt
        omega
      obtain ⟨k, hk⟩ := dvd_of_representable z _ hz hzb
      rw [hqq, hk, Nat.mul_comm (2 ^ (bit_length (num / den) - 24)) k] at hlt
      have hkq : num / den / 2 ^ (bit_length (num / den) - 24) < k := by
        by_contra hnot
        exact hlt (Nat.mul_le_mul_right _ (by omega))
      have hlt2 : num / den < (num / den / 2 ^ (bit_length (num / den) - 24) + 1)
          * 2 ^ (bit_length (num / den) - 24) := by
        have := Nat.lt_succ_iff.mpr (Nat.le_refl (num / den / 2 ^ (bit_length (num / den) - 24)))
        rw [Nat.div_lt_iff_lt_mul hP] at this
        exact this
      have hz2 : (num / den / 2 ^ (bit_length (num / den) - 24) + 1)
          * 2 ^ (bit_length (num / den) - 24) ≤ z := by
        rw [hk, Nat.mul_comm (2 ^ (bit_length (num / den) - 24)) k]
        exact Nat.mul_le_mul_right _ hkq
      omega
  rcases round_ratio_cases num den with ⟨heq, _⟩ | ⟨heq, _⟩
  · rw [heq]; exact hfloor
  · rw [heq]
    calc z ≤ num / (den * 2 ^ (bit_length (num / den) - 24))
            * 2 ^ (bit_length (num / den) - 24) := hfloor
      _ ≤ (num / (den * 2 ^ (bit_length (num / den) - 24)) + 1)
            * 2 ^ (bit_length (num / den) - 24) := Nat.mul_le_mul_right _ (by omega)


theorem round_ratio_one_bounds (value : Nat) :
    16777216 * round_ratio value 1 ≤ 16777217 * value
    ∧ 16777215 * value ≤ 16777216 * round_ratio value 1 := by
  have hcases := round_ratio_cases value 1
  have hb0 : 0 < bit_length (value / 1) - 24 →
      1 * 2 ^ (bit_length (value / 1) - 24 + 23) ≤ value := shift_pos_bound value 1
  rw [Nat.one_mul] at hcases hb0
  have hdm := Nat.div_add_mod value (2 ^ (bit_length (value / 1) - 24))
  have hlt := Nat.mod_lt value
    (show 0 < 2 ^ (bit_length (value / 1) - 24) from Nat.pow_pos (by omega))
  have hbound : 2 ^ (bit_length (value / 1) - 24) = 1
      ∨ 8388608 * 2 ^ (bit_length (value / 1) - 24) ≤ value := by
    by_cases hs : bit_length (value / 1) - 24 = 0
    · left; rw [hs]; rfl
    · right
      have hb := hb0 (by omega)
      rw [pow_add] at hb
      omega
  rw [Nat.mul_comm] at hdm
  rw [Nat.add_mul, Nat.one_mul] at hcases
  generalize value / 2 ^ (bit_length (value / 1) - 24)
    * 2 ^ (bit_length (value / 1) - 24) = floor at hcases hdm
  rcases hcases with ⟨heq, hhalf⟩ | ⟨heq, hhalf⟩
  · rw [heq]
    rcases hbound with hs | hb <;> omega
  · rw [heq]
    rcases hbound with hs | hb <;> omega

theorem orderedInsert_congr (r s : float32 → float32 → Prop) [DecidableRel r] [DecidableRel s]
    (a : float32) (l : List float32) (h : ∀ b ∈ l, (r a b ↔ s a b)) :
    l.orderedInsert r a = l.orderedInsert s a := by
  induction l with
  | nil => rfl
  | cons b t ih =>
    simp only [List.orderedInsert]
    have hb := h b (List.mem_cons_self _ _)
    by_cases hr : r a b
    · rw [if_pos hr, if_pos (hb.mp hr)]
    · rw [if_neg hr, if_neg (fun hs => hr (hb.mpr hs)),
        ih (fun c hc => h c (List.mem_cons_of_mem _ hc))]

theorem insertionSort_congr (r s : float32 → float32 → Prop) [DecidableRel r] [DecidableRel s]
    (l : List float32) (h : ∀ a ∈ l, ∀ b ∈ l, (r a b ↔ s a b)) :
    l.insertionSort r = l.insertionSort s := by
  induction l with
  | nil => rfl
  | cons a t ih =>
    simp only [List.insertionSort]
    rw [ih (fun x hx y hy => h x (List.mem_cons_of_mem _ hx) y (List.mem_cons_of_mem _ hy))]
    apply orderedInsert_congr
    intro b hb
    exact h a (List.mem_cons_self _ _) b
      (List.mem_cons_of_mem _ ((List.perm_insertionSort s t).mem_iff.mp hb))

theorem not_lt_iff_ascending (a b : float32) (ha : a ≠ .nan) (hb : b ≠ .nan) :
    b.lt a = false ↔ a.ascending b = true := by
  cases a <;> cases b <;> simp [float32.lt, float32.ascending] at ha hb ⊢
  rename_i s t
  cases s <;> cases t <;> simp

theorem le_iff_ascending (a b : float32) (ha : a ≠ .nan) (hb : b ≠ .nan) :
    a.le b = true ↔ a.ascending b = true := by
  cases a <;> cases b <;> simp [float32.le, float32.ascending] at ha hb ⊢

theorem ne_nan_of_le (a b : float32) (h : a.le b = true) : a ≠ .nan ∧ b ≠ .nan := by
  cases a <;> cases b <;> simp [float32.le] at h ⊢

theorem sort_floats_eq (values sorted : List float32)
    (hnan : ∀ v ∈ values, v ≠ float32.nan)
    (hs : sorted.Sorted (fun a b => a.le b = true)) (hp : sorted.Perm values) :
    sort_floats values = sorted := by
  haveI : IsTotal float32 (fun a b => a.ascending b = true) := ⟨ascending_total⟩
  haveI : IsTrans float32 (fun a b => a.ascending b = true) := ⟨ascending_trans⟩
  haveI : IsAntisymm float32 (fun a b => a.ascending b = true) := ⟨ascending_antisymm⟩
  unfold sort_floats
  rw [insertionSort_congr (fun a b => b.lt a = false) (fun a b => a.ascending b = true) values
    (fun a ha b hb => not_lt_iff_ascending a b (hnan a ha) (hnan b hb))]
  have hs2 : sorted.Sorted (fun a b => a.ascending b = true) := by
    apply List.Pairwise.imp_of_mem _ hs
    intro a b ha hb hab
    exact (le_iff_ascending a b (hnan a (hp.mem_iff.mp ha)) (hnan b (hp.mem_iff.mp hb))).mp hab
  exact List.eq_of_perm_of_sorted ((List.perm_insertionSort _ values).trans hp.symm)
    (List.sorted_insertionSort _ values) hs2

theorem sort_floats_sorted (values : List float32) (hnan : ∀ v ∈ values, v ≠ float32.nan) :
    (sort_floats values).Sorted (fun a b => a.le b = true)
    ∧ (sort_floats values).Perm values := by
  haveI : IsTotal float32 (fun a b => a.ascending b = true) := ⟨ascending_total⟩
  haveI : IsTrans float32 (fun a b => a.ascending b = true) := ⟨ascending_trans⟩
  have hperm : (sort_floats values).Perm values := List.perm_insertionSort _ _
  refine ⟨?_, hperm⟩
  have heq : sort_floats values
      = values.insertionSort (fun a b => a.ascending b = true) := by
    unfold sort_floats
    exact insertionSort_congr _ _ values
      (fun a ha b hb => not_lt_iff_ascending a b (hnan a ha) (hnan b hb))
  have hs : (sort_floats values).Sorted (fun a b => a.ascending b = true) := by
    rw [heq]; exact List.sorted_insertionSort _ values
  apply List.Pairwise.imp_of_mem _ hs
  intro a b ha hb hab
  exact (le_iff_ascending a b (hnan a (hperm.mem_iff.mp ha))
    (hnan b (hperm.mem_iff.mp hb))).mpr hab

theorem le_antisymm_float (a b : float32) (hab : a.le b = true) (hba : b.le a = true) :
    a = b := by
  have h1 := ne_nan_of_le a b hab
  exact ascending_antisymm a b ((le_iff_ascending a b h1.1 h1.2).mp hab)
    ((le_iff_ascending b a h1.2 h1.1).mp hba)

theorem le_trans_float (a b c : float32) (hab : a.le b = true) (hbc : b.le c = true) :
    a.le c = true := by
  have h1 := ne_nan_of_le a b hab
  have h2 := ne_nan_of_le b c hbc
  exact (le_iff_ascending a c h1.1 h2.2).mpr
    (ascending_trans a b c ((le_iff_ascending a b h1.1 h1.2).mp hab)
      ((le_iff_ascending b c h2.1 h2.2).mp hbc))

theorem le_refl_float (a : float32) (ha : a ≠ .nan) : a.le a = true := by
  cases a <;> simp [float32.le] at ha ⊢

theorem sorted_floats_first (sorted : List float32)
    (hs : sorted.Sorted (fun a b => a.le b = true)) (lo : float32) (hmem : lo ∈ sorted)
    (hle : ∀ x ∈ sorted, lo.le x = true) : sorted.getD 0 (.finite 0) = lo := by
  cases sorted with
  | nil => simp at hmem
  | cons a t =>
    simp only [List.getD_cons_zero]
    have h1 : lo.le a = true := hle a (List.mem_cons_self _ _)
    have h2 : a.le lo = true := by
      rcases List.mem_cons.mp hmem with h | h
      · rw [h]; exact le_refl_float a (ne_nan_of_le lo a h1).2
      · exact List.rel_of_sorted_cons hs lo h
    exact le_antisymm_float a lo h2 h1

theorem sorted_floats_last (sorted : List float32)
    (hs : sorted.Sorted (fun a b => a.le b = true)) (hi : float32) (hmem : hi ∈ sorted)
    (hge : ∀ x ∈ sorted, x.le hi = true) :
    sorted.getD (sorted.length - 1) (.finite 0) = hi := by
  have hpos : 0 < sorted.length := List.length_pos_of_mem hmem
  have hlast : sorted.length - 1 < sorted.length := by omega
  rw [List.getD_eq_getElem _ _ hlast]
  have h1 : (sorted[sorted.length - 1]).le hi = true := hge _ (List.getElem_mem _)
  have h2 : hi.le sorted[sorted.length - 1] = true := by
    obtain ⟨i, hi_lt, hieq⟩ := List.getElem_of_mem hmem
    by_cases hil : i = sorted.length - 1
    · subst hil
      rw [← hieq]
      exact le_refl_float _ (ne_nan_of_le _ _ h1).1
    · rw [← hieq]
      have := hs.rel_get_of_lt (a := ⟨i, hi_lt⟩) (b := ⟨sorted.length - 1, hlast⟩)
        (by simp only [Fin.mk_lt_mk]; omega)
      simpa using this
  exact le_antisymm_float _ _ h1 h2


theorem round_nonneg (num den : Nat) :
    (∃ units, 0 ≤ units ∧ float32.round false num den = .finite units)
    ∨ float32.round false num den = .inf false := by
  unfold float32.round
  simp only
  split
  · right; rfl
  · left; exact ⟨(round_ratio num den : Int), Int.natCast_nonneg _, by simp⟩

theorem sub_of_le (a b : Int) (h : a ≤ b) :
    (∃ units, 0 ≤ units ∧ (float32.finite b).sub (.finite a) = .finite units)
    ∨ (float32.finite b).sub (.finite a) = .inf false := by
  have hsign : decide (b + -a < 0) = false := by
    rw [decide_eq_false_iff_not]; omega
  simp only [float32.sub, float32.neg, float32.add, hsign]
  exact round_nonneg _ _

theorem of_int_two : float32.of_int 2 = .finite (2 * 2 ^ 149) := by decide

theorem two_mul_nonneg (t : float32)
    (ht : (∃ units, 0 ≤ units ∧ t = .finite units) ∨ t = .inf false) :
    (∃ units, 0 ≤ units ∧ (float32.of_int 2).mul t = .finite units)
    ∨ (float32.of_int 2).mul t = .inf false := by
  rw [of_int_two]
  rcases ht with ⟨d, hd, rfl⟩ | rfl
  · have h1 : decide ((2 : Int) * 2 ^ 149 < 0) = false := by
      rw [decide_eq_false_iff_not]; norm_num
    have h2 : decide (d < 0) = false := by
      rw [decide_eq_false_iff_not]; omega
    simp only [float32.mul, h1, h2, bne_self_eq_false]
    exact round_nonneg _ _
  · right
    have h0 : ((2 : Int) * 2 ^ 149) ≠ 0 := by positivity
    have h1 : decide ((2 : Int) * 2 ^ 149 < 0) = false := by
      rw [decide_eq_false_iff_not]; norm_num
    simp only [float32.mul, if_neg h0, h1, bne_self_eq_false]

theorem sub_nonneg_le (a : Int) (ha : representable a.natAbs) (t : float32)
    (ht : (∃ units, 0 ≤ units ∧ t = .finite units) ∨ t = .inf false) :
    ((float32.finite a).sub t).le (.finite a) = true := by
  rcases ht with ⟨d, hd, rfl⟩ | rfl
  · simp only [float32.sub, float32.neg, float32.add, float32.round]
    by_cases hneg : a + -d < 0
    · simp only [hneg, decide_True, if_true]
      split
      · rfl
      · simp only [float32.le, decide_eq_true_eq]
        by_cases ha0 : 0 ≤ a
        · omega
        · have hP2 := le_round_ratio_of_le (a + -d).natAbs 1 a.natAbs (by omega) ha.1
            (by omega)
          omega
    · simp only [hneg, decide_False, Bool.false_eq_true, if_false]
      have hP1 := round_ratio_le_of_le (a + -d).natAbs 1 a.natAbs (by omega) ha.1 (by omega)
      have hov := ha.2
      rw [if_neg (by omega)]
      simp only [float32.le, decide_eq_true_eq]
      omega
  · rfl

theorem add_nonneg_ge (a : Int) (ha : representable a.natAbs) (t : float32)
    (ht : (∃ units, 0 ≤ units ∧ t = .finite units) ∨ t = .inf false) :
    (float32.finite a).le ((float32.finite a).add t) = true := by
  rcases ht with ⟨d, hd, rfl⟩ | rfl
  · simp only [float32.add, float32.round]
    by_cases hneg : a + d < 0
    · simp only [hneg, decide_True, if_true]
      have hP1 := round_ratio_le_of_le (a + d).natAbs 1 a.natAbs (by omega) ha.1 (by omega)
      have hov := ha.2
      rw [if_neg (by omega)]
      simp only [float32.le, decide_eq_true_eq]
      omega
    · simp only [hneg, decide_False, Bool.false_eq_true, if_false]
      split
      · rfl
      · simp only [float32.le, decide_eq_true_eq]
        by_cases ha0 : a ≤ 0
        · omega
        · have hP2 := le_round_ratio_of_le (a + d).natAbs 1 a.natAbs (by omega) ha.1
            (by omega)
          omega
  · rfl

theorem le_of_not_lt (a b : float32) (ha : a ≠ .nan) (hb : b ≠ .nan) (h : a.lt b = false) :
    b.le a = true := by
  cases a <;> cases b <;> simp [float32.lt, float32.le] at ha hb h ⊢ <;>
    first
    | omega
    | (rename_i s t; cases s <;> cases t <;> simp_all)

theorem le_of_lt_float (a b : float32) (h : a.lt b = true) : a.le b = true := by
  cases a <;> cases b <;> simp [float32.lt, float32.le] at h ⊢ <;>
    first
    | omega
    | (rename_i s t; cases s <;> cases t <;> simp_all)

theorem std_max_bounds (a mn q : float32) (ha : a.le q = true) (hmn : mn.le q = true) :
    mn.le (std_max a mn) = true ∧ (std_max a mn).le q = true := by
  unfold std_max
  by_cases hlt : a.lt mn = true
  · rw [if_pos hlt]
    exact ⟨le_refl_float mn (ne_nan_of_le mn q hmn).1, hmn⟩
  · simp only [Bool.not_eq_true] at hlt
    rw [if_neg (by simp [hlt])]
    exact ⟨le_of_not_lt a mn (ne_nan_of_le a q ha).1 (ne_nan_of_le mn q hmn).1 hlt, ha⟩

theorem std_min_bounds (mx b q : float32) (hmx : q.le mx = true) (hb : q.le b = true) :
    q.le (std_min mx b) = true ∧ (std_min mx b).le mx = true := by
  unfold std_min
  by_cases hlt : b.lt mx = true
  · rw [if_pos hlt]
    exact ⟨hb, le_of_lt_float b mx hlt⟩
  · simp only [Bool.not_eq_true] at hlt
    rw [if_neg (by simp [hlt])]
    exact ⟨hmx, le_refl_float mx (ne_nan_of_le q mx hmx).2⟩


theorem of_nat_uint (value : Nat) (hvalue : value < 4294967296) :
    float32.of_nat value = .finite (round_ratio (value * FLOAT_UNIT) 1)
    ∧ round_ratio (value * FLOAT_UNIT) 1 ≤ 4294967296 * FLOAT_UNIT
    ∧ (value ≠ 0 → FLOAT_UNIT ≤ round_ratio (value * FLOAT_UNIT) 1) := by
  have hz : (4294967296 * FLOAT_UNIT) % 2 ^ (bit_length (4294967296 * FLOAT_UNIT) - 24) = 0 := by
    decide
  have hu : FLOAT_UNIT % 2 ^ (bit_length FLOAT_UNIT - 24) = 0 := by decide
  have hupper := round_ratio_le_of_le (value * FLOAT_UNIT) 1 (4294967296 * FLOAT_UNIT)
    (by omega) hz (by
      rw [Nat.mul_one]
      exact Nat.mul_le_mul_right _ (by omega))
  have hover : 4294967296 * FLOAT_UNIT < FLOAT_OVERFLOW := by decide
  refine ⟨?_, hupper, ?_⟩
  · unfold float32.of_nat float32.round
    simp only
    rw [if_neg (by omega)]
    simp
  · intro h0
    apply le_round_ratio_of_le (value * FLOAT_UNIT) 1 FLOAT_UNIT (by omega) hu
    rw [Nat.mul_one]
    exact Nat.le_mul_of_pos_left _ (by omega)

theorem percent_of_binary32_bound (total total_count : Nat) (hpos : total ≠ 0)
    (htotal : total < 4294967296)
    (hle : 100 * total_count % UINT_MODULUS ≤ 100 * total) :
    ∃ units : Int, percent_of_binary32 total total_count = .finite units
      ∧ 0 ≤ units ∧ units ≤ 6553601 * 2 ^ 133 := by
  have hmod : 100 * total_count % UINT_MODULUS < 4294967296 :=
    Nat.mod_lt _ (by unfold UINT_MODULUS; omega)
  obtain ⟨htot, _, htot_pos⟩ := of_nat_uint total htotal
  obtain ⟨hprod, _, _⟩ := of_nat_uint (100 * total_count % UINT_MODULUS) hmod
  have hden := htot_pos hpos
  have hunit : 0 < FLOAT_UNIT := by decide
  have herr_total := (round_ratio_one_bounds (total * FLOAT_UNIT)).2
  have herr_prod := (round_ratio_one_bounds (100 * total_count % UINT_MODULUS * FLOAT_UNIT)).1
  unfold percent_of_binary32
  simp only
  generalize 100 * total_count % UINT_MODULUS = product at hle hprod herr_prod ⊢
  generalize hP : round_ratio (product * FLOAT_UNIT) 1 = rounded_product at hprod herr_prod
  generalize hS : round_ratio (total * FLOAT_UNIT) 1 = rounded_total at htot hden herr_total
  have hz : (6553601 * 2 ^ 133) % 2 ^ (bit_length (6553601 * 2 ^ 133) - 24) = 0 := by decide
  have hconst : 1677721700 * FLOAT_UNIT ≤ 6553601 * 2 ^ 133 * 16777215 := by decide
  have hkey : rounded_product * FLOAT_UNIT ≤ 6553601 * 2 ^ 133 * rounded_total := by
    have h1 : 16777216 * (rounded_product * FLOAT_UNIT)
        ≤ 16777216 * (6553601 * 2 ^ 133 * rounded_total) := by
      calc 16777216 * (rounded_product * FLOAT_UNIT)
            = 16777216 * rounded_product * FLOAT_UNIT := by ring
        _ ≤ 16777217 * (product * FLOAT_UNIT) * FLOAT_UNIT :=
            Nat.mul_le_mul_right _ herr_prod
        _ ≤ 16777217 * (100 * total * FLOAT_UNIT) * FLOAT_UNIT :=
            Nat.mul_le_mul_right _
              (Nat.mul_le_mul_left _ (Nat.mul_le_mul_right _ hle))
        _ = 1677721700 * FLOAT_UNIT * (total * FLOAT_UNIT) := by ring
        _ ≤ 6553601 * 2 ^ 133 * 16777215 * (total * FLOAT_UNIT) :=
            Nat.mul_le_mul_right _ hconst
        _ = 6553601 * 2 ^ 133 * (16777215 * (total * FLOAT_UNIT)) := by ring
        _ ≤ 6553601 * 2 ^ 133 * (16777216 * rounded_total) :=
            Nat.mul_le_mul_left _ herr_total
        _ = 16777216 * (6553601 * 2 ^ 133 * rounded_total) := by ring
    exact Nat.le_of_mul_le_mul_left h1 (by omega)
  have hbound := round_ratio_le_of_le (rounded_product * FLOAT_UNIT) rounded_total
    (6553601 * 2 ^ 133) (by omega) hz hkey
  have hover : 6553601 * 2 ^ 133 < FLOAT_OVERFLOW := by decide
  refine ⟨(round_ratio (rounded_product * FLOAT_UNIT) rounded_total : Int), ?_,
    Int.natCast_nonneg _, by exact_mod_cast hbound⟩
  rw [htot, hprod]
  have hne : float32.finite (rounded_total : Int) ≠ float32.finite 0 := by
    intro heq
    injection heq with h0
    omega
  rw [if_neg hne]
  have hne0 : (rounded_total : Int) ≠ 0 := by omega
  have hs1 : decide ((rounded_product : Int) < 0) = false := by
    rw [decide_eq_false_iff_not]; omega
  have hs2 : decide ((rounded_total : Int) < 0) = false := by
    rw [decide_eq_false_iff_not]; omega
  simp only [float32.div, if_neg hne0, hs1, hs2, bne_self_eq_false, Int.natAbs_ofNat,
    float32.round]
  rw [if_neg (by omega)]
  simp


/-! ## The claims about the arithmetic of `float` -/

/-- Claim C1, amended. Range scaling of `plot_flowcell_map`: for every non-empty list of emitted
values, none of them not-a-number, and every metric type other than `ErrorRate`, with `sorted` the
list sorted ascending, `lo` its minimum, `hi` its maximum, `q1 = sorted[n / 4]` and
`q3 = sorted[3 * n / 4]`, the range written to the scale axis is
`[max(q1 - 2 * iqr, lo), min(hi, q3 + 2 * iqr)]` with `iqr = q3 - q1`, where the two subtractions,
the product and the addition are those of `float`, each rounded to binary32, and `max` and `min`
are `std::max` and `std::min`; the values 1, 2, ..., 10 give `q1 = 3`, `q3 = 8` and the range
`[1, 10]`. -/
theorem scale_range_robust (type : metric_type) (values sorted : List float32)
    (saxis : axis_binary32) (lo hi : float32) (hne : values ≠ [])
    (htype : type ≠ metric_type.ErrorRate)
    (hsorted : sorted.Sorted (fun a b => a.le b = true)) (hperm : sorted.Perm values)
    (hlo : lo ∈ values ∧ ∀ x ∈ values, lo.le x = true)
    (hhi : hi ∈ values ∧ ∀ x ∈ values, x.le hi = true) :
    scale_range_binary32 type values saxis
        = ⟨std_max
              ((sorted.getD (values.length / 4) (.finite 0)).sub
                ((float32.of_int 2).mul
                  ((sorted.getD (3 * values.length / 4) (.finite 0)).sub
                    (sorted.getD (values.length / 4) (.finite 0)))))
              lo,
            std_min hi
              ((sorted.getD (3 * values.length / 4) (.finite 0)).add
                ((float32.of_int 2).mul
                  ((sorted.getD (3 * values.length / 4) (.finite 0)).sub
                    (sorted.getD (values.length / 4) (.finite 0)))))⟩
    ∧ (sort_floats range_example).getD (10 / 4) (.finite 0) = float32.of_nat 3
    ∧ (sort_floats range_example).getD (3 * 10 / 4) (.finite 0) = float32.of_nat 8
    ∧ scale_range_binary32 type range_example saxis = ⟨float32.of_nat 1, float32.of_nat 10⟩ := by
  refine ⟨?_, by decide, by decide, ?_⟩
  · have hnan : ∀ v ∈ values, v ≠ float32.nan :=
      fun v hv => (ne_nan_of_le lo v (hlo.2 v hv)).2
    have hlen : sorted.length = values.length := hperm.length_eq
    have hfirst := sorted_floats_first sorted hsorted lo (hperm.mem_iff.mpr hlo.1)
      (fun x hx => hlo.2 x (hperm.mem_iff.mp hx))
    have hlast := sorted_floats_last sorted hsorted hi (hperm.mem_iff.mpr hhi.1)
      (fun x hx => hhi.2 x (hperm.mem_iff.mp hx))
    have hemp : values.isEmpty = false := by
      cases values with
      | nil => exact absurd rfl hne
      | cons a t => rfl
    rw [hlen] at hlast
    simp only [scale_range_binary32, general_range_binary32, hemp,
      sort_floats_eq values sorted hnan hsorted hperm, set_range_binary32, if_neg htype, hfirst,
      hlast, hlen, Bool.not_false, if_true]
  · have hgen : general_range_binary32 range_example saxis
        = ⟨float32.of_nat 1, float32.of_nat 10⟩ := by
      have hfree : general_range_binary32 range_example saxis
          = general_range_binary32 range_example ⟨.nan, .nan⟩ := rfl
      rw [hfree]
      decide
    simp only [scale_range_binary32, if_neg htype, hgen]

theorem scale_range_robust_witness :
    (range_example ≠ []
      ∧ metric_type.other 0 ≠ metric_type.ErrorRate
      ∧ ([1, 2, 3, 4, 5, 6, 7, 8, 9, 10].map float32.of_nat).Sorted
          (fun a b => a.le b = true)
      ∧ ([1, 2, 3, 4, 5, 6, 7, 8, 9, 10].map float32.of_nat).Perm range_example
      ∧ (float32.of_nat 1 ∈ range_example
          ∧ ∀ x ∈ range_example, (float32.of_nat 1).le x = true)
      ∧ (float32.of_nat 10 ∈ range_example
          ∧ ∀ x ∈ range_example, x.le (float32.of_nat 10) = true))
    ∧ scale_range_binary32 (metric_type.other 0) range_example ⟨.finite 0, .finite 0⟩
        = ⟨float32.of_nat 1, float32.of_nat 10⟩ := by
  have h1 : range_example ≠ [] := by decide
  have h2 : metric_type.other 0 ≠ metric_type.ErrorRate := by decide
  have h3 : ([1, 2, 3, 4, 5, 6, 7, 8, 9, 10].map float32.of_nat).Sorted
      (fun a b => a.le b = true) := by
    unfold List.Sorted
    decide
  have h4 : ([1, 2, 3, 4, 5, 6, 7, 8, 9, 10].map float32.of_nat).Perm range_example := by
    decide
  have h5 : float32.of_nat 1 ∈ range_example
      ∧ ∀ x ∈ range_example, (float32.of_nat 1).le x = true := by decide
  have h6 : float32.of_nat 10 ∈ range_example
      ∧ ∀ x ∈ range_example, x.le (float32.of_nat 10) = true := by decide
  exact ⟨⟨h1, h2, h3, h4, h5, h6⟩,
    (scale_range_robust (metric_type.other 0) range_example
      ([1, 2, 3, 4, 5, 6, 7, 8, 9, 10].map float32.of_nat) ⟨.finite 0, .finite 0⟩
      (float32.of_nat 1) (float32.of_nat 10) h1 h2 h3 h4 h5 h6).2.2.2⟩

/-- Claim C1 fails as stated, with the arithmetic of the formula taken exactly: on the values
-1000000000, 0, 1, 1, 1, 1, 16777216, 1000000000, which are sorted and which binary32 represents
exactly, `q1 = 1`, `q3 = 16777216` and `2 * iqr = 33554430`; `q1 - 2 * iqr = -33554429` and
`q3 + 2 * iqr = 50331646` are not values of `float` and round to -33554428 and 50331648, so the
range written is `[-33554428, 50331648]`, not `[-33554429, 50331646]`. -/
theorem scale_range_rounds :
    rounding_example.map float32.to_rat
      = [some (-1000000000), some 0, some 1, some 1, some 1, some 1, some 16777216,
          some 1000000000]
    ∧ sort_floats rounding_example = rounding_example
    ∧ scale_range_binary32 (metric_type.other 0) rounding_example ⟨.finite 0, .finite 0⟩
      = ⟨float32.of_int (-33554428), float32.of_int 50331648⟩
    ∧ (float32.of_int (-33554428)).to_rat = some (-33554428)
    ∧ (float32.of_int 50331648).to_rat = some 50331648
    ∧ max ((1 : ℚ) - 2 * (16777216 - 1)) (-1000000000) = -33554429
    ∧ min (1000000000 : ℚ) (16777216 + 2 * (16777216 - 1)) = 50331646 := by
  have hlow : float32.of_int (-33554428) = .finite (-33554428 * 2 ^ 149) := by decide
  have hhigh : float32.of_int 50331648 = .finite (50331648 * 2 ^ 149) := by decide
  have hvalues : rounding_example
      = [.finite (-1000000000 * 2 ^ 149), .finite (0 * 2 ^ 149), .finite (1 * 2 ^ 149),
          .finite (1 * 2 ^ 149), .finite (1 * 2 ^ 149), .finite (1 * 2 ^ 149),
          .finite (16777216 * 2 ^ 149), .finite (1000000000 * 2 ^ 149)] := by decide
  refine ⟨?_, by decide, by decide, ?_, ?_, by norm_num, by norm_num⟩
  · rw [hvalues]
    simp only [List.map, float32.to_rat]
    norm_num
  · rw [hlow]
    simp only [float32.to_rat]
    norm_num
  · rw [hhigh]
    simp only [float32.to_rat]
    norm_num

/-- Claim C26, amended. `percent_over_qscore` is a percentage up to the rounding of `float`: for
every histogram whose counts sum to a non-zero value below `2^32`, every threshold and every bin
table no longer than the histogram, `total_over_qscore(threshold, bins) <= sum_qscore()`, the
quotient of `100 * total_count` taken modulo `2^32` by the sum lies in `[0, 100]`, and the value
that `percent_over_qscore` returns, the binary32 quotient of the product and the sum both
converted to `float`, is a finite number in `[0, 100 + 2^-16]`. -/
theorem percent_over_qscore_bounds (h : q_metric) (threshold : Nat)
    (bins : qscore_bin_vector_type) (hpos : h.m_qscore_hist.sum ≠ 0)
    (hsum : h.m_qscore_hist.sum < 4294967296)
    (hlen : bins.length ≤ h.m_qscore_hist.length) :
    h.sum_qscore = h.m_qscore_hist.sum
    ∧ h.total_over_qscore threshold bins ≤ h.sum_qscore
    ∧ (∃ percent, h.percent_over_qscore threshold bins = some percent
        ∧ percent = ((100 * h.total_over_qscore threshold bins % 4294967296 : Nat) : ℚ)
            / (h.sum_qscore : ℚ)
        ∧ 0 ≤ percent ∧ percent ≤ 100)
    ∧ (∃ units : Int, h.percent_over_qscore_binary32 threshold bins = .finite units
        ∧ 0 ≤ units ∧ units ≤ 6553601 * 2 ^ 133)
    ∧ (float32.finite (6553601 * 2 ^ 133)).to_rat = some (100 + 1 / 65536) := by
  have hs : h.sum_qscore = h.m_qscore_hist.sum :=
    accumulate_uint_exact _ (by unfold UINT_MODULUS; exact hsum)
  have hle : h.total_over_qscore threshold bins ≤ h.sum_qscore := by
    rw [hs]; exact total_over_le_sum _ _ _ hlen
  have hpos' : (0 : ℚ) < (h.sum_qscore : ℚ) := by
    rw [hs]; exact_mod_cast Nat.pos_of_ne_zero hpos
  have h1 : 100 * h.total_over_qscore threshold bins % 4294967296
      ≤ 100 * h.sum_qscore := by
    have := Nat.mod_le (100 * h.total_over_qscore threshold bins) 4294967296
    omega
  refine ⟨hs, hle, ⟨_, ?_, rfl, ?_, ?_⟩, ?_, ?_⟩
  · unfold q_metric.percent_over_qscore percent_of
    rw [if_neg (ne_of_gt hpos')]
    rfl
  · apply div_nonneg
    · exact Nat.cast_nonneg _
    · exact le_of_lt hpos'
  · rw [div_le_iff₀ hpos']
    exact_mod_cast h1
  · unfold q_metric.percent_over_qscore_binary32
    exact percent_of_binary32_bound _ _ (by rw [hs]; exact hpos) (by rw [hs]; exact hsum)
      (by unfold UINT_MODULUS; exact h1)
  · simp only [float32.to_rat]
    norm_num

theorem percent_over_qscore_bounds_witness :
    (1 + 3 ≠ 0 ∧ 1 + 3 < 4294967296 ∧ 0 ≤ 2)
    ∧ q_metric.total_over_qscore ⟨1, 1, 1, [1, 3], [1, 4]⟩ 1 []
      ≤ q_metric.sum_qscore ⟨1, 1, 1, [1, 3], [1, 4]⟩
    ∧ (∃ units : Int,
        q_metric.percent_over_qscore_binary32 ⟨1, 1, 1, [1, 3], [1, 4]⟩ 1 [] = .finite units
        ∧ 0 ≤ units ∧ units ≤ 6553601 * 2 ^ 133)
    ∧ q_metric.percent_over_qscore_binary32 ⟨1, 1, 1, [1, 3], [1, 4]⟩ 1 []
      = float32.of_nat 75 :=
  ⟨by decide,
    (percent_over_qscore_bounds ⟨1, 1, 1, [1, 3], [1, 4]⟩ 1 [] (by decide) (by decide)
      (by decide)).2.1,
    (percent_over_qscore_bounds ⟨1, 1, 1, [1, 3], [1, 4]⟩ 1 [] (by decide) (by decide)
      (by decide)).2.2.2.1,
    by decide⟩

/-- Claim C26 fails as stated at the histogram with the one count 16777217 and the threshold 0:
`total_count` and the sum are 16777217, the product `100 * total_count = 1677721700` is below
`2^32`, the conversions to `float` round the product to 1677721728 and the sum to 16777216, and
`percent_over_qscore` returns their quotient `100 + 2^-17`, which is above 100. -/
theorem percent_over_qscore_above_100 :
    q_metric.sum_qscore ⟨1, 1, 1, [16777217], []⟩ = 16777217
    ∧ q_metric.total_over_qscore ⟨1, 1, 1, [16777217], []⟩ 0 [] = 16777217
    ∧ float32.of_nat 1677721700 = float32.of_nat 1677721728
    ∧ float32.of_nat 16777217 = float32.of_nat 16777216
    ∧ q_metric.percent_over_qscore_binary32 ⟨1, 1, 1, [16777217], []⟩ 0 []
      = .finite (13107201 * 2 ^ 132)
    ∧ q_metric.percent_over_qscore_index_binary32 ⟨1, 1, 1, [16777217], []⟩ 0
      = .finite (13107201 * 2 ^ 132)
    ∧ (float32.finite (13107201 * 2 ^ 132)).to_rat = some (100 + 1 / 131072)
    ∧ (float32.of_nat 100).lt
        (q_metric.percent_over_qscore_binary32 ⟨1, 1, 1, [16777217], []⟩ 0 []) = true := by
  refine ⟨by decide, by decide, by decide, by decide, by decide, by decide, ?_, by decide⟩
  simp only [float32.to_rat]
  norm_num


/-! ## Lemmas for the grid write that throws -/

theorem emitted_floats_cons {R : Type} (proxy : R → metric_type → float32) (type : metric_type)
    (options : filter_options R) (record : R) (rest : List R) :
    emitted_floats proxy type options (record :: rest)
      = if options.valid_tile_cycle record = true ∧ proxy record type ≠ float32.nan then
          (record, proxy record type) :: emitted_floats proxy type options rest
        else emitted_floats proxy type options rest := by
  unfold emitted_floats
  by_cases h : options.valid_tile_cycle record = true ∧ proxy record type ≠ float32.nan
  · simp only [List.filterMap_cons, if_pos h]
  · simp only [List.filterMap_cons, if_neg h]

theorem populate_loop_checked_eq {R D E : Type} (members : metric_members R)
    (set_data : D → Nat → Nat → Nat → float32 → Except E D) (proxy : R → metric_type → float32)
    (type : metric_type) (layout : flowcell_layout) (options : filter_options R)
    (records : List R) (data : D) (values_for_scaling : List float32) :
    populate_loop_checked members set_data proxy type layout options
        (!options.is_specific_surface) records data values_for_scaling
      = grid_writes (grid_write_checked members set_data layout options)
          (emitted_floats proxy type options records) data values_for_scaling := by
  induction records generalizing data values_for_scaling with
  | nil => rfl
  | cons record rest ih =>
    unfold populate_loop_checked
    rw [emitted_floats_cons]
    by_cases hv : options.valid_tile_cycle record = true
    · by_cases hp : proxy record type = float32.nan
      · simp only [hv, hp, Bool.not_true, Bool.false_eq_true, if_false, if_true, ne_eq,
          not_true_eq_false, and_false]
        exact ih data values_for_scaling
      · simp only [hv, hp, Bool.not_true, Bool.false_eq_true, if_false, ne_eq,
          not_false_eq_true, and_self, if_true]
        unfold grid_writes
        simp only [grid_write_checked]
        cases hw : set_data data (lane_index (members.lane record))
            (members.physical_location_index record layout.naming_method
              layout.sections_per_lane layout.tile_count layout.swath_count
              (!options.is_specific_surface))
            (members.tile record) (proxy record type) with
        | error e => rfl
        | ok written => exact ih written (values_for_scaling ++ [proxy record type])
    · simp only [Bool.not_eq_true] at hv
      simp only [hv, Bool.not_false, if_true, Bool.false_eq_true, false_and, if_false]
      exact ih data values_for_scaling

theorem populate_flowcell_map_checked_eq {R D E : Type} (members : metric_members R)
    (set_data : D → Nat → Nat → Nat → float32 → Except E D) (records : List R)
    (proxy : R → metric_type → float32) (type : metric_type) (layout : flowcell_layout)
    (options : filter_options R) (data : D) (values_for_scaling : List float32) :
    populate_flowcell_map_checked members set_data records proxy type layout options data
        values_for_scaling
      = grid_writes (grid_write_checked members set_data layout options)
          (emitted_floats proxy type options records) data values_for_scaling := by
  unfold populate_flowcell_map_checked
  cases records with
  | nil => rfl
  | cons record rest =>
    simp only [List.isEmpty_cons, Bool.false_eq_true, if_false]
    exact populate_loop_checked_eq members set_data proxy type layout options (record :: rest)
      data values_for_scaling

theorem mem_emitted_floats {R : Type} (proxy : R → metric_type → float32) (type : metric_type)
    (options : filter_options R) (records : List R) (record : R) (val : float32) :
    (record, val) ∈ emitted_floats proxy type options records
      ↔ record ∈ records ∧ options.valid_tile_cycle record = true
        ∧ proxy record type = val ∧ val ≠ float32.nan := by
  unfold emitted_floats
  rw [List.mem_filterMap]
  constructor
  · rintro ⟨r, hr, hrv⟩
    split at hrv
    · rename_i hcond
      simp only [Option.some.injEq, Prod.mk.injEq] at hrv
      obtain ⟨h1, h2⟩ := hrv
      subst h1
      exact ⟨hr, hcond.1, h2, by rw [← h2]; exact hcond.2⟩
    · cases hrv
  · rintro ⟨hr, hv, hp, hn⟩
    refine ⟨record, hr, ?_⟩
    rw [if_pos ⟨hv, by rw [hp]; exact hn⟩, hp]

theorem grid_writes_all_written {R D E : Type} (write : D → R × float32 → Except E D)
    (emitted : List (R × float32)) (data written : D) (values_for_scaling : List float32)
    (hall : all_written write emitted data written) :
    grid_writes write emitted data values_for_scaling
      = ⟨written, values_for_scaling ++ emitted.map Prod.snd, none⟩ := by
  induction emitted generalizing data values_for_scaling with
  | nil =>
    simp only [all_written] at hall
    simp [grid_writes, hall]
  | cons cur rest ih =>
    obtain ⟨next, hw, hrest⟩ := hall
    unfold grid_writes
    rw [hw]
    simp only
    rw [ih next (values_for_scaling ++ [cur.2]) hrest]
    simp

theorem grid_writes_first_error {R D E : Type} (write : D → R × float32 → Except E D)
    (before after : List (R × float32)) (cur : R × float32) (data reached : D) (e : E)
    (values_for_scaling : List float32) (hall : all_written write before data reached)
    (herr : write reached cur = .error e) :
    grid_writes write (before ++ cur :: after) data values_for_scaling
      = ⟨reached, values_for_scaling ++ before.map Prod.snd, some e⟩ := by
  induction before generalizing data values_for_scaling with
  | nil =>
    simp only [all_written] at hall
    subst hall
    simp [grid_writes, herr]
  | cons first rest ih =>
    obtain ⟨next, hw, hrest⟩ := hall
    simp only [List.cons_append]
    unfold grid_writes
    rw [hw]
    simp only
    rw [ih next (values_for_scaling ++ [first.2]) hrest]
    simp

theorem grid_writes_no_error {R D E : Type} (write : D → R × float32 → Except E D)
    (emitted : List (R × float32)) (data : D) (values_for_scaling : List float32)
    (hnone : (grid_writes write emitted data values_for_scaling).error = none) :
    all_written write emitted data (grid_writes write emitted data values_for_scaling).data
    ∧ (grid_writes write emitted data values_for_scaling).values_for_scaling
        = values_for_scaling ++ emitted.map Prod.snd := by
  induction emitted generalizing data values_for_scaling with
  | nil => simp [grid_writes, all_written]
  | cons cur rest ih =>
    unfold grid_writes at hnone ⊢
    cases hw : write data cur with
    | error e => rw [hw] at hnone; simp at hnone
    | ok next =>
      rw [hw] at hnone
      simp only at hnone ⊢
      obtain ⟨h1, h2⟩ := ih next (values_for_scaling ++ [cur.2]) hnone
      refine ⟨⟨next, hw, h1⟩, ?_⟩
      rw [h2]
      simp

theorem plot_flowcell_map_checked_supported {R G : Type} (ext : metric_type_ext)
    (logic : metric_logic R) (values : metric_values R) (members : metric_members R)
    (grid : grid_members G) (metrics : run_metrics R) (type : metric_type)
    (options : plot_filter_options R) (data : flowcell_map G)
    (hchecks : filter_checks_pass ext metrics type options)
    (hsup : supported_group (ext.to_group type)) :
    ∃ collapsed : List R,
      plot_flowcell_map_checked ext logic values members grid metrics type options data
        = plot_after_populate ext { metrics with q_collapsed_metric_set := collapsed } type
            options (prepare_flowcell_map_checked grid metrics options data)
            (plotted_writes ext logic values members grid metrics type options data) := by
  obtain ⟨hv, hc, hr, hch, hb⟩ := hchecks
  have h1 : (ext.is_cycle_metric type && options.all_cycles) = false := by
    cases h : ext.is_cycle_metric type <;> cases h' : options.all_cycles <;> simp_all
  have h2 : (ext.is_read_metric type && options.all_reads && decide (metrics.reads_size > 1))
      = false := by
    cases h : ext.is_read_metric type <;> cases h' : options.all_reads <;> simp_all
  unfold plot_flowcell_map_checked plotted_writes
  simp only [hv, h1, h2, Bool.false_eq_true, if_false]
  rcases hsup with hg | hg | hg | hg | hg
  · refine ⟨metrics.q_collapsed_metric_set, ?_⟩
    simp only [hg, plotted_records, plotted_float, populate_flowcell_map_checked_eq]
  · have h3 : options.all_channels type = false := by
      cases h : options.all_channels type
      · rfl
      · exact absurd ⟨hg, h⟩ hch
    refine ⟨metrics.q_collapsed_metric_set, ?_⟩
    simp only [hg, h3, plotted_records, plotted_float, populate_flowcell_map_checked_eq,
      Bool.false_eq_true, if_false]
  · have h3 : options.all_bases type = false := by
      cases h : options.all_bases type
      · rfl
      · exact absurd ⟨hg, h⟩ hb
    refine ⟨metrics.q_collapsed_metric_set, ?_⟩
    simp only [hg, h3, plotted_records, plotted_float, populate_flowcell_map_checked_eq,
      Bool.false_eq_true, if_false]
  · refine ⟨collapsed_q_metric_set logic metrics type, ?_⟩
    simp only [hg, plotted_records, plotted_float, populate_flowcell_map_checked_eq]
  · refine ⟨metrics.q_collapsed_metric_set, ?_⟩
    simp only [hg, plotted_records, plotted_float, populate_flowcell_map_checked_eq]

theorem finish_flowcell_map_checked_fields {R G : Type} (ext : metric_type_ext)
    (metrics : run_metrics R) (type : metric_type) (options : plot_filter_options R)
    (data : flowcell_map G) (values_for_scaling : List float32) :
    (finish_flowcell_map_checked ext metrics type options data values_for_scaling).saxis
        = scale_range_binary32 type values_for_scaling data.saxis
    ∧ (finish_flowcell_map_checked ext metrics type options data values_for_scaling).grid
        = data.grid
    ∧ (finish_flowcell_map_checked ext metrics type options data values_for_scaling).label
        = ext.to_description type := by
  simp [finish_flowcell_map_checked]

/-! ## The claims on the grid write that throws -/

/-- Claim C2, amended. `populate_flowcell_map` is a filtered fold over the record stream up to the
first grid write that throws: it is one grid write per emitted record, in stream order, each value
appended to `values_for_scaling` after its write, until a write throws; the emitted records are
exactly the records that pass `valid_tile_cycle` and whose extracted value is not not-a-number, so
no not-a-number is written or collected. When no write throws, the flowcell map has received the
write of every emitted record and the appended values are the emitted values, in stream order;
when the write of an emitted record throws, the call ends with that exception, the records emitted
before it are written and collected, and that record and every later one are not. The write is at
row `lane - 1` (for a lane from 1 on) and at the column of the physical-location index computed
with `all_surfaces` equal to "no specific surface was requested"; an empty stream leaves the
flowcell map and the value list as they were. -/
theorem populate_flowcell_map_filtered_fold {R D E : Type} (members : metric_members R)
    (set_data : D → Nat → Nat → Nat → float32 → Except E D) (records : List R)
    (proxy : R → metric_type → float32) (type : metric_type) (layout : flowcell_layout)
    (options : filter_options R) (data : D) (values_for_scaling : List float32) :
    populate_flowcell_map_checked members set_data records proxy type layout options data
        values_for_scaling
      = grid_writes (grid_write_checked members set_data layout options)
          (emitted_floats proxy type options records) data values_for_scaling
    ∧ (∀ written,
        all_written (grid_write_checked members set_data layout options)
          (emitted_floats proxy type options records) data written →
        populate_flowcell_map_checked members set_data records proxy type layout options data
            values_for_scaling
          = ⟨written,
              values_for_scaling ++ (emitted_floats proxy type options records).map Prod.snd,
              none⟩)
    ∧ (∀ before cur after reached e,
        emitted_floats proxy type options records = before ++ cur :: after →
        all_written (grid_write_checked members set_data layout options) before data reached →
        grid_write_checked members set_data layout options reached cur = .error e →
        populate_flowcell_map_checked members set_data records proxy type layout options data
            values_for_scaling
          = ⟨reached, values_for_scaling ++ before.map Prod.snd, some e⟩)
    ∧ (∀ record val, (record, val) ∈ emitted_floats proxy type options records
        ↔ record ∈ records ∧ options.valid_tile_cycle record = true
          ∧ proxy record type = val ∧ val ≠ float32.nan)
    ∧ (emitted_floats proxy type options records).map Prod.fst
        = records.filter fun record =>
            options.valid_tile_cycle record && decide (proxy record type ≠ float32.nan)
    ∧ (∀ val ∈ (emitted_floats proxy type options records).map Prod.snd, val ≠ float32.nan)
    ∧ (∀ lane, 1 ≤ lane → lane < 4294967296 → lane_index lane = lane - 1)
    ∧ populate_flowcell_map_checked members set_data [] proxy type layout options data
        values_for_scaling = ⟨data, values_for_scaling, none⟩ := by
  have hfilter : (emitted_floats proxy type options records).map Prod.fst
      = records.filter fun record =>
          options.valid_tile_cycle record && decide (proxy record type ≠ float32.nan) := by
    induction records with
    | nil => rfl
    | cons record rest ih =>
      rw [emitted_floats_cons, List.filter_cons]
      by_cases hv : options.valid_tile_cycle record = true
      · by_cases hp : proxy record type = float32.nan
        · simp [hv, hp, ih]
        · simp [hv, hp, ih]
      · simp only [Bool.not_eq_true] at hv
        simp [hv, ih]
  have heq := populate_flowcell_map_checked_eq members set_data records proxy type layout options
    data values_for_scaling
  refine ⟨heq, ?_, ?_, mem_emitted_floats proxy type options records, hfilter, ?_, ?_, rfl⟩
  · intro written hall
    rw [heq]
    exact grid_writes_all_written _ _ _ _ _ hall
  · intro before cur after reached e hsplit hall herr
    rw [heq, hsplit]
    exact grid_writes_first_error _ _ _ _ _ _ _ _ hall herr
  · intro val hval
    obtain ⟨⟨record, v⟩, hmem, hv⟩ := List.mem_map.mp hval
    simp only at hv
    subst hv
    exact ((mem_emitted_floats proxy type options records record v).mp hmem).2.2.2
  · intro lane h1 h2
    unfold lane_index UINT_MODULUS
    omega

/-- Claim C2 fails as stated on a stream with a record outside the grid: over the grid of one lane
and two tiles, the stream of a record of lane 0 with the value 5 and a record of lane 1 with the
value 4 emits both records, but the write of the first is at row `0 - 1 = 4294967295` and throws
"Row index out of bounds", so no value is appended (not 5 and 4) and the record of lane 1 gets no
grid write: its cell still holds 0, where the stream of that record alone writes 4. -/
theorem populate_flowcell_map_write_throws :
    emitted_floats example_values.error_value metric_type.ErrorRate
        (example_options false false false).tofilter_options
        [(⟨0, 1, some 5⟩ : example_record), ⟨1, 1, some 4⟩]
      = [(⟨0, 1, some 5⟩, float32.of_nat 5), (⟨1, 1, some 4⟩, float32.of_nat 4)]
    ∧ lane_index 0 = 4294967295
    ∧ (populate_flowcell_map_checked example_members example_grid.set_data
        [(⟨0, 1, some 5⟩ : example_record), ⟨1, 1, some 4⟩] example_values.error_value
        metric_type.ErrorRate (example_metrics []).flowcell.toflowcell_layout
        (example_options false false false).tofilter_options
        (⟨1, 2, [.finite 0, .finite 0]⟩ : example_cells) []).error
      = some ⟨"Row index out of bounds"⟩
    ∧ (populate_flowcell_map_checked example_members example_grid.set_data
        [(⟨0, 1, some 5⟩ : example_record), ⟨1, 1, some 4⟩] example_values.error_value
        metric_type.ErrorRate (example_metrics []).flowcell.toflowcell_layout
        (example_options false false false).tofilter_options
        (⟨1, 2, [.finite 0, .finite 0]⟩ : example_cells) []).values_for_scaling
      = []
    ∧ (populate_flowcell_map_checked example_members example_grid.set_data
        [(⟨0, 1, some 5⟩ : example_record), ⟨1, 1, some 4⟩] example_values.error_value
        metric_type.ErrorRate (example_metrics []).flowcell.toflowcell_layout
        (example_options false false false).tofilter_options
        (⟨1, 2, [.finite 0, .finite 0]⟩ : example_cells) []).data
      = ⟨1, 2, [.finite 0, .finite 0]⟩
    ∧ (populate_flowcell_map_checked example_members example_grid.set_data
        [(⟨1, 1, some 4⟩ : example_record)] example_values.error_value
        metric_type.ErrorRate (example_metrics []).flowcell.toflowcell_layout
        (example_options false false false).tofilter_options
        (⟨1, 2, [.finite 0, .finite 0]⟩ : example_cells) []).data
      = ⟨1, 2, [float32.of_nat 4, .finite 0]⟩ := by
  refine ⟨by decide, by decide, by decide, by decide, by decide, by decide⟩

/-- Claim C15, amended. Unsupported metric types are rejected: when no filter check fails,
`plot_flowcell_map` fails with `InvalidMetricType` for every type whose category is none of Tile,
Extraction, CorrectedInt, Q and Error, and for every type in one of the five it reaches the
populator. When no grid write of the populator throws, the call succeeds with the grid populated
by the emitted records of that category, the range scaled over their values and the label set to
the description of the type; when a grid write throws (a record outside the grid), the call fails
with `index_out_of_bounds_exception` and leaves the grid as that write found it, and the range and
the texts as they were. The name-taking overload fails with `InvalidMetricType`, the flowcell map
untouched, for every name that parses to the unknown metric type. -/
theorem unsupported_metric_type_rejected {R G : Type} (ext : metric_type_ext)
    (logic : metric_logic R) (values : metric_values R) (members : metric_members R)
    (grid : grid_members G) (metrics : run_metrics R) (type : metric_type)
    (options : plot_filter_options R) (data : flowcell_map G)
    (hchecks : filter_checks_pass ext metrics type options) :
    (¬ supported_group (ext.to_group type) →
      plot_flowcell_map_checked ext logic values members grid metrics type options data
        = ⟨metrics, prepare_flowcell_map_checked grid metrics options data,
            some .invalid_metric_type⟩)
    ∧ (supported_group (ext.to_group type) →
      ((plotted_writes ext logic values members grid metrics type options data).error = none →
        (plot_flowcell_map_checked ext logic values members grid metrics type options
            data).error = none
        ∧ all_written
            (grid_write_checked members grid.set_data metrics.flowcell.toflowcell_layout
              options.tofilter_options)
            (emitted_floats (plotted_float ext values type options) type
              options.tofilter_options (plotted_records ext logic metrics type))
            (prepare_flowcell_map_checked grid metrics options data).grid
            (plot_flowcell_map_checked ext logic values members grid metrics type options
              data).data.grid
        ∧ (plot_flowcell_map_checked ext logic values members grid metrics type options
              data).data
          = finish_flowcell_map_checked ext metrics type options
              { prepare_flowcell_map_checked grid metrics options data with
                grid := (plotted_writes ext logic values members grid metrics type options
                  data).data }
              (plotted_floats ext logic values metrics type options)
        ∧ (plot_flowcell_map_checked ext logic values members grid metrics type options
              data).data.saxis
          = scale_range_binary32 type (plotted_floats ext logic values metrics type options)
              data.saxis
        ∧ (plot_flowcell_map_checked ext logic values members grid metrics type options
              data).data.label
          = ext.to_description type)
      ∧ ((plotted_writes ext logic values members grid metrics type options data).error
            ≠ none →
        (plot_flowcell_map_checked ext logic values members grid metrics type options
            data).error = some .index_out_of_bounds
        ∧ (plot_flowcell_map_checked ext logic values members grid metrics type options
              data).data
          = { data with
              grid := (plotted_writes ext logic values members grid metrics type options
                data).data }))
    ∧ (∀ metric_name, ext.parse metric_name = metric_type.UnknownMetricType →
        plot_flowcell_map_by_name_checked ext logic values members grid metrics metric_name
            options data
          = ⟨metrics, data, some .invalid_metric_type⟩) := by
  refine ⟨?_, ?_, ?_⟩
  · intro hns
    obtain ⟨hv, hc, hr, _, _⟩ := hchecks
    have h1 : (ext.is_cycle_metric type && options.all_cycles) = false := by
      cases h : ext.is_cycle_metric type <;> cases h' : options.all_cycles <;> simp_all
    have h2 : (ext.is_read_metric type && options.all_reads && decide (metrics.reads_size > 1))
        = false := by
      cases h : ext.is_read_metric type <;> cases h' : options.all_reads <;> simp_all
    cases hg : ext.to_group type with
    | other code => simp [plot_flowcell_map_checked, hv, h1, h2, hg]
    | _ => exact absurd (by simp [supported_group, hg]) hns
  · intro hsup
    obtain ⟨collapsed, heq⟩ := plot_flowcell_map_checked_supported ext logic values members grid
      metrics type options data hchecks hsup
    rw [heq]
    constructor
    · intro hnone
      obtain ⟨hall, hvals⟩ := grid_writes_no_error _ _ _ _ hnone
      have hfin : plot_after_populate ext { metrics with q_collapsed_metric_set := collapsed }
          type options (prepare_flowcell_map_checked grid metrics options data)
          (plotted_writes ext logic values members grid metrics type options data)
          = ⟨{ metrics with q_collapsed_metric_set := collapsed },
              finish_flowcell_map_checked ext metrics type options
                { prepare_flowcell_map_checked grid metrics options data with
                  grid := (plotted_writes ext logic values members grid metrics type options
                    data).data }
                (plotted_floats ext logic values metrics type options), none⟩ := by
        unfold plot_after_populate
        rw [hnone]
        simp only [plotted_floats]
        unfold plotted_writes
        rw [hvals]
        rfl
      rw [hfin]
      refine ⟨rfl, ?_, rfl, ?_, ?_⟩
      · simp only [(finish_flowcell_map_checked_fields ext metrics type options _ _).2.1]
        exact hall
      · simp only [(finish_flowcell_map_checked_fields ext metrics type options _ _).1]
        simp [scale_range_binary32, general_range_binary32, set_range_binary32]
      · simp only [(finish_flowcell_map_checked_fields ext metrics type options _ _).2.2]
    · intro hsome
      unfold plot_after_populate
      cases herr : (plotted_writes ext logic values members grid metrics type options
          data).error with
      | none => exact absurd herr hsome
      | some e => exact ⟨rfl, rfl⟩
  · intro metric_name hname
    simp [plot_flowcell_map_by_name_checked, hname]

theorem unsupported_metric_type_rejected_witness :
    filter_checks_pass example_ext (example_metrics [⟨1, 1, some 2⟩, ⟨1, 2, some 12⟩])
        .ErrorRate (example_options false false false)
    ∧ (plot_flowcell_map_checked example_ext example_logic example_values example_members
        example_grid (example_metrics [⟨1, 1, some 2⟩, ⟨1, 2, some 12⟩]) .ErrorRate
        (example_options false false false) example_map).error = none
    ∧ (plot_flowcell_map_checked example_ext example_logic example_values example_members
        example_grid (example_metrics [⟨1, 1, some 2⟩, ⟨1, 2, some 12⟩]) .ErrorRate
        (example_options false false false) example_map).data.label
      = example_ext.to_description .ErrorRate :=
  ⟨by decide,
    (((unsupported_metric_type_rejected example_ext example_logic example_values
      example_members example_grid (example_metrics [⟨1, 1, some 2⟩, ⟨1, 2, some 12⟩])
      .ErrorRate (example_options false false false) example_map (by decide)).2.1
        (by decide)).1 (by decide)).1,
    (((unsupported_metric_type_rejected example_ext example_logic example_values
      example_members example_grid (example_metrics [⟨1, 1, some 2⟩, ⟨1, 2, some 12⟩])
      .ErrorRate (example_options false false false) example_map (by decide)).2.1
        (by decide)).1 (by decide)).2.2.2.2⟩

/-- Claim C15 fails as stated on a run with a record outside the grid: in the run of one lane of
two tiles whose only error record is in lane 3, no filter check fails and `ErrorRate` is in the
Error category, but the grid write of the record, at row 2, throws and `plot_flowcell_map` fails
with `index_out_of_bounds_exception`: it does not succeed, and it sets neither the range nor the
label. -/
theorem supported_metric_type_write_throws :
    filter_checks_pass example_ext (example_metrics [⟨3, 1, some 2⟩]) .ErrorRate
        (example_options false false false)
    ∧ supported_group (example_ext.to_group .ErrorRate)
    ∧ (plot_flowcell_map_checked example_ext example_logic example_values example_members
        example_grid (example_metrics [⟨3, 1, some 2⟩]) .ErrorRate
        (example_options false false false) example_map).error = some .index_out_of_bounds
    ∧ (plot_flowcell_map_checked example_ext example_logic example_values example_members
        example_grid (example_metrics [⟨3, 1, some 2⟩]) .ErrorRate
        (example_options false false false) example_map).data.grid
      = ⟨1, 2, [.finite 0, .finite 0]⟩
    ∧ (plot_flowcell_map_checked example_ext example_logic example_values example_members
        example_grid (example_metrics [⟨3, 1, some 2⟩]) .ErrorRate
        (example_options false false false) example_map).data.label = "old"
    ∧ (plot_flowcell_map_checked example_ext example_logic example_values example_members
        example_grid (example_metrics [⟨3, 1, some 2⟩]) .ErrorRate
        (example_options false false false) example_map).data.saxis
      = ⟨float32.of_nat 1, float32.of_nat 2⟩ := by
  refine ⟨by decide, by decide, by decide, by decide, by decide, by decide⟩

end interop
